import Mathlib

/-!
# The SELECT executor of miniob

A shallow embedding of `storage/common/condition_filter.cpp` and
`sql/executor/select_executor.cpp`, followed by the properties settled about
them.

Conventions of the embedding.

* C strings are `String`; a null `char*` is `none`.
* A `void*` payload is a `RawData`: what the bytes read as under each of the
  three casts the code applies to them.
* A finite single-precision value `x` is held as the integer `x * 2^149`
  (a `CFloat`): every finite `float` is a multiple of `2^-149`, so the encoding
  is exact, and the order of floats is the order of integers.  Infinities and
  NaN are outside the model.
* `none` as the result of a function stands for undefined behaviour of the C++
  code (dereference of a null pointer, `std::string` built from a null
  pointer, `std::stable_sort` with a comparator that is no strict weak
  ordering).
* Out-parameters are returned next to the result code.
-/

set_option maxRecDepth 8192

namespace Miniob

/-! ## Declarations of rc.h and parse.h -/

/-- Result codes of rc.h that the executor returns. -/
inductive RC
  | SUCCESS
  | SQL_SYNTAX
  | SCHEMA_TABLE_NOT_EXIST
  | SCHEMA_FIELD_MISSING
  | SCHEMA_FIELD_TYPE_MISMATCH
  | INVALID_ARGUMENT
  deriving DecidableEq

/-- Modelled from the spec: the enumeration AttrType of parse.h (the header is
not among the sources).  The members are those of the spec's value model;
`UNDEFINED` is the least and `DATES` the greatest, as the range checks of
`DefaultConditionFilter::init` require. -/
inductive AttrType
  | UNDEFINED
  | CHARS
  | INTS
  | FLOATS
  | NULLS
  | DATES
  deriving DecidableEq

/-- Numeric value of an AttrType enumerator. -/
def AttrType.code : AttrType → Nat
  | .UNDEFINED => 0
  | .CHARS => 1
  | .INTS => 2
  | .FLOATS => 3
  | .NULLS => 4
  | .DATES => 5

/-- Modelled from the spec: the enumeration CompOp of parse.h (the header is
not among the sources).  The six comparison operators come in the order of the
`switch` of `judge_cmp_result`; `NO_OP` is the greatest, as the range check of
`DefaultConditionFilter::init` requires. -/
inductive CompOp
  | EQUAL_TO
  | LESS_EQUAL
  | NOT_EQUAL
  | LESS_THAN
  | GREAT_EQUAL
  | GREAT_THAN
  | IS_NULL
  | NOT_NULL
  | NO_OP
  deriving DecidableEq

/-- Numeric value of a CompOp enumerator. -/
def CompOp.code : CompOp → Nat
  | .EQUAL_TO => 0
  | .LESS_EQUAL => 1
  | .NOT_EQUAL => 2
  | .LESS_THAN => 3
  | .GREAT_EQUAL => 4
  | .GREAT_THAN => 5
  | .IS_NULL => 6
  | .NOT_NULL => 7
  | .NO_OP => 8

/-! ## Single-precision arithmetic -/

/-- A finite `float` (or a `double` that is a multiple of `2^-149`), held as
its value times `2^149`. -/
abbrev CFloat := Int

/-- The integer that stands for the float 1.0. -/
def float_unit : Nat := 2 ^ 149

/-- Number of binary digits of `n`, by halving; the first argument bounds the
number of steps. -/
def bit_length_aux : Nat → Nat → Nat
  | 0, _ => 0
  | fuel + 1, n => if n = 0 then 0 else bit_length_aux fuel (n / 2) + 1

/-- Number of binary digits of `n` (0 for 0). -/
def bit_length (n : Nat) : Nat := bit_length_aux n n

/-- The integer nearest to `n / d`, ties to even. -/
def round_half_even (n d : Nat) : Nat :=
  let q := n / d
  let r := n % d
  if 2 * r < d then q else if d < 2 * r then q + 1 else if q % 2 = 0 then q else q + 1

/-- The multiple of `2^k` nearest to `n / d` (ties to even), where `k` is
chosen so that the result has at most `p` significant binary digits: IEEE 754
round-to-nearest-even with a `p`-digit significand, on the grid of multiples of
`2^-149`. -/
def round_significand (p n d : Nat) : Nat :=
  let k := bit_length (n / d) - p
  round_half_even n (d * 2 ^ k) * 2 ^ k

/-- Gives the natural number `m` the sign of `x`. -/
def with_sign (x : Int) (m : Nat) : Int := if x < 0 then -(m : Int) else (m : Int)

/-- Conversion to `float` of a value given on the `2^-149` grid. -/
def round_to_float (x : Int) : CFloat := with_sign x (round_significand 24 x.natAbs 1)

/-- Conversion to `double` of a value given on the `2^-149` grid. -/
def round_to_double (x : Int) : Int := with_sign x (round_significand 53 x.natAbs 1)

/-- The C++ conversion of an integer (`int`, `size_t`) to `float`. -/
def int_to_float (n : Int) : CFloat := round_to_float (n * float_unit)

/-- The `float` quotient `a / b` of two floats, `b` non-zero. -/
def float_div (a b : CFloat) : CFloat :=
  with_sign (a * b) (round_significand 24 (a.natAbs * float_unit) b.natAbs)

/-- The C++ conversion of a `double` to `int`: truncation toward zero. -/
def double_to_int (x : Int) : Int := Int.tdiv x float_unit

/-! ## Values and records -/

/-- The bytes behind a `void*`, as each cast of the code reads them:
`*(int*)data`, `*(float*)data` and `(const char*)data`. -/
structure RawData where
  as_int : Int
  as_float : CFloat
  as_cstr : String
  deriving DecidableEq

/-- The struct Value of parse.h: a type tag and a payload pointer. -/
structure Value where
  type : AttrType
  data : RawData
  deriving DecidableEq

/-- A physical record: `null_at off` is `*(bool*)(rec.data + off)` and
`data_at off` is the pointer `rec.data + off`. -/
structure Record where
  null_at : Nat → Bool
  data_at : Nat → RawData

/-- Modelled from the spec: FieldMeta (field_meta.h is not among the sources):
name, declared type, byte offset into the record and nullable flag. -/
structure FieldMeta where
  name : String
  type : AttrType
  offset : Nat
  nullable : Bool
  deriving DecidableEq

/-- A table as the executor sees it: its name, the fields of its TableMeta and
the records its scan yields under the transaction, in storage order. -/
structure Table where
  name : String
  fields : List FieldMeta
  records : List Record

/-- Modelled from the spec: `TableMeta::field(name)`, the field of that name or
null; a null name finds no field. -/
def Table.field (table : Table) (name : Option String) : Option FieldMeta :=
  match name with
  | none => none
  | some n => table.fields.find? (fun fm => fm.name = n)

/-- The relation attribute RelAttr of parse.h; either name may be null. -/
structure RelAttr where
  relation_name : Option String
  attribute_name : Option String
  deriving DecidableEq

/-- The struct Condition of parse.h. -/
structure Condition where
  left_is_attr : Int
  left_value : Value
  left_attr : RelAttr
  comp : CompOp
  right_is_attr : Int
  right_attr : RelAttr
  right_value : Value
  deriving DecidableEq

/-! ## Library functions -/

/-- Lexicographic comparison of two character sequences by character code,
-1, 0 or 1. -/
def strcmp_chars : List Char → List Char → Int
  | [], [] => 0
  | [], _ :: _ => -1
  | _ :: _, [] => 1
  | a :: as, b :: bs =>
    if a.toNat < b.toNat then -1 else if b.toNat < a.toNat then 1 else strcmp_chars as bs

/-- The libc `strcmp`, of which the code uses only the sign. -/
def strcmp (a b : String) : Int := strcmp_chars a.data b.data

/-- Modelled from the spec: `FloatValue::compare` (tuple.h is not among the
sources), -1, 0 or +1 by real-number comparison. -/
def float_compare (a b : CFloat) : Int :=
  let result := a - b
  if result > 0 then 1 else if result < 0 then -1 else 0

/-! ## condition_filter.cpp -/

namespace condition_filter

/-- The function judge_cmp_result of condition_filter.cpp.  For an operator
outside the six cases of the `switch` the code logs a panic and returns
`cmp_result` converted to `bool`. -/
def judge_cmp_result (comp_op : CompOp) (cmp_result : Int) : Bool :=
  match comp_op with
  | .EQUAL_TO => decide (0 = cmp_result)
  | .LESS_EQUAL => decide (cmp_result ≤ 0)
  | .NOT_EQUAL => decide (cmp_result ≠ 0)
  | .LESS_THAN => decide (cmp_result < 0)
  | .GREAT_EQUAL => decide (cmp_result ≥ 0)
  | .GREAT_THAN => decide (cmp_result > 0)
  | _ => decide (cmp_result ≠ 0)

/-- The function value_compare of condition_filter.cpp. -/
def value_compare (lhs rhs : Value) (comp_op : CompOp) : Bool :=
  if (CompOp.IS_NULL = comp_op ∧ AttrType.NULLS = lhs.type ∧ AttrType.NULLS = rhs.type) ∨
      (CompOp.NOT_NULL = comp_op ∧
        xor (decide (AttrType.NULLS = lhs.type)) (decide (AttrType.NULLS = rhs.type)) = true) then
    true
  else if (AttrType.CHARS = lhs.type ∨ AttrType.DATES = lhs.type) ∧
      (AttrType.CHARS = rhs.type ∨ AttrType.DATES = rhs.type) then
    let cmp_result := strcmp lhs.data.as_cstr rhs.data.as_cstr
    judge_cmp_result comp_op cmp_result
  else if (AttrType.INTS = lhs.type ∨ AttrType.FLOATS = lhs.type) ∧
      (AttrType.INTS = rhs.type ∨ AttrType.FLOATS = rhs.type) then
    let left_value : CFloat :=
      if AttrType.INTS = lhs.type then int_to_float lhs.data.as_int else lhs.data.as_float
    let right_value : CFloat :=
      if AttrType.INTS = rhs.type then int_to_float rhs.data.as_int else rhs.data.as_float
    let cmp_result := float_compare left_value right_value
    judge_cmp_result comp_op cmp_result
  else
    false

/-- The struct ConDesc: one side of a bound condition, an attribute (with its
field meta) or a literal value. -/
structure ConDesc where
  is_attr : Bool
  field_meta : Option FieldMeta
  value : Option Value
  deriving DecidableEq

/-- The data members of DefaultConditionFilter. -/
structure DefaultConditionFilter where
  left_ : ConDesc
  right_ : ConDesc
  left_type_ : AttrType
  right_type_ : AttrType
  comp_op_ : CompOp
  deriving DecidableEq

/-- The constructor `DefaultConditionFilter::DefaultConditionFilter()`, which
clears both sides.  The types and the operator keep the initialisers of
condition_filter.h, which is not among the sources; they are taken to be
UNDEFINED and NO_OP. -/
def DefaultConditionFilter.new : DefaultConditionFilter :=
  { left_ := { is_attr := false, field_meta := none, value := none }
    right_ := { is_attr := false, field_meta := none, value := none }
    left_type_ := AttrType.UNDEFINED
    right_type_ := AttrType.UNDEFINED
    comp_op_ := CompOp.NO_OP }

/-- `DefaultConditionFilter::init(left, right, left_type, right_type, comp_op)`:
the result code and the filter after the call. -/
def DefaultConditionFilter.init_desc (self : DefaultConditionFilter) (left right : ConDesc)
    (left_type right_type : AttrType) (comp_op : CompOp) : RC × DefaultConditionFilter :=
  if left_type.code ≤ AttrType.UNDEFINED.code ∨ left_type.code > AttrType.DATES.code then
    (RC.INVALID_ARGUMENT, self)
  else if right_type.code ≤ AttrType.UNDEFINED.code ∨ right_type.code > AttrType.DATES.code then
    (RC.INVALID_ARGUMENT, self)
  else if comp_op.code < CompOp.EQUAL_TO.code ∨ comp_op.code ≥ CompOp.NO_OP.code then
    (RC.INVALID_ARGUMENT, self)
  else
    (RC.SUCCESS,
      { left_ := left, right_ := right, left_type_ := left_type, right_type_ := right_type,
        comp_op_ := comp_op })

/-- `DefaultConditionFilter::init(table, condition)`: the result code and the
filter after the call. -/
def DefaultConditionFilter.init (self : DefaultConditionFilter) (table : Table)
    (condition : Condition) : RC × DefaultConditionFilter :=
  let bind_left : Option (ConDesc × AttrType) :=
    if 1 = condition.left_is_attr then
      match table.field condition.left_attr.attribute_name with
      | none => none
      | some field_meta =>
        some ({ is_attr := true, field_meta := some field_meta, value := none }, field_meta.type)
    else
      some ({ is_attr := false, field_meta := none, value := some condition.left_value },
        condition.left_value.type)
  match bind_left with
  | none => (RC.SCHEMA_FIELD_MISSING, self)
  | some (left, type_left) =>
    let bind_right : Option (ConDesc × AttrType) :=
      if 1 = condition.right_is_attr then
        match table.field condition.right_attr.attribute_name with
        | none => none
        | some field_meta =>
          some ({ is_attr := true, field_meta := some field_meta, value := none },
            field_meta.type)
      else
        some ({ is_attr := false, field_meta := none, value := some condition.right_value },
          condition.right_value.type)
    match bind_right with
    | none => (RC.SCHEMA_FIELD_MISSING, self)
    | some (right, type_right) =>
      if type_left = type_right ∨ type_left = AttrType.NULLS ∨ type_right = AttrType.NULLS ∨
          ((AttrType.INTS = type_left ∨ AttrType.FLOATS = type_left) ∧
            (AttrType.INTS = type_right ∨ AttrType.FLOATS = type_right)) then
        self.init_desc left right type_left type_right condition.comp
      else
        (RC.SCHEMA_FIELD_TYPE_MISMATCH, self)

/-- One of the two symmetric blocks of `DefaultConditionFilter::filter`: the
value a side materialises to on a record.  `none` when the pointer the side
needs is null. -/
def side_value (side : ConDesc) (side_type : AttrType) (rec : Record) : Option Value :=
  if side.is_attr then
    match side.field_meta with
    | none => none
    | some field_meta =>
      if field_meta.nullable then
        let is_null := rec.null_at field_meta.offset
        if is_null then
          some { type := AttrType.NULLS, data := { as_int := 0, as_float := 0, as_cstr := "" } }
        else
          some { type := side_type, data := rec.data_at (field_meta.offset + 1) }
      else
        some { type := side_type, data := rec.data_at field_meta.offset }
  else
    side.value

/-- `DefaultConditionFilter::filter(rec)`. -/
def DefaultConditionFilter.filter (self : DefaultConditionFilter) (rec : Record) : Option Bool :=
  match side_value self.left_ self.left_type_ rec with
  | none => none
  | some left_value =>
    match side_value self.right_ self.right_type_ rec with
    | none => none
    | some right_value => some (value_compare left_value right_value self.comp_op_)

end condition_filter

/-! ## tuple.h -/

/-- Modelled from the spec: the class TupleValue and its subclasses (tuple.h is
not among the sources), a tagged value over INTS, FLOATS, CHARS, DATES and
NULLS; a date is stored as a string. -/
inductive TupleValue
  | IntValue (value : Int)
  | FloatValue (value : CFloat)
  | StringValue (value : String)
  | DateValue (value : String)
  | NullValue
  deriving DecidableEq

/-- Modelled from the spec: `TupleValue::get_type`. -/
def TupleValue.get_type : TupleValue → AttrType
  | .IntValue _ => AttrType.INTS
  | .FloatValue _ => AttrType.FLOATS
  | .StringValue _ => AttrType.CHARS
  | .DateValue _ => AttrType.DATES
  | .NullValue => AttrType.NULLS

/-- Real-number comparison of two integers, -1, 0 or +1. -/
def int_compare (a b : Int) : Int :=
  if a < b then -1 else if b < a then 1 else 0

/-- Modelled from the spec: `TupleValue::compare` (§4.1), -1, 0 or +1 for
comparable types: numbers by real-number comparison, an INTS value promoted to
FLOATS against a FLOATS value; CHARS and DATES as byte strings.  The spec
leaves the result unspecified on NULLS and on incomparable types, where the
model answers 0. -/
def TupleValue.compare : TupleValue → TupleValue → Int
  | .IntValue a, .IntValue b => int_compare a b
  | .IntValue a, .FloatValue b => float_compare (int_to_float a) b
  | .FloatValue a, .IntValue b => float_compare a (int_to_float b)
  | .FloatValue a, .FloatValue b => float_compare a b
  | .StringValue a, .StringValue b => strcmp a b
  | .StringValue a, .DateValue b => strcmp a b
  | .DateValue a, .StringValue b => strcmp a b
  | .DateValue a, .DateValue b => strcmp a b
  | _, _ => 0

/-- Modelled from the spec: a Tuple, the ordered sequence of its values. -/
abbrev Tuple := List TupleValue

/-- Modelled from the spec: `Tuple::get(index)`.  An index outside the tuple
is undefined in the code; the model answers NullValue there. -/
def Tuple.get (tuple : Tuple) (index : Int) : TupleValue :=
  if index < 0 then TupleValue.NullValue else tuple.getD index.toNat TupleValue.NullValue

/-- Modelled from the spec: TupleField, (type, table_name, field_name,
aggregate_name?). -/
structure TupleField where
  type : AttrType
  table_name : String
  field_name : String
  aggregate_name : Option String
  deriving DecidableEq

/-- Modelled from the spec: TupleSchema, an ordered sequence of TupleField. -/
abbrev TupleSchema := List TupleField

/-- The search loop of `index_of_field`, from position `i` on. -/
def index_of_field_from (table_name field_name : String) : List TupleField → Nat → Int
  | [], _ => -1
  | field :: rest, i =>
    if field.table_name = table_name ∧ field.field_name = field_name then (i : Int)
    else index_of_field_from table_name field_name rest (i + 1)

/-- Modelled from the spec: `TupleSchema::index_of_field(table, field)`, the
first index of the field or -1. -/
def TupleSchema.index_of_field (schema : TupleSchema) (table_name field_name : String) : Int :=
  index_of_field_from table_name field_name schema 0

/-- Modelled from the spec: `TupleSchema::add`. -/
def TupleSchema.add (schema : TupleSchema) (type : AttrType) (table_name field_name : String)
    (aggregate_name : Option String) : TupleSchema :=
  schema ++ [{ type := type, table_name := table_name, field_name := field_name,
               aggregate_name := aggregate_name }]

/-- Modelled from the spec: `TupleSchema::add_if_not_exists`. -/
def TupleSchema.add_if_not_exists (schema : TupleSchema) (type : AttrType)
    (table_name field_name : String) : TupleSchema :=
  if schema.index_of_field table_name field_name = -1 then
    TupleSchema.add schema type table_name field_name none
  else schema

/-- Modelled from the spec: `TupleSchema::append`. -/
def TupleSchema.append (schema other : TupleSchema) : TupleSchema := schema ++ other

/-- Modelled from the spec: `TupleSchema::from_table`, which adds the full
per-column schema of the table. -/
def TupleSchema.from_table (table : Table) (schema : TupleSchema) : TupleSchema :=
  schema ++ table.fields.map (fun fm =>
    { type := fm.type, table_name := table.name, field_name := fm.name, aggregate_name := none })

/-- Modelled from the spec: TupleSet, a schema and its tuples. -/
structure TupleSet where
  schema : TupleSchema
  tuples : List Tuple
  deriving DecidableEq

/-! ## execution_node: the scan of one table -/

/-- `CompositeConditionFilter::filter` of condition_filter.cpp: the
short-circuit conjunction of the filters. -/
def condition_filter.composite_filter :
    List condition_filter.DefaultConditionFilter → Record → Option Bool
  | [], _ => some true
  | f :: rest, rec =>
    match f.filter rec with
    | none => none
    | some false => some false
    | some true => condition_filter.composite_filter rest rec

/-- Modelled from the spec: the members of SelectExeNode set by its `init`
(execution_node.h is not among the sources). -/
structure SelectExeNode where
  table_ : Table
  tuple_schema_ : TupleSchema
  condition_filters_ : List condition_filter.DefaultConditionFilter

/-- Modelled from the spec: the record to tuple adapter (§4.2), one value. -/
def field_to_value (field_meta : FieldMeta) (rec : Record) : TupleValue :=
  if field_meta.nullable ∧ rec.null_at field_meta.offset = true then TupleValue.NullValue
  else
    let data := rec.data_at (if field_meta.nullable then field_meta.offset + 1 else field_meta.offset)
    match field_meta.type with
    | .INTS => TupleValue.IntValue data.as_int
    | .FLOATS => TupleValue.FloatValue data.as_float
    | .CHARS => TupleValue.StringValue data.as_cstr
    | .DATES => TupleValue.DateValue data.as_cstr
    | _ => TupleValue.NullValue

/-- Modelled from the spec: the record to tuple adapter (§4.2): the tuple of a
record under a schema, each schema field read through the table's field meta of
that name; `none` when the table has no such field. -/
def record_to_tuple (table : Table) : TupleSchema → Record → Option Tuple
  | [], _ => some []
  | field :: rest, rec =>
    match table.field (some field.field_name) with
    | none => none
    | some field_meta =>
      match record_to_tuple table rest rec with
      | none => none
      | some values => some (field_to_value field_meta rec :: values)

/-- The scan loop: the tuples of the records that every filter accepts. -/
def scan_records (node : SelectExeNode) : List Record → Option (List Tuple)
  | [] => some []
  | rec :: rest =>
    match condition_filter.composite_filter node.condition_filters_ rec with
    | none => none
    | some accepted =>
      match scan_records node rest with
      | none => none
      | some tuples =>
        if accepted then
          match record_to_tuple node.table_ node.tuple_schema_ rec with
          | none => none
          | some tuple => some (tuple :: tuples)
        else some tuples

/-- Modelled from the spec: `SelectExeNode::execute` (§4.4): for each record
for which every filter returns true, the adapter's tuple is appended. -/
def SelectExeNode.execute (node : SelectExeNode) : Option (RC × TupleSet) :=
  match scan_records node node.table_.records with
  | none => none
  | some tuples => some (RC.SUCCESS, { schema := node.tuple_schema_, tuples := tuples })

/-! ## select_executor.cpp -/

namespace select_executor

/-- One ORDER BY key of the struct Selects. -/
structure OrderBy where
  attr : RelAttr
  is_desc : Int
  deriving DecidableEq

/-- The struct Selects of parse.h; each `*_num` counter is the length of its
list. -/
structure Selects where
  attributes : List RelAttr
  relations : List String
  conditions : List Condition
  orders : List OrderBy
  aggregates : List (Option String)

/-- The members of SelectExecutor that `select_filter_tuples`, `order_tuples`,
`project` and `aggregate` read: `db_` stands for the tables that
`DefaultHandler::find_table` finds in the database of that name. -/
structure SelectExecutor where
  db_ : List Table
  selects_ : Selects

/-- Modelled from the spec: `DefaultHandler::find_table(db, name)`, the table
of that name or null. -/
def SelectExecutor.find_table (self : SelectExecutor) (table_name : String) : Option Table :=
  self.db_.find? (fun table => table.name = table_name)

/-- The function judge_cmp_result of select_executor.cpp. -/
def judge_cmp_result (comp_op : CompOp) (cmp_result : Int) : Bool :=
  match comp_op with
  | .EQUAL_TO => decide (0 = cmp_result)
  | .LESS_EQUAL => decide (cmp_result ≤ 0)
  | .NOT_EQUAL => decide (cmp_result ≠ 0)
  | .LESS_THAN => decide (cmp_result < 0)
  | .GREAT_EQUAL => decide (cmp_result ≥ 0)
  | .GREAT_THAN => decide (cmp_result > 0)
  | _ => decide (cmp_result ≠ 0)

/-- The struct TupleCons of select_executor.h. -/
structure TupleCons where
  condition : Condition
  type : AttrType
  left_value_pos : Int
  right_value_pos : Int
  deriving DecidableEq

/-- The two search loops of `TupleFilter::init`: position and type of the first
field with the given table and field name, from position `i` on; position -1
and type UNDEFINED when there is none. -/
def find_tuple_field (table_name field_name : String) : List TupleField → Nat → Int × AttrType
  | [], _ => (-1, AttrType.UNDEFINED)
  | tuple_field :: rest, i =>
    if tuple_field.table_name = table_name ∧ tuple_field.field_name = field_name then
      ((i : Int), tuple_field.type)
    else find_tuple_field table_name field_name rest (i + 1)

/-- The loop of `TupleFilter::init` over the conditions, `cons` being
`tuple_cons_vector_` so far.  A null relation or attribute name of a condition
read into a `std::string` is undefined behaviour. -/
def tuple_filter_init_loop (left_schema right_schema : TupleSchema) :
    List Condition → List TupleCons → Option (RC × List TupleCons)
  | [], cons => some (RC.SUCCESS, cons)
  | condition :: rest, cons =>
    if condition.left_is_attr = 1 ∧ condition.right_is_attr = 1 then
      match condition.right_attr.relation_name, condition.right_attr.attribute_name with
      | some right_table_name, some right_field_name =>
        let right := find_tuple_field right_table_name right_field_name right_schema 0
        if -1 = right.1 then tuple_filter_init_loop left_schema right_schema rest cons
        else
          match condition.left_attr.relation_name, condition.left_attr.attribute_name with
          | some left_table_name, some left_field_name =>
            let left := find_tuple_field left_table_name left_field_name left_schema 0
            if -1 = left.1 then tuple_filter_init_loop left_schema right_schema rest cons
            else if left.2 ≠ right.2 then some (RC.SCHEMA_FIELD_TYPE_MISMATCH, cons)
            else
              tuple_filter_init_loop left_schema right_schema rest
                (cons ++ [{ condition := condition, type := left.2, left_value_pos := left.1,
                            right_value_pos := right.1 }])
          | _, _ => none
      | _, _ => none
    else tuple_filter_init_loop left_schema right_schema rest cons

/-- `TupleFilter::init(left_schema, right_schema, selects, db)` on a fresh
filter: the result code and `tuple_cons_vector_`. -/
def TupleFilter.init (left_schema right_schema : TupleSchema) (selects : Selects) :
    Option (RC × List TupleCons) :=
  tuple_filter_init_loop left_schema right_schema selects.conditions []

/-- `TupleFilter::filter(left_tuple, right_tuple)`. -/
def TupleFilter.filter : List TupleCons → Tuple → Tuple → Bool
  | [], _, _ => true
  | tuple_cons :: rest, left_tuple, right_tuple =>
    let left_value := Tuple.get left_tuple tuple_cons.left_value_pos
    let right_value := Tuple.get right_tuple tuple_cons.right_value_pos
    if left_value.get_type ≠ right_value.get_type ∨ AttrType.NULLS = left_value.get_type ∨
        AttrType.NULLS = right_value.get_type then
      false
    else
      let cmp_result := left_value.compare right_value
      if ¬ judge_cmp_result tuple_cons.condition.comp cmp_result = true then false
      else TupleFilter.filter rest left_tuple right_tuple

/-- The loop of `TupleProjcet::init`, `positions` being
`select_tuple_pos_vector_` so far. -/
def tuple_project_init_loop (tuple_schema : TupleSchema) :
    List TupleField → List Int → RC × List Int
  | [], positions => (RC.SUCCESS, positions)
  | select_tuple_field :: rest, positions =>
    let pos := tuple_schema.index_of_field select_tuple_field.table_name
      select_tuple_field.field_name
    if -1 = pos then (RC.SCHEMA_FIELD_MISSING, positions)
    else tuple_project_init_loop tuple_schema rest (positions ++ [pos])

/-- `TupleProjcet::init(tuple_schema, select_tuple_schema)` on a fresh
projector: the result code and `select_tuple_pos_vector_`. -/
def TupleProjcet.init (tuple_schema select_tuple_schema : TupleSchema) : RC × List Int :=
  tuple_project_init_loop tuple_schema select_tuple_schema []

/-- `TupleProjcet::project(tuple, new_tuple)`: the result code and
`new_tuple` after the call. -/
def TupleProjcet.project (select_tuple_pos_vector_ : List Int) (tuple new_tuple : Tuple) :
    RC × Tuple :=
  (RC.SUCCESS, new_tuple ++ select_tuple_pos_vector_.map (fun pos => Tuple.get tuple pos))

/-- `SelectExecutor::match_table`. -/
def SelectExecutor.match_table (self : SelectExecutor) (table_name_in_condition : Option String)
    (table_name_to_match : String) : Bool :=
  match table_name_in_condition with
  | some name => decide (0 = strcmp name table_name_to_match)
  | none => decide (self.selects_.relations.length = 1)

/-- `SelectExecutor::add_single_table_tuple_schema`: the result code and
`tuple_schema` after the call. -/
def SelectExecutor.add_single_table_tuple_schema (self : SelectExecutor) (table_name : String)
    (tuple_schema : TupleSchema) : RC × TupleSchema :=
  match self.find_table table_name with
  | none => (RC.SCHEMA_TABLE_NOT_EXIST, tuple_schema)
  | some table => (RC.SUCCESS, TupleSchema.from_table table tuple_schema)

/-- `SelectExecutor::schema_add_field`: the result code and `schema` after the
call; `none` when `find_table` returns null, which the code dereferences. -/
def SelectExecutor.schema_add_field (self : SelectExecutor) (table_name : String)
    (field_name : Option String) (schema : TupleSchema) : Option (RC × TupleSchema) :=
  match self.find_table table_name with
  | none => none
  | some table =>
    match table.field field_name with
    | none => some (RC.SCHEMA_FIELD_MISSING, schema)
    | some field_meta =>
      some (RC.SUCCESS, schema.add_if_not_exists field_meta.type table.name field_meta.name)

/-- The loop of `get_unique_table_name` over the relations, with the counter
and the table name found so far. -/
def unique_table_name_loop (tuple_schema : TupleSchema) (field_name : String) :
    List String → Nat → Option String → Option String
  | [], _, table_name => table_name
  | relation :: rest, cnt, table_name =>
    if -1 ≠ tuple_schema.index_of_field relation field_name then
      if cnt + 1 = 2 then none
      else unique_table_name_loop tuple_schema field_name rest (cnt + 1) (some relation)
    else unique_table_name_loop tuple_schema field_name rest cnt table_name

/-- `SelectExecutor::get_unique_table_name`. -/
def SelectExecutor.get_unique_table_name (self : SelectExecutor) (tuple_schema : TupleSchema)
    (field_name : String) : Option String :=
  unique_table_name_loop tuple_schema field_name self.selects_.relations 0 none

/-- The loop of `get_select_tuple_schema`: the first argument is `i + 1`, so
the loop visits `attributes[i]` for `i` from `attr_num - 1` down to 0.  `none`
when `strcmp` reads a null attribute name or `schema_add_field` dereferences a
null table. -/
def get_select_tuple_schema_loop (self : SelectExecutor) (tuple_schema : TupleSchema) :
    Nat → TupleSchema → Option (RC × TupleSchema)
  | 0, select_tuple_schema => some (RC.SUCCESS, select_tuple_schema)
  | i + 1, select_tuple_schema =>
    match self.selects_.attributes.get? i with
    | none => none
    | some attr =>
      match attr.attribute_name with
      | none => none
      | some attribute_name =>
        if 0 = strcmp "*" attribute_name then
          match attr.relation_name with
          | none =>
            if (i : Int) ≠ (self.selects_.attributes.length : Int) - 1 then
              some (RC.SQL_SYNTAX, select_tuple_schema)
            else some (RC.SUCCESS, tuple_schema)
          | some relation_name =>
            let r := self.add_single_table_tuple_schema relation_name select_tuple_schema
            if RC.SUCCESS ≠ r.1 then some r
            else get_select_tuple_schema_loop self tuple_schema i r.2
        else
          let resolved : Option String :=
            match attr.relation_name with
            | some relation_name => some relation_name
            | none => self.get_unique_table_name tuple_schema attribute_name
          match resolved with
          | none => some (RC.SQL_SYNTAX, select_tuple_schema)
          | some table_name =>
            match self.schema_add_field table_name (some attribute_name) select_tuple_schema with
            | none => none
            | some r =>
              if RC.SUCCESS ≠ r.1 then some r
              else get_select_tuple_schema_loop self tuple_schema i r.2

/-- `SelectExecutor::get_select_tuple_schema`: the result code and
`select_tuple_schema` after the call. -/
def SelectExecutor.get_select_tuple_schema (self : SelectExecutor)
    (tuple_schema select_tuple_schema : TupleSchema) : Option (RC × TupleSchema) :=
  get_select_tuple_schema_loop self tuple_schema self.selects_.attributes.length
    select_tuple_schema

/-- The test of `create_select_exe_node` that selects the conditions bound into
the scan of `table_name`. -/
def SelectExecutor.condition_is_for_table (self : SelectExecutor) (condition : Condition)
    (table_name : String) : Bool :=
  (decide (condition.left_is_attr = 0) && decide (condition.right_is_attr = 0)) ||
  (decide (condition.left_is_attr = 1) && decide (condition.right_is_attr = 0) &&
    self.match_table condition.left_attr.relation_name table_name) ||
  (decide (condition.left_is_attr = 0) && decide (condition.right_is_attr = 1) &&
    self.match_table condition.right_attr.relation_name table_name) ||
  (decide (condition.left_is_attr = 1) && decide (condition.right_is_attr = 1) &&
    self.match_table condition.left_attr.relation_name table_name &&
    self.match_table condition.right_attr.relation_name table_name)

/-- The loop of `create_select_exe_node` over the conditions, with
`condition_filters` so far: the code of the first filter whose `init` fails, or
the filters. -/
def create_condition_filters (self : SelectExecutor) (table : Table) (table_name : String) :
    List Condition → List condition_filter.DefaultConditionFilter →
      RC × List condition_filter.DefaultConditionFilter
  | [], condition_filters => (RC.SUCCESS, condition_filters)
  | condition :: rest, condition_filters =>
    if self.condition_is_for_table condition table_name then
      let r := condition_filter.DefaultConditionFilter.new.init table condition
      if r.1 ≠ RC.SUCCESS then (r.1, condition_filters)
      else create_condition_filters self table table_name rest (condition_filters ++ [r.2])
    else create_condition_filters self table table_name rest condition_filters

/-- `SelectExecutor::create_select_exe_node`: the result code and, on success,
the node as `SelectExeNode::init` sets it. -/
def SelectExecutor.create_select_exe_node (self : SelectExecutor) (table_name : String) :
    RC × Option SelectExeNode :=
  match self.find_table table_name with
  | none => (RC.SCHEMA_TABLE_NOT_EXIST, none)
  | some table =>
    let schema := TupleSchema.from_table table []
    let r := create_condition_filters self table table_name self.selects_.conditions []
    if r.1 ≠ RC.SUCCESS then (r.1, none)
    else (RC.SUCCESS,
      some { table_ := table, tuple_schema_ := schema, condition_filters_ := r.2 })

/-- The first loop of `select_all_table_tuple_sets`, over the relations in the
order visited (last to first), with `select_nodes` so far. -/
def create_select_nodes (self : SelectExecutor) :
    List String → List SelectExeNode → RC × List SelectExeNode
  | [], select_nodes => (RC.SUCCESS, select_nodes)
  | table_name :: rest, select_nodes =>
    match self.create_select_exe_node table_name with
    | (rc, none) => (rc, select_nodes)
    | (rc, some select_node) =>
      if rc ≠ RC.SUCCESS then (rc, select_nodes)
      else create_select_nodes self rest (select_nodes ++ [select_node])

/-- The second loop of `select_all_table_tuple_sets`, which executes the nodes
and collects their tuple sets. -/
def execute_select_nodes : List SelectExeNode → List TupleSet → Option (RC × List TupleSet)
  | [], tuple_sets => some (RC.SUCCESS, tuple_sets)
  | node :: rest, tuple_sets =>
    match node.execute with
    | none => none
    | some (rc, tuple_set) =>
      if rc ≠ RC.SUCCESS then some (rc, tuple_sets)
      else execute_select_nodes rest (tuple_sets ++ [tuple_set])

/-- `SelectExecutor::select_all_table_tuple_sets`: the result code and
`tuple_sets` after the call. -/
def SelectExecutor.select_all_table_tuple_sets (self : SelectExecutor)
    (tuple_sets : List TupleSet) : Option (RC × List TupleSet) :=
  let r := create_select_nodes self self.selects_.relations.reverse []
  if r.1 ≠ RC.SUCCESS then some (r.1, tuple_sets)
  else if r.2.isEmpty then some (RC.SQL_SYNTAX, tuple_sets)
  else execute_select_nodes r.2 tuple_sets

/-- The innermost loop of the join: the right tuples that the filter accepts
next to `left_tuple`, each appended to a copy of it. -/
def join_right (tuple_filter : List TupleCons) (left_tuple : Tuple) : List Tuple → List Tuple
  | [] => []
  | right_tuple :: rest =>
    if ¬ TupleFilter.filter tuple_filter left_tuple right_tuple = true then
      join_right tuple_filter left_tuple rest
    else (left_tuple ++ right_tuple) :: join_right tuple_filter left_tuple rest

/-- The loop of the join over the left tuples: `new_tuple_vector` of one join
step. -/
def join_step (tuple_filter : List TupleCons) (right_tuples : List Tuple) :
    List Tuple → List Tuple
  | [] => []
  | left_tuple :: rest =>
    join_right tuple_filter left_tuple right_tuples ++ join_step tuple_filter right_tuples rest

/-- The loop of `select_filter_tuples` over the tuple sets, with `left_schema`
and `tuple_vector` so far: the result code and the final `tuple_vector`. -/
def join_loop (self : SelectExecutor) :
    List TupleSet → TupleSchema → List Tuple → Option (RC × List Tuple)
  | [], _, tuple_vector => some (RC.SUCCESS, tuple_vector)
  | tuple_set :: rest, left_schema, tuple_vector =>
    let right_schema := tuple_set.schema
    match TupleFilter.init left_schema right_schema self.selects_ with
    | none => none
    | some (rc, tuple_filter) =>
      if rc ≠ RC.SUCCESS then some (rc, tuple_vector)
      else
        join_loop self rest (left_schema.append right_schema)
          (join_step tuple_filter tuple_set.tuples tuple_vector)

/-- `SelectExecutor::select_filter_tuples`: the result code, and
`tuple_schema` and `filter_tuple_vector` after the call.  The vector is
assigned only on success. -/
def SelectExecutor.select_filter_tuples (self : SelectExecutor) (tuple_schema : TupleSchema)
    (filter_tuple_vector : List Tuple) : Option (RC × TupleSchema × List Tuple) :=
  match self.select_all_table_tuple_sets [] with
  | none => none
  | some (rc, tuple_sets) =>
    if rc ≠ RC.SUCCESS then some (rc, tuple_schema, filter_tuple_vector)
    else
      let tuple_schema := tuple_sets.foldl (fun schema tuple_set => schema.append tuple_set.schema)
        tuple_schema
      match join_loop self tuple_sets [] [[]] with
      | none => none
      | some (rc, tuple_vector) =>
        if rc ≠ RC.SUCCESS then some (rc, tuple_schema, filter_tuple_vector)
        else some (rc, tuple_schema, tuple_vector)

/-- The loop of `order_tuples` that resolves the ORDER BY keys, with
`order_tuple_pos_vector` so far. -/
def order_positions_loop (self : SelectExecutor) (tuple_schema : TupleSchema) :
    List OrderBy → List (Int × Int) → RC × List (Int × Int)
  | [], order_tuple_pos_vector => (RC.SUCCESS, order_tuple_pos_vector)
  | order :: rest, order_tuple_pos_vector =>
    match order.attr.attribute_name with
    | none => (RC.SQL_SYNTAX, order_tuple_pos_vector)
    | some field_name =>
      let resolved : Option String :=
        match order.attr.relation_name with
        | some table_name => some table_name
        | none => self.get_unique_table_name tuple_schema field_name
      match resolved with
      | none => (RC.SQL_SYNTAX, order_tuple_pos_vector)
      | some table_name =>
        let pos := tuple_schema.index_of_field table_name field_name
        if -1 = pos then (RC.SQL_SYNTAX, order_tuple_pos_vector)
        else
          order_positions_loop self tuple_schema rest
            (order_tuple_pos_vector ++ [(pos, order.is_desc)])

/-- The comparator that `order_tuples` hands to `std::stable_sort`.  The
expression `bool((result < 0) ^ is_desc)` is true exactly when `is_desc`
differs from the 0 or 1 that `result < 0` converts to. -/
def order_less : List (Int × Int) → Tuple → Tuple → Bool
  | [], _, _ => false
  | (pos, is_desc) :: rest, lhs, rhs =>
    let lv := Tuple.get lhs pos
    let rv := Tuple.get rhs pos
    let result := lv.compare rv
    if result ≠ 0 then decide ((if result < 0 then (1 : Int) else 0) ≠ is_desc)
    else order_less rest lhs rhs

/-- Insertion of `x`, which stood before every element of the sorted list, at
the first place where the element after it is not less than it. -/
def stable_insert {α : Type} (comp : α → α → Bool) (x : α) : List α → List α
  | [] => [x]
  | y :: ys => if comp y x = true then y :: stable_insert comp x ys else x :: y :: ys

/-- A stable insertion sort: each element is inserted before the sorted rest
of the list. -/
def stable_sort {α : Type} (comp : α → α → Bool) : List α → List α
  | [] => []
  | x :: xs => stable_insert comp x (stable_sort comp xs)

/-- The requirement of the C++ standard on the comparator of a sort: `comp`
induces a strict weak ordering on the elements, that is, it is irreflexive and
transitive, and being unordered either way is transitive. -/
def strict_weak_on {α : Type} (comp : α → α → Bool) (xs : List α) : Prop :=
  (∀ a ∈ xs, comp a a = false) ∧
  (∀ a ∈ xs, ∀ b ∈ xs, ∀ c ∈ xs, comp a b = true → comp b c = true → comp a c = true) ∧
  (∀ a ∈ xs, ∀ b ∈ xs, ∀ c ∈ xs,
    comp a b = false → comp b a = false → comp b c = false → comp c b = false →
      comp a c = false ∧ comp c a = false)

instance {α : Type} (comp : α → α → Bool) (xs : List α) :
    Decidable (strict_weak_on comp xs) := by
  unfold strict_weak_on
  exact inferInstance

/-- The library function `std::stable_sort(first, last, comp)`.  The C++
standard fixes the result only when `comp` induces a strict weak ordering on
the elements, and there every stable sort gives the result of the stable
insertion sort; with any other comparator the behaviour is undefined. -/
def std_stable_sort {α : Type} (comp : α → α → Bool) (xs : List α) : Option (List α) :=
  if strict_weak_on comp xs then some (stable_sort comp xs) else none

/-- `SelectExecutor::order_tuples`: the result code and `filter_tuple_vector`
after the call; `none` when the comparator handed to `std::stable_sort` does
not induce a strict weak ordering on the rows. -/
def SelectExecutor.order_tuples (self : SelectExecutor) (tuple_schema : TupleSchema)
    (filter_tuple_vector : List Tuple) : Option (RC × List Tuple) :=
  let r := order_positions_loop self tuple_schema self.selects_.orders []
  if r.1 ≠ RC.SUCCESS then some (r.1, filter_tuple_vector)
  else
    match std_stable_sort (order_less r.2) filter_tuple_vector with
    | none => none
    | some sorted => some (RC.SUCCESS, sorted)

/-- `SelectExecutor::project`: the result code and `result_set` after the
call. -/
def SelectExecutor.project (self : SelectExecutor) (tuple_schema : TupleSchema)
    (filter_tuple_vector : List Tuple) (result_set : TupleSet) : Option (RC × TupleSet) :=
  match self.get_select_tuple_schema tuple_schema [] with
  | none => none
  | some (rc, select_tuple_schema) =>
    if rc ≠ RC.SUCCESS then some (rc, result_set)
    else
      let r := TupleProjcet.init tuple_schema select_tuple_schema
      if r.1 ≠ RC.SUCCESS then some (r.1, result_set)
      else
        some (RC.SUCCESS,
          { schema := select_tuple_schema
            tuples := result_set.tuples ++
              filter_tuple_vector.map (fun tuple => (TupleProjcet.project r.2 tuple []).2) })

/-- The first loop of `aggregate_numeric`, with `num_vector` so far; a
`double` is held on the same grid as a `float`.  The code other than SUCCESS is
the `default` case of the `switch`. -/
def collect_numeric (pos : Int) : List Tuple → List Int → RC × List Int
  | [], num_vector => (RC.SUCCESS, num_vector)
  | tuple :: rest, num_vector =>
    match Tuple.get tuple pos with
    | .NullValue => collect_numeric pos rest num_vector
    | .IntValue value => collect_numeric pos rest (num_vector ++ [value * float_unit])
    | .FloatValue value => collect_numeric pos rest (num_vector ++ [value])
    | _ => (RC.SQL_SYNTAX, num_vector)

/-- The call `std::accumulate(first, last, 0)`: the initial value is the `int`
0, so each step adds in `double` and converts the sum back to `int`.  The
model leaves the `int` unbounded. -/
def accumulate_int (num_vector : List Int) : Int :=
  num_vector.foldl (fun init value => double_to_int (round_to_double (init * float_unit + value)))
    0

/-- The value `*std::max_element(first, last)` of a non-empty vector. -/
def max_element : List Int → Int
  | [] => 0
  | x :: xs => xs.foldl (fun best value => if best < value then value else best) x

/-- The value `*std::min_element(first, last)` of a non-empty vector. -/
def min_element : List Int → Int
  | [] => 0
  | x :: xs => xs.foldl (fun best value => if value < best then value else best) x

/-- `SelectExecutor::aggregate_numeric`: the result code and `aggregate_tuple`
after the call. -/
def SelectExecutor.aggregate_numeric (filter_tuple_vector : List Tuple) (pos : Int)
    (aggregate_name : String) (aggregate_tuple : Tuple) : RC × Tuple :=
  let r := collect_numeric pos filter_tuple_vector []
  if r.1 ≠ RC.SUCCESS then (r.1, aggregate_tuple)
  else
    let num_vector := r.2
    if 0 = strcmp aggregate_name "count" then
      (RC.SUCCESS, aggregate_tuple ++ [TupleValue.FloatValue (int_to_float num_vector.length)])
    else if num_vector.isEmpty then
      (RC.SUCCESS, aggregate_tuple ++ [TupleValue.StringValue "NULL"])
    else if 0 = strcmp aggregate_name "avg" then
      (RC.SUCCESS, aggregate_tuple ++ [TupleValue.FloatValue
        (float_div (int_to_float (accumulate_int num_vector)) (int_to_float num_vector.length))])
    else if 0 = strcmp aggregate_name "max" then
      (RC.SUCCESS, aggregate_tuple ++ [TupleValue.FloatValue (round_to_float (max_element num_vector))])
    else if 0 = strcmp aggregate_name "min" then
      (RC.SUCCESS, aggregate_tuple ++ [TupleValue.FloatValue (round_to_float (min_element num_vector))])
    else (RC.SQL_SYNTAX, aggregate_tuple)

/-- The libc `isdigit` on a character of a name. -/
def isdigit (c : Char) : Bool := decide ('0'.toNat ≤ c.toNat ∧ c.toNat ≤ '9'.toNat)

/-- The loop of `field_name_is_numeric` over the characters of the name. -/
def field_name_is_numeric_loop : List Char → Bool
  | [] => true
  | c :: rest =>
    if (!isdigit c || decide (c ≠ '.')) = true then false
    else field_name_is_numeric_loop rest

/-- The function field_name_is_numeric of select_executor.cpp. -/
def field_name_is_numeric (field_name : String) : Bool :=
  field_name_is_numeric_loop field_name.data

/-- The decimal digits at the head of a character sequence: the number read
after `acc`, how many digits were read, and the rest of the sequence. -/
def read_digits : List Char → Nat → Nat × Nat × List Char
  | [], acc => (acc, 0, [])
  | c :: rest, acc =>
    if isdigit c = true then
      let r := read_digits rest (acc * 10 + (c.toNat - '0'.toNat))
      (r.1, r.2.1 + 1, r.2.2)
    else (acc, 0, c :: rest)

/-- The float that `result = atof(field_name)` stores, for a name made of
digits and dots: the library function `atof` reads the longest prefix of the
form digits, optional dot, digits, as a `double`, and the assignment converts
it to `float`.  Signs, exponents and leading blanks are outside the model. -/
def atof (field_name : String) : CFloat :=
  let whole := read_digits field_name.data 0
  let parsed : Nat × Nat :=
    match whole.2.2 with
    | '.' :: rest =>
      let frac := read_digits rest whole.1
      (frac.1, frac.2.1)
    | _ => (whole.1, 0)
  round_to_float (round_significand 53 (parsed.1 * float_unit) (10 ^ parsed.2))

/-- The first loop of `aggregate_string`, with `str_vector` so far.  The code
other than SUCCESS is the `default` case of the `switch`. -/
def collect_strings (pos : Int) : List Tuple → List String → RC × List String
  | [], str_vector => (RC.SUCCESS, str_vector)
  | tuple :: rest, str_vector =>
    match Tuple.get tuple pos with
    | .NullValue => collect_strings pos rest str_vector
    | .DateValue value => collect_strings pos rest (str_vector ++ [value])
    | .StringValue value => collect_strings pos rest (str_vector ++ [value])
    | _ => (RC.SQL_SYNTAX, str_vector)

/-- The comparison `a < b` of two `std::string`, lexicographic by character. -/
def string_less (a b : String) : Bool := decide (strcmp a b < 0)

/-- The value `*std::max_element(first, last)` of a non-empty vector of
strings: the first of the greatest elements. -/
def max_element_string : List String → String
  | [] => ""
  | x :: xs => xs.foldl (fun best value => if string_less best value = true then value else best) x

/-- The value `*std::min_element(first, last)` of a non-empty vector of
strings: the first of the least elements. -/
def min_element_string : List String → String
  | [] => ""
  | x :: xs => xs.foldl (fun best value => if string_less value best = true then value else best) x

/-- `SelectExecutor::aggregate_string`: the result code and `aggregate_tuple`
after the call. -/
def SelectExecutor.aggregate_string (filter_tuple_vector : List Tuple) (pos : Int)
    (aggregate_name : String) (aggregate_tuple : Tuple) : RC × Tuple :=
  let r := collect_strings pos filter_tuple_vector []
  if r.1 ≠ RC.SUCCESS then (r.1, aggregate_tuple)
  else
    let str_vector := r.2
    if 0 = strcmp aggregate_name "count" then
      (RC.SUCCESS, aggregate_tuple ++ [TupleValue.StringValue (Nat.repr str_vector.length)])
    else if str_vector.isEmpty then
      (RC.SUCCESS, aggregate_tuple ++ [TupleValue.StringValue "NULL"])
    else if 0 = strcmp aggregate_name "max" then
      (RC.SUCCESS, aggregate_tuple ++ [TupleValue.StringValue (max_element_string str_vector)])
    else if 0 = strcmp aggregate_name "min" then
      (RC.SUCCESS, aggregate_tuple ++ [TupleValue.StringValue (min_element_string str_vector)])
    else (RC.SQL_SYNTAX, aggregate_tuple)

/-- The body of the loop of `aggregate` for one pair
`(aggregates[i], attributes[i])`: the code with which the function returns
(SUCCESS when the loop goes on), and `aggregate_schema` and `aggregate_tuple`
after the round.  `none` when `tuple_schema.field(pos)` is outside the
schema. -/
def aggregate_pair (self : SelectExecutor) (tuple_schema : TupleSchema)
    (filter_tuple_vector : List Tuple) (aggregate_name : Option String) (attr : RelAttr)
    (aggregate_schema : TupleSchema) (aggregate_tuple : Tuple) :
    Option (RC × TupleSchema × Tuple) :=
  match aggregate_name, attr.attribute_name with
  | some aggregate_name, some field_name =>
    let is_numeric := field_name_is_numeric field_name
    if is_numeric = true ∨ 0 = strcmp "*" field_name then
      let aggregate_schema :=
        aggregate_schema.add AttrType.FLOATS "" field_name (some aggregate_name)
      if 0 = strcmp aggregate_name "count" then
        some (RC.SUCCESS, aggregate_schema,
          aggregate_tuple ++ [TupleValue.FloatValue (int_to_float filter_tuple_vector.length)])
      else if is_numeric = true ∧ (0 = strcmp aggregate_name "max" ∨
          0 = strcmp aggregate_name "min" ∨ 0 = strcmp aggregate_name "avg") then
        some (RC.SUCCESS, aggregate_schema,
          aggregate_tuple ++ [TupleValue.FloatValue (atof field_name)])
      else some (RC.SQL_SYNTAX, aggregate_schema, aggregate_tuple)
    else
      let resolved : Option String :=
        match attr.relation_name with
        | some table_name => some table_name
        | none => self.get_unique_table_name tuple_schema field_name
      match resolved with
      | none => some (RC.SQL_SYNTAX, aggregate_schema, aggregate_tuple)
      | some table_name =>
        let pos := tuple_schema.index_of_field table_name field_name
        if -1 = pos then some (RC.SQL_SYNTAX, aggregate_schema, aggregate_tuple)
        else
          match tuple_schema.get? pos.toNat with
          | none => none
          | some field =>
            match field.type with
            | .INTS | .FLOATS =>
              let r := SelectExecutor.aggregate_numeric filter_tuple_vector pos aggregate_name
                aggregate_tuple
              if RC.SUCCESS ≠ r.1 then some (r.1, aggregate_schema, r.2)
              else
                some (RC.SUCCESS,
                  aggregate_schema.add AttrType.FLOATS table_name field_name (some aggregate_name),
                  r.2)
            | .DATES | .CHARS =>
              let r := SelectExecutor.aggregate_string filter_tuple_vector pos aggregate_name
                aggregate_tuple
              if RC.SUCCESS ≠ r.1 then some (r.1, aggregate_schema, r.2)
              else
                some (RC.SUCCESS,
                  aggregate_schema.add AttrType.CHARS table_name field_name (some aggregate_name),
                  r.2)
            | _ => some (RC.SUCCESS, aggregate_schema, aggregate_tuple)
  | _, _ => some (RC.SQL_SYNTAX, aggregate_schema, aggregate_tuple)

/-- The loop of `aggregate`: the first argument counts the rounds left, the
second is the index `i`, which runs upwards from 0.  `none` when
`attributes[i]` lies outside the attribute list. -/
def aggregate_loop (self : SelectExecutor) (tuple_schema : TupleSchema)
    (filter_tuple_vector : List Tuple) :
    Nat → Nat → TupleSchema → Tuple → Option (RC × TupleSchema × Tuple)
  | 0, _, aggregate_schema, aggregate_tuple => some (RC.SUCCESS, aggregate_schema, aggregate_tuple)
  | n + 1, i, aggregate_schema, aggregate_tuple =>
    match self.selects_.aggregates.get? i, self.selects_.attributes.get? i with
    | some aggregate_name, some attr =>
      match aggregate_pair self tuple_schema filter_tuple_vector aggregate_name attr
          aggregate_schema aggregate_tuple with
      | none => none
      | some r =>
        if r.1 ≠ RC.SUCCESS then some r
        else aggregate_loop self tuple_schema filter_tuple_vector n (i + 1) r.2.1 r.2.2
    | _, _ => none

/-- `SelectExecutor::aggregate`: the result code and `result_set` after the
call. -/
def SelectExecutor.aggregate (self : SelectExecutor) (tuple_schema : TupleSchema)
    (filter_tuple_vector : List Tuple) (result_set : TupleSet) : Option (RC × TupleSet) :=
  match aggregate_loop self tuple_schema filter_tuple_vector self.selects_.aggregates.length 0
      [] [] with
  | none => none
  | some (rc, aggregate_schema, aggregate_tuple) =>
    if rc ≠ RC.SUCCESS then some (rc, result_set)
    else
      some (RC.SUCCESS,
        { schema := aggregate_schema, tuples := result_set.tuples ++ [aggregate_tuple] })

/-- `SelectExecutor::execute(TupleSet &result_set)`: the result code and
`result_set` after the call. -/
def SelectExecutor.execute (self : SelectExecutor) (result_set : TupleSet) :
    Option (RC × TupleSet) :=
  match self.select_filter_tuples [] [] with
  | none => none
  | some (rc, tuple_schema, filter_tuple_vector) =>
    if rc ≠ RC.SUCCESS then some (rc, result_set)
    else
      let ordered : Option (RC × List Tuple) :=
        if self.selects_.orders.length > 0 then self.order_tuples tuple_schema filter_tuple_vector
        else some (RC.SUCCESS, filter_tuple_vector)
      match ordered with
      | none => none
      | some ordered =>
        if ordered.1 ≠ RC.SUCCESS then some (ordered.1, result_set)
        else
          let r : Option (RC × TupleSet) :=
            if self.selects_.aggregates.length = 0 then
              self.project tuple_schema ordered.2 result_set
            else self.aggregate tuple_schema ordered.2 result_set
          match r with
          | none => none
          | some (rc, result_set) =>
            if rc ≠ RC.SUCCESS then some (rc, result_set)
            else some (RC.SUCCESS, result_set)

/-- Modelled from the spec: the Session behind `session_` (session.h is not
among the sources), of which the executor reads the multi-operation mode. -/
structure Session where
  is_trx_multi_operation_mode : Bool
  deriving DecidableEq

/-- Modelled from the spec: the Trx behind `trx_` (trx.h is not among the
sources), as the count of the calls of `commit` and of `rollback` it has
received. -/
structure Trx where
  commit_calls : Nat
  rollback_calls : Nat
  deriving DecidableEq

/-- Modelled from the spec: `Trx::commit`, one more call of commit. -/
def Trx.commit (trx : Trx) : Trx := { trx with commit_calls := trx.commit_calls + 1 }

/-- Modelled from the spec: `Trx::rollback`, one more call of rollback. -/
def Trx.rollback (trx : Trx) : Trx := { trx with rollback_calls := trx.rollback_calls + 1 }

/-- Modelled from the spec: the SessionEvent that takes the response
(session_event.h is not among the sources).  The response text is
`result_set.print(ss, is_tables)`; `TupleSet::print` is not among the sources,
and the model keeps its two arguments in place of the text.  `none` as long as
`set_response` has not been called. -/
structure SessionEvent where
  response : Option (TupleSet × Bool)
  deriving DecidableEq

/-- `SelectExecutor::end_trx_if_need(all_right)`: the transaction after the
call.  The members `session_` and `trx_` point to objects outside the
executor and are passed explicitly. -/
def SelectExecutor.end_trx_if_need (session_ : Session) (trx_ : Trx) (all_right : Bool) : Trx :=
  if ¬ session_.is_trx_multi_operation_mode = true then
    if all_right = true then trx_.commit else trx_.rollback
  else trx_

/-- `SelectExecutor::execute(SessionEvent *session_event)`: the result code,
and the transaction and the session event after the call. -/
def SelectExecutor.execute_session_event (self : SelectExecutor) (session_ : Session)
    (trx_ : Trx) (session_event : SessionEvent) : Option (RC × Trx × SessionEvent) :=
  match self.execute { schema := [], tuples := [] } with
  | none => none
  | some (rc, result_set) =>
    if rc ≠ RC.SUCCESS then
      some (rc, SelectExecutor.end_trx_if_need session_ trx_ false, session_event)
    else
      let is_tables := decide (self.selects_.relations.length > 1)
      let session_event : SessionEvent := { response := some (result_set, is_tables) }
      some (RC.SUCCESS, SelectExecutor.end_trx_if_need session_ trx_ true, session_event)

end select_executor

/-! ## The tables of the spec's end-to-end scenarios -/

namespace scenario

/-- The bytes of an `int`. -/
def int_bytes (n : Int) : RawData := { as_int := n, as_float := 0, as_cstr := "" }

/-- The bytes of a C string. -/
def str_bytes (s : String) : RawData := { as_int := 0, as_float := 0, as_cstr := s }

/-- A record without null indicators that holds the given cells at the given
offsets. -/
def record_of (cells : List (Nat × RawData)) : Record :=
  { null_at := fun _ => false
    data_at := fun off =>
      match cells.find? (fun cell => cell.1 = off) with
      | some cell => cell.2
      | none => int_bytes 0 }

/-- A record of one nullable `int` column at offset 0: the null indicator and
the value behind it. -/
def nullable_int_record (is_null : Bool) (n : Int) : Record :=
  { null_at := fun off => decide (off = 0) && is_null
    data_at := fun _ => int_bytes n }

/-- The table `t(a INT, b CHARS)` with rows (1,"x"), (2,"y"), (3,"x"). -/
def table_t : Table :=
  { name := "t"
    fields := [{ name := "a", type := AttrType.INTS, offset := 0, nullable := false },
               { name := "b", type := AttrType.CHARS, offset := 4, nullable := false }]
    records := [record_of [(0, int_bytes 1), (4, str_bytes "x")],
                record_of [(0, int_bytes 2), (4, str_bytes "y")],
                record_of [(0, int_bytes 3), (4, str_bytes "x")]] }

/-- The table `u(c INT)` with rows (1), (3). -/
def table_u : Table :=
  { name := "u"
    fields := [{ name := "c", type := AttrType.INTS, offset := 0, nullable := false }]
    records := [record_of [(0, int_bytes 1)], record_of [(0, int_bytes 3)]] }

/-- The unused value slot of a condition side that is an attribute. -/
def no_value : Value := { type := AttrType.UNDEFINED, data := int_bytes 0 }

/-- The unused attribute slot of a condition side that is a value. -/
def no_attr : RelAttr := { relation_name := none, attribute_name := none }

/-- The INTS literal `n`. -/
def int_value (n : Int) : Value := { type := AttrType.INTS, data := int_bytes n }

/-- The CHARS literal `s`. -/
def chars_value (s : String) : Value := { type := AttrType.CHARS, data := str_bytes s }

/-- The query `SELECT * FROM t, u WHERE u.c = t.a`; the parser hands the
relations over in reverse. -/
def join_later_first : select_executor.SelectExecutor :=
  { db_ := [table_t, table_u]
    selects_ :=
      { attributes := [{ relation_name := none, attribute_name := some "*" }]
        relations := ["u", "t"]
        conditions :=
          [{ left_is_attr := 1, left_value := no_value
             left_attr := { relation_name := some "u", attribute_name := some "c" }
             comp := CompOp.EQUAL_TO
             right_is_attr := 1
             right_attr := { relation_name := some "t", attribute_name := some "a" }
             right_value := no_value }]
        orders := []
        aggregates := [] } }

/-- The query `SELECT * FROM t, u WHERE a = 1`. -/
def bare_attr_two_tables : select_executor.SelectExecutor :=
  { db_ := [table_t, table_u]
    selects_ :=
      { attributes := [{ relation_name := none, attribute_name := some "*" }]
        relations := ["u", "t"]
        conditions :=
          [{ left_is_attr := 1, left_value := no_value
             left_attr := { relation_name := none, attribute_name := some "a" }
             comp := CompOp.EQUAL_TO
             right_is_attr := 0
             right_attr := no_attr
             right_value := int_value 1 }]
        orders := []
        aggregates := [] } }

/-- The query `SELECT * FROM t, u WHERE 3 > c`. -/
def bare_attr_right_side : select_executor.SelectExecutor :=
  { db_ := [table_t, table_u]
    selects_ :=
      { attributes := [{ relation_name := none, attribute_name := some "*" }]
        relations := ["u", "t"]
        conditions :=
          [{ left_is_attr := 0, left_value := int_value 3
             left_attr := no_attr
             comp := CompOp.GREAT_THAN
             right_is_attr := 1
             right_attr := { relation_name := none, attribute_name := some "c" }
             right_value := no_value }]
        orders := []
        aggregates := [] } }

/-- A bound filter `a = 1` on a nullable INTS column `a` at offset 0. -/
def nullable_filter : condition_filter.DefaultConditionFilter :=
  { left_ := { is_attr := true
               field_meta := some { name := "a", type := AttrType.INTS, offset := 0,
                                    nullable := true }
               value := none }
    right_ := { is_attr := false, field_meta := none, value := some (int_value 1) }
    left_type_ := AttrType.INTS
    right_type_ := AttrType.INTS
    comp_op_ := CompOp.EQUAL_TO }

/-- The query `SELECT * FROM t, u WHERE t.a = u.c`, scenario 4 of the spec. -/
def join_earlier_first : select_executor.SelectExecutor :=
  { db_ := [table_t, table_u]
    selects_ :=
      { attributes := [{ relation_name := none, attribute_name := some "*" }]
        relations := ["u", "t"]
        conditions :=
          [{ left_is_attr := 1, left_value := no_value
             left_attr := { relation_name := some "t", attribute_name := some "a" }
             comp := CompOp.EQUAL_TO
             right_is_attr := 1
             right_attr := { relation_name := some "u", attribute_name := some "c" }
             right_value := no_value }]
        orders := []
        aggregates := [] } }

/-- The joined schema of `t` and `u` in join order. -/
def schema_t_u : TupleSchema :=
  [{ type := AttrType.INTS, table_name := "t", field_name := "a", aggregate_name := none },
   { type := AttrType.CHARS, table_name := "t", field_name := "b", aggregate_name := none },
   { type := AttrType.INTS, table_name := "u", field_name := "c", aggregate_name := none }]

/-- The full cartesian product of the rows of `t` and `u`, left-major. -/
def product_t_u : List Tuple :=
  [[TupleValue.IntValue 1, TupleValue.StringValue "x", TupleValue.IntValue 1],
   [TupleValue.IntValue 1, TupleValue.StringValue "x", TupleValue.IntValue 3],
   [TupleValue.IntValue 2, TupleValue.StringValue "y", TupleValue.IntValue 1],
   [TupleValue.IntValue 2, TupleValue.StringValue "y", TupleValue.IntValue 3],
   [TupleValue.IntValue 3, TupleValue.StringValue "x", TupleValue.IntValue 1],
   [TupleValue.IntValue 3, TupleValue.StringValue "x", TupleValue.IntValue 3]]

end scenario

/-! ## Reference semantics of a SELECT without push-down

The definitions of this section follow the words of the spec (§8,
commutativity of predicate push-down), not the code: the scans run with no
filter, their tuples are combined into the full cartesian product in join
order, and the combined tuples that satisfy every condition are kept. -/

namespace pushdown_reference

/-- The Value that a tuple value stands for. -/
def to_value : TupleValue → Value
  | .IntValue n => { type := AttrType.INTS, data := { as_int := n, as_float := 0, as_cstr := "" } }
  | .FloatValue x =>
    { type := AttrType.FLOATS, data := { as_int := 0, as_float := x, as_cstr := "" } }
  | .StringValue c => { type := AttrType.CHARS, data := { as_int := 0, as_float := 0, as_cstr := c } }
  | .DateValue c => { type := AttrType.DATES, data := { as_int := 0, as_float := 0, as_cstr := c } }
  | .NullValue => { type := AttrType.NULLS, data := { as_int := 0, as_float := 0, as_cstr := "" } }

/-- The value of one side of a condition on a combined tuple.  An attribute
without relation name is resolved by the unique-table rule when the query has
several relations, and belongs to the only relation otherwise; `none` when the
attribute does not resolve. -/
def side (self : select_executor.SelectExecutor) (schema : TupleSchema) (tuple : Tuple)
    (is_attr : Int) (attr : RelAttr) (value : Value) : Option Value :=
  if is_attr = 1 then
    match attr.attribute_name with
    | none => none
    | some field_name =>
      let resolved : Option String :=
        match attr.relation_name with
        | some table_name => some table_name
        | none => self.get_unique_table_name schema field_name
      match resolved with
      | none => none
      | some table_name =>
        let pos := schema.index_of_field table_name field_name
        if pos = -1 then none else some (to_value (Tuple.get tuple pos))
  else some value

/-- A combined tuple satisfies a condition when both sides evaluate and the
comparison of §4.1 holds. -/
def satisfies (self : select_executor.SelectExecutor) (schema : TupleSchema) (tuple : Tuple)
    (condition : Condition) : Bool :=
  match side self schema tuple condition.left_is_attr condition.left_attr condition.left_value,
    side self schema tuple condition.right_is_attr condition.right_attr condition.right_value with
  | some l, some r => condition_filter.value_compare l r condition.comp
  | _, _ => false

/-- The scan of a table with no filter. -/
def unfiltered_scan (table : Table) : Option TupleSet :=
  match SelectExeNode.execute
      { table_ := table, tuple_schema_ := TupleSchema.from_table table [],
        condition_filters_ := [] } with
  | some (_, tuple_set) => some tuple_set
  | none => none

/-- The full cartesian product of the tuple sets, in join order, left-major. -/
def product (tuple_sets : List TupleSet) : List Tuple :=
  tuple_sets.foldl
    (fun running tuple_set =>
      (running.map (fun lt => tuple_set.tuples.map (fun rt => lt ++ rt))).flatten)
    [[]]

/-- The tuple vector of a SELECT computed without push-down: unfiltered scans
in join order (the relations last to first), full product, then the filter by
every condition; `none` when a relation names no table. -/
def select (self : select_executor.SelectExecutor) : Option (List Tuple) :=
  match self.selects_.relations.reverse.mapM (fun name => self.find_table name) with
  | none => none
  | some tables =>
    match tables.mapM unfiltered_scan with
    | none => none
    | some tuple_sets =>
      let schema : TupleSchema := (tuple_sets.map (fun tuple_set => tuple_set.schema)).flatten
      some ((product tuple_sets).filter
        (fun tuple => self.selects_.conditions.all (fun c => satisfies self schema tuple c)))

end pushdown_reference

/-! ## Predicates used to state the properties -/

namespace select_executor

/-- The key an ORDER BY entry resolves to in the joined schema (§4.6.3): the
index of its column, the relation being the one given or else the one the
unique-table rule finds, paired with its direction; `none` when the entry does
not resolve. -/
def resolve_order_key (self : SelectExecutor) (tuple_schema : TupleSchema) (order : OrderBy) :
    Option (Int × Int) :=
  match order.attr.attribute_name with
  | none => none
  | some field_name =>
    let resolved : Option String :=
      match order.attr.relation_name with
      | some table_name => some table_name
      | none => self.get_unique_table_name tuple_schema field_name
    match resolved with
    | none => none
    | some table_name =>
      if tuple_schema.index_of_field table_name field_name = -1 then none
      else some (tuple_schema.index_of_field table_name field_name, order.is_desc)

/-- Row `x` may stand before row `y` under the keys: at the first key where
`compare` of their values is non-zero, it is negative if the key is ascending
(`is_desc = 0`) and positive if the key is descending (`is_desc = 1`). -/
def in_key_order : List (Int × Int) → Tuple → Tuple → Prop
  | [], _, _ => True
  | (pos, is_desc) :: rest, x, y =>
    if (Tuple.get x pos).compare (Tuple.get y pos) = 0 then in_key_order rest x y
    else (is_desc = 0 → (Tuple.get x pos).compare (Tuple.get y pos) < 0) ∧
      (is_desc = 1 → 0 < (Tuple.get x pos).compare (Tuple.get y pos))

/-- Rows `x` and `y` compare equal on every key. -/
def tie_on_keys (keys : List (Int × Int)) (x y : Tuple) : Prop :=
  ∀ k ∈ keys, (Tuple.get x k.1).compare (Tuple.get y k.1) = 0

/-- The value of `row` at the key position has the type of that column of the
schema, and is not NULLS. -/
def typed_at (tuple_schema : TupleSchema) (row : Tuple) (pos : Int) : Prop :=
  (tuple_schema.get? pos.toNat).map (fun field => field.type) =
      some (Tuple.get row pos).get_type ∧
    (Tuple.get row pos).get_type ≠ AttrType.NULLS

instance (keys : List (Int × Int)) (x y : Tuple) : Decidable (tie_on_keys keys x y) := by
  unfold tie_on_keys
  exact inferInstance

instance (tuple_schema : TupleSchema) (row : Tuple) (pos : Int) :
    Decidable (typed_at tuple_schema row pos) := by
  unfold typed_at
  exact inferInstance

end select_executor

namespace scenario

/-- The schema of the table `t`. -/
def schema_t : TupleSchema :=
  [{ type := AttrType.INTS, table_name := "t", field_name := "a", aggregate_name := none },
   { type := AttrType.CHARS, table_name := "t", field_name := "b", aggregate_name := none }]

/-- The rows of the table `t`. -/
def rows_t : List Tuple :=
  [[TupleValue.IntValue 1, TupleValue.StringValue "x"],
   [TupleValue.IntValue 2, TupleValue.StringValue "y"],
   [TupleValue.IntValue 3, TupleValue.StringValue "x"]]

/-- The query `SELECT b, a FROM t ORDER BY a DESC`, scenario 2 of the spec; the
parser hands the attributes over in reverse. -/
def order_by_a_desc : select_executor.SelectExecutor :=
  { db_ := [table_t, table_u]
    selects_ :=
      { attributes := [{ relation_name := none, attribute_name := some "a" },
                       { relation_name := none, attribute_name := some "b" }]
        relations := ["t"]
        conditions := []
        orders := [{ attr := { relation_name := none, attribute_name := some "a" }, is_desc := 1 }]
        aggregates := [] } }

/-- The query `SELECT * FROM t ORDER BY b`. -/
def order_by_b : select_executor.SelectExecutor :=
  { db_ := [table_t, table_u]
    selects_ :=
      { attributes := [{ relation_name := none, attribute_name := some "*" }]
        relations := ["t"]
        conditions := []
        orders := [{ attr := { relation_name := some "t", attribute_name := some "b" },
                     is_desc := 0 }]
        aggregates := [] } }

end scenario

namespace select_executor

/-- An attribute of the select list that `get_select_tuple_schema` passes
without returning: `rel.*` with `rel` a table of the database, or a concrete
attribute whose relation, the one given or else the one the unique-table rule
finds, is a table of the database that has the field. -/
def attr_resolves (self : SelectExecutor) (tuple_schema : TupleSchema) (attr : RelAttr) : Bool :=
  match attr.attribute_name with
  | none => false
  | some attribute_name =>
    if attribute_name = "*" then
      match attr.relation_name with
      | none => false
      | some relation_name => (self.find_table relation_name).isSome
    else
      let resolved : Option String :=
        match attr.relation_name with
        | some relation_name => some relation_name
        | none => self.get_unique_table_name tuple_schema attribute_name
      match resolved with
      | none => false
      | some table_name =>
        match self.find_table table_name with
        | none => false
        | some table => (table.field (some attribute_name)).isSome

/-- The rows of the vector whose value at `pos` is not NULLS. -/
def non_null_rows (filter_tuple_vector : List Tuple) (pos : Int) : List Tuple :=
  filter_tuple_vector.filter (fun row => decide ((Tuple.get row pos).get_type ≠ AttrType.NULLS))

end select_executor

namespace scenario

/-- A select list of two `*` without relation name, over `t`. -/
def two_stars : select_executor.SelectExecutor :=
  { db_ := [table_t, table_u]
    selects_ :=
      { attributes := [{ relation_name := none, attribute_name := some "*" },
                       { relation_name := none, attribute_name := some "*" }]
        relations := ["t"]
        conditions := []
        orders := []
        aggregates := [] } }

/-- The query `SELECT a, * FROM t`; the parser hands the attributes over in
reverse, so the `*` is at index 0 and `a` at index 1. -/
def star_after_attr : select_executor.SelectExecutor :=
  { db_ := [table_t, table_u]
    selects_ :=
      { attributes := [{ relation_name := none, attribute_name := some "*" },
                       { relation_name := none, attribute_name := some "a" }]
        relations := ["t"]
        conditions := []
        orders := []
        aggregates := [] } }

/-- The query `SELECT u.c FROM t`. -/
def select_u_c_from_t : select_executor.SelectExecutor :=
  { db_ := [table_t, table_u]
    selects_ :=
      { attributes := [{ relation_name := some "u", attribute_name := some "c" }]
        relations := ["t"]
        conditions := []
        orders := []
        aggregates := [] } }

/-- The result-schema field `u.c`. -/
def field_u_c : TupleField :=
  { type := AttrType.INTS, table_name := "u", field_name := "c", aggregate_name := none }

/-- The result schema of `SELECT b, a FROM t`. -/
def schema_b_a : TupleSchema :=
  [{ type := AttrType.CHARS, table_name := "t", field_name := "b", aggregate_name := none },
   { type := AttrType.INTS, table_name := "t", field_name := "a", aggregate_name := none }]

/-- The rows of `SELECT b, a FROM t`. -/
def rows_b_a : List Tuple :=
  [[TupleValue.StringValue "x", TupleValue.IntValue 1],
   [TupleValue.StringValue "y", TupleValue.IntValue 2],
   [TupleValue.StringValue "x", TupleValue.IntValue 3]]

/-- A tuple vector of one column with a NULLS value in one of three rows. -/
def rows_with_null : List Tuple :=
  [[TupleValue.IntValue 1], [TupleValue.NullValue], [TupleValue.IntValue 3]]

end scenario

namespace select_executor

/-- The non-NULLS strings of the column at `pos`, in row order. -/
def string_values (filter_tuple_vector : List Tuple) (pos : Int) : List String :=
  filter_tuple_vector.filterMap (fun row =>
    match Tuple.get row pos with
    | .StringValue value => some value
    | .DateValue value => some value
    | _ => none)

/-- The non-NULLS integers of the column at `pos`, in row order. -/
def int_values (filter_tuple_vector : List Tuple) (pos : Int) : List Int :=
  filter_tuple_vector.filterMap (fun row =>
    match Tuple.get row pos with
    | .IntValue value => some value
    | _ => none)

/-- Every value of the column at `pos` is CHARS, DATES or NULLS. -/
def string_column (filter_tuple_vector : List Tuple) (pos : Int) : Prop :=
  ∀ row ∈ filter_tuple_vector, (Tuple.get row pos).get_type = AttrType.CHARS ∨
    (Tuple.get row pos).get_type = AttrType.DATES ∨
    (Tuple.get row pos).get_type = AttrType.NULLS

/-- Every value of the column at `pos` is INTS or NULLS. -/
def int_column (filter_tuple_vector : List Tuple) (pos : Int) : Prop :=
  ∀ row ∈ filter_tuple_vector, (Tuple.get row pos).get_type = AttrType.INTS ∨
    (Tuple.get row pos).get_type = AttrType.NULLS

/-- Every value of the column at `pos` is NULLS. -/
def null_column (filter_tuple_vector : List Tuple) (pos : Int) : Prop :=
  ∀ row ∈ filter_tuple_vector, (Tuple.get row pos).get_type = AttrType.NULLS

instance (filter_tuple_vector : List Tuple) (pos : Int) :
    Decidable (string_column filter_tuple_vector pos) := by
  unfold string_column
  exact inferInstance

instance (filter_tuple_vector : List Tuple) (pos : Int) :
    Decidable (int_column filter_tuple_vector pos) := by
  unfold int_column
  exact inferInstance

instance (filter_tuple_vector : List Tuple) (pos : Int) :
    Decidable (null_column filter_tuple_vector pos) := by
  unfold null_column
  exact inferInstance

end select_executor

namespace condition_filter

/-- The type of one side of a condition against a table: the declared type of
the column an attribute side names, the type tag of a value side; `none` when
the attribute side names no column of the table. -/
def side_type (table : Table) (is_attr : Int) (attr : RelAttr) (value : Value) :
    Option AttrType :=
  if 1 = is_attr then (table.field attr.attribute_name).map (fun field_meta => field_meta.type)
  else some value.type

/-- The descriptor of one side of a condition against a table: the field meta
of the column an attribute side names, the value of a value side. -/
def side_desc (table : Table) (is_attr : Int) (attr : RelAttr) (value : Value) : ConDesc :=
  if 1 = is_attr then
    { is_attr := true, field_meta := table.field attr.attribute_name, value := none }
  else { is_attr := false, field_meta := none, value := some value }

/-- The type rule of the bind: equal types, a NULLS side, or two numeric
sides. -/
def type_rule (left_type right_type : AttrType) : Prop :=
  left_type = right_type ∨ left_type = AttrType.NULLS ∨ right_type = AttrType.NULLS ∨
    ((AttrType.INTS = left_type ∨ AttrType.FLOATS = left_type) ∧
      (AttrType.INTS = right_type ∨ AttrType.FLOATS = right_type))

instance (left_type right_type : AttrType) : Decidable (type_rule left_type right_type) := by
  unfold type_rule
  exact inferInstance

end condition_filter

namespace scenario

/-- The float 0.5. -/
def half : CFloat := 2 ^ 148

/-- A FLOATS column of two rows, 0.5 and 0.5. -/
def rows_halves : List Tuple :=
  [[TupleValue.FloatValue half], [TupleValue.FloatValue half]]

/-- An INTS column of one row, 16777217 (2^24 + 1). -/
def rows_large_int : List Tuple := [[TupleValue.IntValue 16777217]]

/-- A CHARS column whose only row is NULLS. -/
def rows_all_null : List Tuple := [[TupleValue.NullValue]]

/-- The query `SELECT max(3.14) FROM t`. -/
def max_of_literal : select_executor.SelectExecutor :=
  { db_ := [table_t, table_u]
    selects_ :=
      { attributes := [{ relation_name := none, attribute_name := some "3.14" }]
        relations := ["t"]
        conditions := []
        orders := []
        aggregates := [some "max"] } }

/-- The query `SELECT count(*) FROM t`. -/
def count_star : select_executor.SelectExecutor :=
  { db_ := [table_t, table_u]
    selects_ :=
      { attributes := [{ relation_name := none, attribute_name := some "*" }]
        relations := ["t"]
        conditions := []
        orders := []
        aggregates := [some "count"] } }

/-- The query `SELECT avg(a), count(*) FROM t`, scenario 4 of the spec; the
parser hands the attributes and the aggregates over in reverse, so the pair
`(count, *)` is at index 0 and the pair `(avg, a)` at index 1. -/
def avg_a_count_star : select_executor.SelectExecutor :=
  { db_ := [table_t, table_u]
    selects_ :=
      { attributes := [{ relation_name := none, attribute_name := some "*" },
                       { relation_name := none, attribute_name := some "a" }]
        relations := ["t"]
        conditions := []
        orders := []
        aggregates := [some "count", some "avg"] } }

/-- The table `d(day DATES, name CHARS)`, without rows. -/
def table_d : Table :=
  { name := "d"
    fields := [{ name := "day", type := AttrType.DATES, offset := 0, nullable := false },
               { name := "name", type := AttrType.CHARS, offset := 12, nullable := false }]
    records := [] }

/-- The condition `day = '2020-01-01'` with a CHARS literal on the right. -/
def day_eq_chars : Condition :=
  { left_is_attr := 1
    left_value := no_value
    left_attr := { relation_name := none, attribute_name := some "day" }
    comp := CompOp.EQUAL_TO
    right_is_attr := 0
    right_attr := no_attr
    right_value := chars_value "2020-01-01" }

/-- A condition between two values whose type tag is UNDEFINED. -/
def undefined_eq_undefined : Condition :=
  { left_is_attr := 0
    left_value := no_value
    left_attr := no_attr
    comp := CompOp.EQUAL_TO
    right_is_attr := 0
    right_attr := no_attr
    right_value := no_value }

/-- The condition `a = 1` on `t`. -/
def a_eq_one : Condition :=
  { left_is_attr := 1
    left_value := no_value
    left_attr := { relation_name := none, attribute_name := some "a" }
    comp := CompOp.EQUAL_TO
    right_is_attr := 0
    right_attr := no_attr
    right_value := int_value 1 }

/-- The condition `1 < z` on `t`, which has no column `z`. -/
def one_lt_z : Condition :=
  { left_is_attr := 0
    left_value := int_value 1
    left_attr := no_attr
    comp := CompOp.LESS_THAN
    right_is_attr := 1
    right_attr := { relation_name := none, attribute_name := some "z" }
    right_value := no_value }

end scenario

namespace select_executor

/-- The relations of the query, in list order, that have a field `field_name`
in the schema. -/
def relations_with_field (self : SelectExecutor) (tuple_schema : TupleSchema)
    (field_name : String) : List String :=
  self.selects_.relations.filter
    (fun relation => decide (tuple_schema.index_of_field relation field_name ≠ -1))

/-- The table-name match rule of §4.6.1: a relation name of a condition
matches the table `table_name` when it is present and equal to it, or absent
while the query has exactly one relation. -/
def relation_matches (self : SelectExecutor) (relation_name : Option String)
    (table_name : String) : Prop :=
  match relation_name with
  | some name => name = table_name
  | none => self.selects_.relations.length = 1

instance (self : SelectExecutor) (relation_name : Option String) (table_name : String) :
    Decidable (relation_matches self relation_name table_name) := by
  unfold relation_matches
  cases relation_name <;> exact inferInstance

/-- The classification of §4.6.1: the condition belongs to the scan of
`table_name` when both sides are values, or exactly one side is an attribute
and its relation matches, or both sides are attributes and both relations
match. -/
def scan_includes (self : SelectExecutor) (condition : Condition) (table_name : String) : Prop :=
  (condition.left_is_attr = 0 ∧ condition.right_is_attr = 0) ∨
  (condition.left_is_attr = 1 ∧ condition.right_is_attr = 0 ∧
    relation_matches self condition.left_attr.relation_name table_name) ∨
  (condition.left_is_attr = 0 ∧ condition.right_is_attr = 1 ∧
    relation_matches self condition.right_attr.relation_name table_name) ∨
  (condition.left_is_attr = 1 ∧ condition.right_is_attr = 1 ∧
    relation_matches self condition.left_attr.relation_name table_name ∧
    relation_matches self condition.right_attr.relation_name table_name)

instance (self : SelectExecutor) (condition : Condition) (table_name : String) :
    Decidable (scan_includes self condition table_name) := by
  unfold scan_includes
  exact inferInstance

/-- A binding of the tuple filter holds on a pair of tuples (§4.5): the two
addressed values are both not NULLS, have the same type, and the operator
judges their comparison true. -/
def binding_holds (tuple_cons : TupleCons) (left_tuple right_tuple : Tuple) : Prop :=
  (Tuple.get left_tuple tuple_cons.left_value_pos).get_type ≠ AttrType.NULLS ∧
  (Tuple.get right_tuple tuple_cons.right_value_pos).get_type ≠ AttrType.NULLS ∧
  (Tuple.get left_tuple tuple_cons.left_value_pos).get_type =
    (Tuple.get right_tuple tuple_cons.right_value_pos).get_type ∧
  judge_cmp_result tuple_cons.condition.comp
    ((Tuple.get left_tuple tuple_cons.left_value_pos).compare
      (Tuple.get right_tuple tuple_cons.right_value_pos)) = true

instance (tuple_cons : TupleCons) (left_tuple right_tuple : Tuple) :
    Decidable (binding_holds tuple_cons left_tuple right_tuple) := by
  unfold binding_holds
  exact inferInstance

/-- The executor of the same query with another list of conditions. -/
def with_conditions (self : SelectExecutor) (conditions : List Condition) : SelectExecutor :=
  { db_ := self.db_
    selects_ :=
      { attributes := self.selects_.attributes
        relations := self.selects_.relations
        conditions := conditions
        orders := self.selects_.orders
        aggregates := self.selects_.aggregates } }

/-- The concatenation of the schemas of the tuple sets, in order. -/
def joined_schema (tuple_sets : List TupleSet) : TupleSchema :=
  (tuple_sets.map (fun tuple_set => tuple_set.schema)).flatten

/-- Every tuple of the tuple set is as long as its schema. -/
def schema_aligned (tuple_set : TupleSet) : Prop :=
  ∀ tuple ∈ tuple_set.tuples, tuple.length = tuple_set.schema.length

instance (tuple_set : TupleSet) : Decidable (schema_aligned tuple_set) := by
  unfold schema_aligned
  exact inferInstance

end select_executor

namespace select_executor

/-- Both sides of the condition are attributes that carry a relation name and
an attribute name. -/
def named_attr_pair (condition : Condition) : Prop :=
  condition.left_is_attr = 1 ∧ condition.right_is_attr = 1 ∧
    condition.left_attr.relation_name.isSome = true ∧
    condition.left_attr.attribute_name.isSome = true ∧
    condition.right_attr.relation_name.isSome = true ∧
    condition.right_attr.attribute_name.isSome = true

/-- The binding of §4.5 for one condition: for a condition between two named
attributes whose right attribute is in the right schema and whose left
attribute is in the left schema, the first matching positions with the type of
the left field; no binding otherwise. -/
def binding_of (left_schema right_schema : TupleSchema) (condition : Condition) :
    Option TupleCons :=
  if condition.left_is_attr = 1 ∧ condition.right_is_attr = 1 then
    match condition.left_attr.relation_name, condition.left_attr.attribute_name,
      condition.right_attr.relation_name, condition.right_attr.attribute_name with
    | some left_table, some left_field, some right_table, some right_field =>
      if (find_tuple_field right_table right_field right_schema 0).1 ≠ -1 ∧
          (find_tuple_field left_table left_field left_schema 0).1 ≠ -1 then
        some { condition := condition
               type := (find_tuple_field left_table left_field left_schema 0).2
               left_value_pos := (find_tuple_field left_table left_field left_schema 0).1
               right_value_pos := (find_tuple_field right_table right_field right_schema 0).1 }
      else none
    | _, _, _, _ => none
  else none

/-- The condition is between two named attributes, both located, whose fields
differ in type. -/
def binding_mismatch (left_schema right_schema : TupleSchema) (condition : Condition) : Prop :=
  condition.left_is_attr = 1 ∧ condition.right_is_attr = 1 ∧
    match condition.left_attr.relation_name, condition.left_attr.attribute_name,
      condition.right_attr.relation_name, condition.right_attr.attribute_name with
    | some left_table, some left_field, some right_table, some right_field =>
      (find_tuple_field right_table right_field right_schema 0).1 ≠ -1 ∧
        (find_tuple_field left_table left_field left_schema 0).1 ≠ -1 ∧
        (find_tuple_field left_table left_field left_schema 0).2 ≠
          (find_tuple_field right_table right_field right_schema 0).2
    | _, _, _, _ => False

end select_executor

/-! ## Reference definition of the join assembly

The definitions of this section follow the words of the spec (§4.6.2), not the
loops of the code. -/

namespace join_reference

/-- One step of the assembly: `[concat(lt, rt) | lt in running, rt in tuples,
accepts lt rt]`, both in order. -/
def next (accepts : Tuple → Tuple → Bool) (running tuples : List Tuple) : List Tuple :=
  (running.map (fun lt =>
    (tuples.filter (fun rt => accepts lt rt)).map (fun rt => lt ++ rt))).flatten

/-- The iteration of the step over the tuple sets in order, from the left
schema and the running vector given; the filter of a step is the tuple filter
bound on the left schema so far and the schema of the tuple set.  `none` when
a bind does not return SUCCESS. -/
def iterate (selects : select_executor.Selects) :
    List TupleSet → TupleSchema → List Tuple → Option (List Tuple)
  | [], _, running => some running
  | tuple_set :: rest, left_schema, running =>
    match select_executor.TupleFilter.init left_schema tuple_set.schema selects with
    | some (RC.SUCCESS, bindings) =>
      iterate selects rest (left_schema ++ tuple_set.schema)
        (next (select_executor.TupleFilter.filter bindings) running tuple_set.tuples)
    | _ => none

end join_reference

namespace scenario

/-- The condition between the two literals `left` and `right`. -/
def value_condition (left : Value) (comp : CompOp) (right : Value) : Condition :=
  { left_is_attr := 0
    left_value := left
    left_attr := no_attr
    comp := comp
    right_is_attr := 0
    right_attr := no_attr
    right_value := right }

/-- The query `SELECT * FROM t` with the given conditions. -/
def select_star_from_t (conditions : List Condition) : select_executor.SelectExecutor :=
  { db_ := [table_t, table_u]
    selects_ :=
      { attributes := [{ relation_name := none, attribute_name := some "*" }]
        relations := ["t"]
        conditions := conditions
        orders := []
        aggregates := [] } }

/-- The query `SELECT * FROM t, u` with the given conditions; the parser hands
the relations over in reverse. -/
def select_star_from_t_u (conditions : List Condition) : select_executor.SelectExecutor :=
  { db_ := [table_t, table_u]
    selects_ :=
      { attributes := [{ relation_name := none, attribute_name := some "*" }]
        relations := ["u", "t"]
        conditions := conditions
        orders := []
        aggregates := [] } }

/-- A query without relations. -/
def select_from_nothing : select_executor.SelectExecutor :=
  { db_ := [table_t, table_u]
    selects_ :=
      { attributes := [{ relation_name := none, attribute_name := some "*" }]
        relations := []
        conditions := []
        orders := []
        aggregates := [] } }

/-- The condition `a = a` between two attributes without relation name. -/
def a_eq_a : Condition :=
  { left_is_attr := 1
    left_value := no_value
    left_attr := { relation_name := none, attribute_name := some "a" }
    comp := CompOp.EQUAL_TO
    right_is_attr := 1
    right_attr := { relation_name := none, attribute_name := some "a" }
    right_value := no_value }

/-- The condition `t.a = u.c`. -/
def t_a_eq_u_c : Condition :=
  { left_is_attr := 1
    left_value := no_value
    left_attr := { relation_name := some "t", attribute_name := some "a" }
    comp := CompOp.EQUAL_TO
    right_is_attr := 1
    right_attr := { relation_name := some "u", attribute_name := some "c" }
    right_value := no_value }

/-- The tuple set of the scan of `t`. -/
def tuple_set_t : TupleSet := { schema := schema_t, tuples := rows_t }

/-- The tuple set of the scan of `u`. -/
def tuple_set_u : TupleSet :=
  { schema := [{ type := AttrType.INTS, table_name := "u", field_name := "c",
                 aggregate_name := none }]
    tuples := [[TupleValue.IntValue 1], [TupleValue.IntValue 3]] }

/-- A session in auto-commit mode. -/
def auto_commit : select_executor.Session := { is_trx_multi_operation_mode := false }

/-- A transaction that has received no call yet. -/
def fresh_trx : select_executor.Trx := { commit_calls := 0, rollback_calls := 0 }

/-- A session event without response. -/
def no_response : select_executor.SessionEvent := { response := none }

end scenario

namespace scenario

/-- The query `SELECT x.a FROM t`; the database has no table `x`. -/
def select_x_a_from_t : select_executor.SelectExecutor :=
  { db_ := [table_t, table_u]
    selects_ :=
      { attributes := [{ relation_name := some "x", attribute_name := some "a" }]
        relations := ["t"]
        conditions := []
        orders := []
        aggregates := [] } }

/-- The query `SELECT x.* FROM t`; the database has no table `x`. -/
def select_x_star_from_t : select_executor.SelectExecutor :=
  { db_ := [table_t, table_u]
    selects_ :=
      { attributes := [{ relation_name := some "x", attribute_name := some "*" }]
        relations := ["t"]
        conditions := []
        orders := []
        aggregates := [] } }

end scenario

namespace scenario

/-- The query `SELECT * FROM t ORDER BY a`. -/
def order_by_a : select_executor.SelectExecutor :=
  { db_ := [table_t, table_u]
    selects_ :=
      { attributes := [{ relation_name := none, attribute_name := some "*" }]
        relations := ["t"]
        conditions := []
        orders := [{ attr := { relation_name := none, attribute_name := some "a" },
                     is_desc := 0 }]
        aggregates := [] } }

/-- Four rows under the schema of `t` of which two are NULLS in the column
`a`: (2,"r0"), (NULL,"r1"), (1,"r2"), (NULL,"r3"). -/
def rows_null_keys : List Tuple :=
  [[TupleValue.IntValue 2, TupleValue.StringValue "r0"],
   [TupleValue.NullValue, TupleValue.StringValue "r1"],
   [TupleValue.IntValue 1, TupleValue.StringValue "r2"],
   [TupleValue.NullValue, TupleValue.StringValue "r3"]]

end scenario

namespace scenario

/-- The condition `t.a = t.a`. -/
def t_a_eq_t_a : Condition :=
  { left_is_attr := 1
    left_value := no_value
    left_attr := { relation_name := some "t", attribute_name := some "a" }
    comp := CompOp.EQUAL_TO
    right_is_attr := 1
    right_attr := { relation_name := some "t", attribute_name := some "a" }
    right_value := no_value }

end scenario

/-! ## Properties of the condition filter -/

open condition_filter select_executor

/-- A comparison by one of the six ordering operators is false as soon as one
operand is NULLS. -/
theorem value_compare_null_false (lhs rhs : Value) (comp_op : CompOp)
    (hop : comp_op ≠ CompOp.IS_NULL ∧ comp_op ≠ CompOp.NOT_NULL)
    (hnull : lhs.type = AttrType.NULLS ∨ rhs.type = AttrType.NULLS) :
    value_compare lhs rhs comp_op = false := by
  obtain ⟨h1, h2⟩ := hop
  unfold value_compare
  rcases hnull with h | h
  · simp [h, Ne.symm h1, Ne.symm h2]
  · simp [h, Ne.symm h1, Ne.symm h2]

/-- C1: for a bound filter whose operator is one of =, <>, <, <=, >, >= and a
record on which the left or the right side materialises to a NULLS value,
`DefaultConditionFilter::filter` returns false, whatever the other side is. -/
theorem C1_filter_rejects_null (f : DefaultConditionFilter) (rec : Record)
    (left_value right_value : Value)
    (hleft : side_value f.left_ f.left_type_ rec = some left_value)
    (hright : side_value f.right_ f.right_type_ rec = some right_value)
    (hop : f.comp_op_ = CompOp.EQUAL_TO ∨ f.comp_op_ = CompOp.NOT_EQUAL ∨
      f.comp_op_ = CompOp.LESS_THAN ∨ f.comp_op_ = CompOp.LESS_EQUAL ∨
      f.comp_op_ = CompOp.GREAT_THAN ∨ f.comp_op_ = CompOp.GREAT_EQUAL)
    (hnull : left_value.type = AttrType.NULLS ∨ right_value.type = AttrType.NULLS) :
    f.filter rec = some false := by
  have hne : f.comp_op_ ≠ CompOp.IS_NULL ∧ f.comp_op_ ≠ CompOp.NOT_NULL := by
    rcases hop with h | h | h | h | h | h <;> simp [h]
  simp [DefaultConditionFilter.filter, hleft, hright,
    value_compare_null_false left_value right_value f.comp_op_ hne hnull]

/-- C1, at a record whose nullable column `a` has its null indicator set: the
left side of `a = 1` materialises to NULLS and the filter rejects the record. -/
theorem C1_filter_rejects_null_witness :
    side_value scenario.nullable_filter.left_ scenario.nullable_filter.left_type_
        (scenario.nullable_int_record true 1) =
      some { type := AttrType.NULLS, data := { as_int := 0, as_float := 0, as_cstr := "" } } ∧
    scenario.nullable_filter.filter (scenario.nullable_int_record true 1) = some false :=
  ⟨by decide,
   C1_filter_rejects_null scenario.nullable_filter (scenario.nullable_int_record true 1)
     { type := AttrType.NULLS, data := { as_int := 0, as_float := 0, as_cstr := "" } }
     (scenario.int_value 1) (by decide) (by decide) (Or.inl rfl) (Or.inl rfl)⟩

/-- C2: `value_compare` answers true for IS_NULL on the two non-NULL integers 1
and 2, and true for NOT_NULL on the two non-NULL strings "a" and "b": in both
cases the operator reaches `judge_cmp_result`, falls through its `switch` and
comes back as `cmp_result != 0`. -/
theorem C2_is_null_true_on_non_null :
    value_compare (scenario.int_value 1) (scenario.int_value 2) CompOp.IS_NULL = true ∧
    value_compare (scenario.chars_value "a") (scenario.chars_value "b") CompOp.NOT_NULL = true ∧
    (DefaultConditionFilter.new.init_desc
      { is_attr := false, field_meta := none, value := some (scenario.int_value 1) }
      { is_attr := false, field_meta := none, value := some (scenario.int_value 2) }
      AttrType.INTS AttrType.INTS CompOp.IS_NULL).1 = RC.SUCCESS := by
  decide

/-! ## Properties of the join -/

/-- C3: on `SELECT * FROM t, u WHERE u.c = t.a` the join predicate is bound at
no join step: `select_filter_tuples` returns the whole cartesian product, with
the row (2, "y", 1) in which `u.c` is 1 and `t.a` is 2, so that the condition
is false on it, while the mirrored condition `t.a = u.c` is bound and leaves
the two matching rows. -/
theorem C3_join_predicate_dropped :
    scenario.join_later_first.select_filter_tuples [] [] =
      some (RC.SUCCESS, scenario.schema_t_u, scenario.product_t_u) ∧
    [TupleValue.IntValue 2, TupleValue.StringValue "y", TupleValue.IntValue 1] ∈
      scenario.product_t_u ∧
    select_executor.judge_cmp_result CompOp.EQUAL_TO
      ((Tuple.get [TupleValue.IntValue 2, TupleValue.StringValue "y", TupleValue.IntValue 1]
          (TupleSchema.index_of_field scenario.schema_t_u "u" "c")).compare
        (Tuple.get [TupleValue.IntValue 2, TupleValue.StringValue "y", TupleValue.IntValue 1]
          (TupleSchema.index_of_field scenario.schema_t_u "t" "a"))) = false ∧
    scenario.join_earlier_first.select_filter_tuples [] [] =
      some (RC.SUCCESS, scenario.schema_t_u,
        [[TupleValue.IntValue 1, TupleValue.StringValue "x", TupleValue.IntValue 1],
         [TupleValue.IntValue 3, TupleValue.StringValue "x", TupleValue.IntValue 3]]) := by
  decide

/-- C4: on `SELECT * FROM t, u WHERE a = 1`, where `a` is a column of `t`
alone (the unique-table rule resolves it to `t`), the condition is bound into
no scan: `match_table` rejects the null relation name for both tables, and
`select_filter_tuples` returns the whole product, rows with `a = 2` and
`a = 3` included, such as (2, "y", 1), on which `a = 1` is false. -/
theorem C4_bare_attribute_condition_dropped :
    scenario.bare_attr_two_tables.get_unique_table_name scenario.schema_t_u "a" = some "t" ∧
    scenario.bare_attr_two_tables.match_table none "t" = false ∧
    scenario.bare_attr_two_tables.match_table none "u" = false ∧
    scenario.bare_attr_two_tables.select_filter_tuples [] [] =
      some (RC.SUCCESS, scenario.schema_t_u, scenario.product_t_u) ∧
    [TupleValue.IntValue 2, TupleValue.StringValue "y", TupleValue.IntValue 1] ∈
      scenario.product_t_u ∧
    value_compare
      (pushdown_reference.to_value
        (Tuple.get [TupleValue.IntValue 2, TupleValue.StringValue "y", TupleValue.IntValue 1]
          (TupleSchema.index_of_field scenario.schema_t_u "t" "a")))
      (scenario.int_value 1) CompOp.EQUAL_TO = false := by
  decide

/-- C5: on `SELECT * FROM t, u WHERE 3 > c`, whose only condition is a
value-vs-attr predicate on the table `u`, `select_filter_tuples` returns the
six rows of the product, while the unfiltered scans followed by the filter
leave the three rows with `c = 1`. -/
theorem C5_pushdown_differs_from_reference :
    scenario.bare_attr_right_side.select_filter_tuples [] [] =
      some (RC.SUCCESS, scenario.schema_t_u, scenario.product_t_u) ∧
    pushdown_reference.select scenario.bare_attr_right_side =
      some [[TupleValue.IntValue 1, TupleValue.StringValue "x", TupleValue.IntValue 1],
            [TupleValue.IntValue 2, TupleValue.StringValue "y", TupleValue.IntValue 1],
            [TupleValue.IntValue 3, TupleValue.StringValue "x", TupleValue.IntValue 1]] := by
  decide

/-! ## Properties of the ordering -/

theorem stable_insert_perm {α : Type} (comp : α → α → Bool) (x : α) (l : List α) :
    (stable_insert comp x l).Perm (x :: l) := by
  induction l with
  | nil => exact List.Perm.refl _
  | cons y ys ih =>
    by_cases h : comp y x = true
    · simp only [stable_insert, h, if_true]
      exact (List.Perm.cons y ih).trans (List.Perm.swap x y ys)
    · simp only [stable_insert, h]
      exact List.Perm.refl _

/-- The sorted list is a permutation of the input. -/
theorem stable_sort_perm {α : Type} (comp : α → α → Bool) (l : List α) :
    (stable_sort comp l).Perm l := by
  induction l with
  | nil => exact List.Perm.refl _
  | cons x xs ih =>
    exact (stable_insert_perm comp x (stable_sort comp xs)).trans (List.Perm.cons x ih)

/-- Insertion into a sorted list gives a sorted list, when the comparator is
asymmetric and its complement transitive on the elements at hand. -/
theorem stable_insert_pairwise {α : Type} (comp : α → α → Bool) (P : α → Prop)
    (hasym : ∀ a b, P a → P b → comp a b = true → comp b a = false)
    (htrans : ∀ a b c, P a → P b → P c → comp b a = false → comp c b = false → comp c a = false)
    (x : α) (l : List α) (hx : P x) (hl : ∀ a ∈ l, P a)
    (hs : l.Pairwise (fun a b => comp b a = false)) :
    (stable_insert comp x l).Pairwise (fun a b => comp b a = false) := by
  induction l with
  | nil => simp [stable_insert]
  | cons y ys ih =>
    have hy : P y := hl y (List.mem_cons_self y ys)
    have hys : ∀ a ∈ ys, P a := fun a ha => hl a (List.mem_cons_of_mem y ha)
    obtain ⟨hhead, htail⟩ := List.pairwise_cons.mp hs
    by_cases h : comp y x = true
    · simp only [stable_insert, h, if_true]
      refine List.pairwise_cons.mpr ⟨?_, ih hys htail⟩
      intro b hb
      have hb' : b ∈ x :: ys := (stable_insert_perm comp x ys).subset hb
      rcases List.mem_cons.mp hb' with rfl | hb''
      · exact hasym y b hy hx h
      · exact hhead b hb''
    · have h' : comp y x = false := by simpa using h
      simp only [stable_insert, h]
      refine List.pairwise_cons.mpr ⟨?_, hs⟩
      intro b hb
      rcases List.mem_cons.mp hb with rfl | hb''
      · exact h'
      · exact htrans x y b hx hy (hys b hb'') h' (hhead b hb'')

/-- The sort leaves no element before one that is less than it, when the
comparator is asymmetric and its complement transitive on the elements of the
list. -/
theorem stable_sort_pairwise {α : Type} (comp : α → α → Bool) (P : α → Prop)
    (hasym : ∀ a b, P a → P b → comp a b = true → comp b a = false)
    (htrans : ∀ a b c, P a → P b → P c → comp b a = false → comp c b = false → comp c a = false)
    (l : List α) (hl : ∀ a ∈ l, P a) :
    (stable_sort comp l).Pairwise (fun a b => comp b a = false) := by
  induction l with
  | nil => simp [stable_sort]
  | cons x xs ih =>
    have hxs : ∀ a ∈ xs, P a := fun a ha => hl a (List.mem_cons_of_mem x ha)
    refine stable_insert_pairwise comp P hasym htrans x (stable_sort comp xs)
      (hl x (List.mem_cons_self x xs)) ?_ (ih hxs)
    intro a ha
    exact hxs a ((stable_sort_perm comp xs).subset ha)

/-- Insertion keeps the list as a subsequence. -/
theorem sublist_stable_insert {α : Type} (comp : α → α → Bool) (x : α) (l : List α) :
    l.Sublist (stable_insert comp x l) := by
  induction l with
  | nil => simp
  | cons y ys ih =>
    by_cases h : comp y x = true
    · simp only [stable_insert, h, if_true]
      exact List.Sublist.cons₂ y ih
    · simp only [stable_insert, h]
      exact List.Sublist.cons x (List.Sublist.refl _)

/-- The inserted element stays ahead of a subsequence none of whose elements is
less than it. -/
theorem cons_sublist_stable_insert {α : Type} (comp : α → α → Bool) (x : α) (c l : List α)
    (hc : c.Sublist l) (hx : ∀ a ∈ c, comp a x = false) :
    (x :: c).Sublist (stable_insert comp x l) := by
  induction l generalizing c with
  | nil =>
    have : c = [] := List.sublist_nil.mp hc
    subst this
    simp [stable_insert]
  | cons y ys ih =>
    by_cases h : comp y x = true
    · simp only [stable_insert, h, if_true]
      cases hc with
      | cons _ hc' => exact List.Sublist.cons y (ih c hc' hx)
      | cons₂ _ hc' =>
        have := hx y (List.mem_cons_self _ _)
        rw [h] at this
        exact absurd this (by simp)
    · simp only [stable_insert, h]
      exact List.Sublist.cons₂ x hc

/-- Stability: a subsequence of the input in which no element is less than an
earlier one is still a subsequence of the sorted list. -/
theorem sublist_stable_sort {α : Type} (comp : α → α → Bool) (c l : List α)
    (hp : c.Pairwise (fun a b => comp b a = false)) (hc : c.Sublist l) :
    c.Sublist (stable_sort comp l) := by
  induction l generalizing c with
  | nil =>
    have : c = [] := List.sublist_nil.mp hc
    subst this
    simp [stable_sort]
  | cons x xs ih =>
    cases hc with
    | cons _ hc' =>
      exact (ih c hp hc').trans (sublist_stable_insert comp x (stable_sort comp xs))
    | cons₂ _ hc' =>
      obtain ⟨hhead, htail⟩ := List.pairwise_cons.mp hp
      exact cons_sublist_stable_insert comp x _ _ (ih _ htail hc') hhead

/-- Swapping the operands of the string comparison negates the result. -/
theorem strcmp_chars_antisymm (a b : List Char) : strcmp_chars b a = -strcmp_chars a b := by
  induction a generalizing b with
  | nil => cases b <;> simp [strcmp_chars]
  | cons x xs ih =>
    cases b with
    | nil => simp [strcmp_chars]
    | cons y ys =>
      simp only [strcmp_chars]
      split_ifs <;> first | omega | exact ih ys

/-- The string comparison is transitive. -/
theorem strcmp_chars_le_trans (a b c : List Char) (h1 : strcmp_chars a b ≤ 0)
    (h2 : strcmp_chars b c ≤ 0) : strcmp_chars a c ≤ 0 := by
  induction a generalizing b c with
  | nil => cases c <;> simp [strcmp_chars]
  | cons x xs ih =>
    cases b with
    | nil => simp [strcmp_chars] at h1
    | cons y ys =>
      cases c with
      | nil => simp [strcmp_chars] at h2
      | cons z zs =>
        simp only [strcmp_chars] at h1 h2 ⊢
        split_ifs at h1 h2 ⊢ <;> first | omega | exact ih ys zs h1 h2

/-- Swapping the operands of the integer comparison negates the result. -/
theorem int_compare_antisymm (a b : Int) : int_compare b a = -int_compare a b := by
  unfold int_compare
  split_ifs <;> omega

/-- The integer comparison is transitive. -/
theorem int_compare_le_trans (a b c : Int) (h1 : int_compare a b ≤ 0)
    (h2 : int_compare b c ≤ 0) : int_compare a c ≤ 0 := by
  unfold int_compare at *
  split_ifs at h1 h2 ⊢ <;> omega

/-- Swapping the operands of the float comparison negates the result. -/
theorem float_compare_antisymm (a b : Int) : float_compare b a = -float_compare a b := by
  unfold float_compare CFloat
  simp only
  split_ifs <;> omega

/-- The float comparison is transitive. -/
theorem float_compare_le_trans (a b c : Int) (h1 : float_compare a b ≤ 0)
    (h2 : float_compare b c ≤ 0) : float_compare a c ≤ 0 := by
  unfold float_compare CFloat at *
  simp only at *
  split_ifs at h1 h2 ⊢ <;> omega

/-- Swapping the operands of `compare` negates the result. -/
theorem compare_antisymm (a b : TupleValue) : b.compare a = -a.compare b := by
  cases a <;> cases b <;> simp only [TupleValue.compare, strcmp, neg_zero]
  · exact int_compare_antisymm _ _
  · exact float_compare_antisymm _ _
  · exact float_compare_antisymm _ _
  · exact float_compare_antisymm _ _
  · exact strcmp_chars_antisymm _ _
  · exact strcmp_chars_antisymm _ _
  · exact strcmp_chars_antisymm _ _
  · exact strcmp_chars_antisymm _ _

/-- `compare` is transitive on values of one type. -/
theorem compare_le_trans (a b c : TupleValue) (hab : a.get_type = b.get_type)
    (hbc : b.get_type = c.get_type) (h1 : a.compare b ≤ 0) (h2 : b.compare c ≤ 0) :
    a.compare c ≤ 0 := by
  cases a <;> cases b <;> simp [TupleValue.get_type] at hab <;>
    cases c <;> simp [TupleValue.get_type] at hbc <;>
    simp only [TupleValue.compare, strcmp] at h1 h2 ⊢
  · exact int_compare_le_trans _ _ _ h1 h2
  · exact float_compare_le_trans _ _ _ h1 h2
  · exact strcmp_chars_le_trans _ _ _ h1 h2
  · exact strcmp_chars_le_trans _ _ _ h1 h2
  · exact le_refl _

/-- With directions 0 or 1, `y` is not less than `x` under the comparator of
`order_tuples` exactly when `x`, `y` are in key order. -/
theorem order_less_false_iff (keys : List (Int × Int))
    (hdir : ∀ k ∈ keys, k.2 = 0 ∨ k.2 = 1) (x y : Tuple) :
    order_less keys y x = false ↔ in_key_order keys x y := by
  induction keys with
  | nil => simp [order_less, in_key_order]
  | cons k rest ih =>
    obtain ⟨pos, d⟩ := k
    have hd : d = 0 ∨ d = 1 := hdir (pos, d) (List.mem_cons_self _ _)
    have ih' := ih (fun k hk => hdir k (List.mem_cons_of_mem _ hk))
    have hanti := compare_antisymm (Tuple.get x pos) (Tuple.get y pos)
    simp only [order_less, in_key_order]
    by_cases hc : (Tuple.get x pos).compare (Tuple.get y pos) = 0
    · have hc' : (Tuple.get y pos).compare (Tuple.get x pos) = 0 := by omega
      simp only [hc, hc', ne_eq, not_true_eq_false, if_false, if_true]
      exact ih'
    · have hc' : (Tuple.get y pos).compare (Tuple.get x pos) ≠ 0 := by omega
      simp only [hc, hc', ne_eq, not_false_eq_true, if_true, if_false, decide_eq_false_iff_not,
        not_not]
      rcases hd with rfl | rfl
      · split_ifs with hlt
        · constructor
          · intro h; omega
          · rintro ⟨h, -⟩; have := h rfl; omega
        · constructor
          · intro _; exact ⟨fun _ => by omega, fun h => by omega⟩
          · intro _; rfl
      · split_ifs with hlt
        · constructor
          · intro _; exact ⟨fun h => by omega, fun _ => by omega⟩
          · intro _; rfl
        · constructor
          · intro h; omega
          · rintro ⟨-, h⟩; have := h rfl; omega

/-- The comparator of `order_tuples` is asymmetric when the directions are 0 or
1. -/
theorem order_less_asymm (keys : List (Int × Int))
    (hdir : ∀ k ∈ keys, k.2 = 0 ∨ k.2 = 1) (x y : Tuple)
    (h : order_less keys x y = true) : order_less keys y x = false := by
  induction keys with
  | nil => simp [order_less]
  | cons k rest ih =>
    obtain ⟨pos, d⟩ := k
    have hd : d = 0 ∨ d = 1 := hdir (pos, d) (List.mem_cons_self _ _)
    have ih' := ih (fun k hk => hdir k (List.mem_cons_of_mem _ hk))
    have hanti := compare_antisymm (Tuple.get x pos) (Tuple.get y pos)
    simp only [order_less] at h ⊢
    by_cases hc : (Tuple.get x pos).compare (Tuple.get y pos) = 0
    · have hc' : (Tuple.get y pos).compare (Tuple.get x pos) = 0 := by omega
      simp only [hc, hc', ne_eq, not_true_eq_false, if_false] at h ⊢
      exact ih' h
    · have hc' : (Tuple.get y pos).compare (Tuple.get x pos) ≠ 0 := by omega
      simp only [hc, hc', ne_eq, not_false_eq_true, if_true, decide_eq_true_eq,
        decide_eq_false_iff_not, not_not] at h ⊢
      split_ifs at h ⊢ <;> omega

/-- The complement of the comparator of `order_tuples` is transitive on rows
that agree in type at every key. -/
theorem order_less_trans (keys : List (Int × Int))
    (hdir : ∀ k ∈ keys, k.2 = 0 ∨ k.2 = 1) (x y z : Tuple)
    (hxy : ∀ k ∈ keys, (Tuple.get x k.1).get_type = (Tuple.get y k.1).get_type)
    (hyz : ∀ k ∈ keys, (Tuple.get y k.1).get_type = (Tuple.get z k.1).get_type)
    (h1 : order_less keys y x = false) (h2 : order_less keys z y = false) :
    order_less keys z x = false := by
  induction keys with
  | nil => simp [order_less]
  | cons k rest ih =>
    obtain ⟨pos, d⟩ := k
    have hd : d = 0 ∨ d = 1 := hdir (pos, d) (List.mem_cons_self _ _)
    have ih' := ih (fun k hk => hdir k (List.mem_cons_of_mem _ hk))
      (fun k hk => hxy k (List.mem_cons_of_mem _ hk))
      (fun k hk => hyz k (List.mem_cons_of_mem _ hk))
    have txy := hxy (pos, d) (List.mem_cons_self _ _)
    have tyz := hyz (pos, d) (List.mem_cons_self _ _)
    simp only at txy tyz
    have a1 := compare_antisymm (Tuple.get x pos) (Tuple.get y pos)
    have a2 := compare_antisymm (Tuple.get y pos) (Tuple.get z pos)
    have a3 := compare_antisymm (Tuple.get x pos) (Tuple.get z pos)
    have t1 := compare_le_trans (Tuple.get x pos) (Tuple.get y pos) (Tuple.get z pos) txy tyz
    have t2 := compare_le_trans (Tuple.get z pos) (Tuple.get y pos) (Tuple.get x pos)
      tyz.symm txy.symm
    have t3 := compare_le_trans (Tuple.get y pos) (Tuple.get z pos) (Tuple.get x pos) tyz
      (txy.trans tyz).symm
    have t4 := compare_le_trans (Tuple.get y pos) (Tuple.get x pos) (Tuple.get z pos) txy.symm
      (txy.trans tyz)
    have t5 := compare_le_trans (Tuple.get z pos) (Tuple.get x pos) (Tuple.get y pos)
      (txy.trans tyz).symm txy
    have t6 := compare_le_trans (Tuple.get x pos) (Tuple.get z pos) (Tuple.get y pos)
      (txy.trans tyz) tyz.symm
    simp only [order_less] at h1 h2 ⊢
    by_cases c1 : (Tuple.get y pos).compare (Tuple.get x pos) = 0 <;>
      by_cases c2 : (Tuple.get z pos).compare (Tuple.get y pos) = 0 <;>
      by_cases c3 : (Tuple.get z pos).compare (Tuple.get x pos) = 0 <;>
      simp only [c1, c2, c3, ne_eq, not_true_eq_false, not_false_eq_true, if_true, if_false,
        decide_eq_false_iff_not, not_not] at h1 h2 ⊢
    · exact ih' h1 h2
    all_goals omega

/-- One round of the key resolution loop of `order_tuples`. -/
theorem order_positions_loop_cons (self : SelectExecutor) (tuple_schema : TupleSchema)
    (o : OrderBy) (rest : List OrderBy) (acc : List (Int × Int)) :
    order_positions_loop self tuple_schema (o :: rest) acc =
      match resolve_order_key self tuple_schema o with
      | none => (RC.SQL_SYNTAX, acc)
      | some k => order_positions_loop self tuple_schema rest (acc ++ [k]) := by
  rw [order_positions_loop]
  unfold resolve_order_key
  cases o.attr.attribute_name with
  | none => rfl
  | some field_name =>
    cases o.attr.relation_name with
    | some table_name =>
      by_cases hpos : tuple_schema.index_of_field table_name field_name = -1
      · simp [hpos]
      · have hpos' : ¬ (-1 = tuple_schema.index_of_field table_name field_name) :=
          fun h => hpos h.symm
        simp [hpos, hpos']
    | none =>
      cases hu : self.get_unique_table_name tuple_schema field_name with
      | none => simp [hu]
      | some table_name =>
        by_cases hpos : tuple_schema.index_of_field table_name field_name = -1
        · simp [hu, hpos]
        · have hpos' : ¬ (-1 = tuple_schema.index_of_field table_name field_name) :=
            fun h => hpos h.symm
          simp [hu, hpos, hpos']

/-- A resolved key carries the direction of its ORDER BY entry. -/
theorem resolve_order_key_snd (self : SelectExecutor) (tuple_schema : TupleSchema)
    (o : OrderBy) (k : Int × Int) (h : resolve_order_key self tuple_schema o = some k) :
    k.2 = o.is_desc := by
  unfold resolve_order_key at h
  cases hname : o.attr.attribute_name with
  | none => simp [hname] at h
  | some field_name =>
    cases hrel : o.attr.relation_name with
    | some table_name =>
      simp only [hname, hrel] at h
      split_ifs at h
      simp only [Option.some.injEq] at h
      rw [← h]
    | none =>
      simp only [hname, hrel] at h
      cases huniq : self.get_unique_table_name tuple_schema field_name with
      | none => simp [huniq] at h
      | some table_name =>
        simp only [huniq] at h
        split_ifs at h
        simp only [Option.some.injEq] at h
        rw [← h]

/-- When every entry resolves, the loop succeeds with the resolved keys in
order. -/
theorem order_positions_loop_resolved (self : SelectExecutor) (tuple_schema : TupleSchema)
    (orders : List OrderBy) (acc : List (Int × Int))
    (hres : ∀ o ∈ orders, (resolve_order_key self tuple_schema o).isSome = true) :
    order_positions_loop self tuple_schema orders acc =
      (RC.SUCCESS, acc ++ orders.filterMap (resolve_order_key self tuple_schema)) := by
  induction orders generalizing acc with
  | nil => simp [order_positions_loop]
  | cons o rest ih =>
    have ho := hres o (List.mem_cons_self _ _)
    rw [order_positions_loop_cons]
    cases hk : resolve_order_key self tuple_schema o with
    | none => simp [hk] at ho
    | some k =>
      simp only [List.filterMap_cons, hk]
      rw [ih _ (fun o ho => hres o (List.mem_cons_of_mem _ ho))]
      simp

/-- The resolved keys have direction 0 or 1 when the entries have. -/
theorem resolved_keys_dir (self : SelectExecutor) (tuple_schema : TupleSchema)
    (orders : List OrderBy) (hdir : ∀ o ∈ orders, o.is_desc = 0 ∨ o.is_desc = 1) :
    ∀ k ∈ orders.filterMap (resolve_order_key self tuple_schema), k.2 = 0 ∨ k.2 = 1 := by
  intro k hk
  obtain ⟨o, ho, hok⟩ := List.mem_filterMap.mp hk
  rw [resolve_order_key_snd self tuple_schema o k hok]
  exact hdir o ho

/-- A row is not less than a row it ties with on every key. -/
theorem order_less_of_tie (keys : List (Int × Int)) (x y : Tuple)
    (h : ∀ k ∈ keys, (Tuple.get x k.1).compare (Tuple.get y k.1) = 0) :
    order_less keys x y = false := by
  induction keys with
  | nil => simp [order_less]
  | cons k rest ih =>
    obtain ⟨pos, d⟩ := k
    have h0 := h (pos, d) (List.mem_cons_self _ _)
    simp only at h0
    simp only [order_less, h0, ne_eq, not_true_eq_false, if_false]
    exact ih (fun k hk => h k (List.mem_cons_of_mem _ hk))

/-- Rows that hold, at every key position, a value of the column's type agree
in type at every key. -/
theorem typed_rows_same_type (tuple_schema : TupleSchema) (keys : List (Int × Int))
    (x y : Tuple) (hx : ∀ k ∈ keys, typed_at tuple_schema x k.1)
    (hy : ∀ k ∈ keys, typed_at tuple_schema y k.1) :
    ∀ k ∈ keys, (Tuple.get x k.1).get_type = (Tuple.get y k.1).get_type := by
  intro k hk
  have h1 := (hx k hk).1
  have h2 := (hy k hk).1
  rw [h1] at h2
  exact Option.some.inj h2

/-- With directions 0 or 1, the comparator of `order_tuples` induces a strict
weak ordering on rows that agree in type at every key. -/
theorem order_less_strict_weak (keys : List (Int × Int))
    (hdir : ∀ k ∈ keys, k.2 = 0 ∨ k.2 = 1) (tuples : List Tuple)
    (hsame : ∀ x ∈ tuples, ∀ y ∈ tuples, ∀ k ∈ keys,
      (Tuple.get x k.1).get_type = (Tuple.get y k.1).get_type) :
    strict_weak_on (order_less keys) tuples := by
  refine ⟨?_, ?_, ?_⟩
  · intro a _
    cases h : order_less keys a a with
    | false => rfl
    | true =>
      have := order_less_asymm keys hdir a a h
      rw [h] at this
      exact this
  · intro a ha b hb c hc hab hbc
    cases hac : order_less keys a c with
    | true => rfl
    | false =>
      have hcb := order_less_asymm keys hdir b c hbc
      have := order_less_trans keys hdir b c a (hsame b hb c hc) (hsame c hc a ha) hcb hac
      rw [hab] at this
      exact absurd this (by decide)
  · intro a ha b hb c hc hab hba hbc hcb
    exact ⟨order_less_trans keys hdir c b a (hsame c hc b hb) (hsame b hb a ha) hbc hab,
      order_less_trans keys hdir a b c (hsame a ha b hb) (hsame b hb c hc) hba hcb⟩

/-- When every ORDER BY entry resolves with a direction of 0 or 1 and every row
holds, at every key position, a non-NULLS value of the column's type, the
comparator is a strict weak ordering of the rows and `order_tuples` returns
SUCCESS with the stable sort of the rows. -/
theorem order_tuples_of_typed (self : SelectExecutor) (tuple_schema : TupleSchema)
    (tuples : List Tuple)
    (hresolve : ∀ o ∈ self.selects_.orders,
      (resolve_order_key self tuple_schema o).isSome = true)
    (hdir : ∀ o ∈ self.selects_.orders, o.is_desc = 0 ∨ o.is_desc = 1)
    (htyped : ∀ k ∈ self.selects_.orders.filterMap (resolve_order_key self tuple_schema),
      ∀ row ∈ tuples, typed_at tuple_schema row k.1) :
    self.order_tuples tuple_schema tuples =
      some (RC.SUCCESS, stable_sort
        (order_less (self.selects_.orders.filterMap (resolve_order_key self tuple_schema)))
        tuples) := by
  have hloop := order_positions_loop_resolved self tuple_schema self.selects_.orders [] hresolve
  have hkd := resolved_keys_dir self tuple_schema self.selects_.orders hdir
  simp only [List.nil_append] at hloop
  have hswo : strict_weak_on
      (order_less (self.selects_.orders.filterMap (resolve_order_key self tuple_schema)))
      tuples :=
    order_less_strict_weak _ hkd tuples (fun x hx y hy =>
      typed_rows_same_type tuple_schema _ x y (fun k hk => htyped k hk x hx)
        (fun k hk => htyped k hk y hy))
  unfold SelectExecutor.order_tuples std_stable_sort
  simp only [hloop, ne_eq, not_true_eq_false, if_false]
  rw [if_pos hswo]

/-- C6: when every ORDER BY entry resolves with a direction of 0 or 1 and every
row holds, at every key position, a non-NULLS value of the column's type,
`order_tuples` returns SUCCESS and leaves a permutation of the input in which
every row `x` standing before a row `y` (adjacent rows in particular) is in key
order: at the first key where `compare` is non-zero it is negative for an
ascending key and positive for a descending one. -/
theorem C6_order_tuples_sorts (self : SelectExecutor) (tuple_schema : TupleSchema)
    (tuples : List Tuple)
    (hresolve : ∀ o ∈ self.selects_.orders,
      (resolve_order_key self tuple_schema o).isSome = true)
    (hdir : ∀ o ∈ self.selects_.orders, o.is_desc = 0 ∨ o.is_desc = 1)
    (htyped : ∀ k ∈ self.selects_.orders.filterMap (resolve_order_key self tuple_schema),
      ∀ row ∈ tuples, typed_at tuple_schema row k.1) :
    ∃ sorted, self.order_tuples tuple_schema tuples = some (RC.SUCCESS, sorted) ∧
      sorted.Perm tuples ∧
      sorted.Pairwise
        (in_key_order
          (self.selects_.orders.filterMap (resolve_order_key self tuple_schema))) := by
  have hkd := resolved_keys_dir self tuple_schema self.selects_.orders hdir
  refine ⟨_, order_tuples_of_typed self tuple_schema tuples hresolve hdir htyped,
    stable_sort_perm _ _, ?_⟩
  have hsorted := stable_sort_pairwise
    (order_less (self.selects_.orders.filterMap (resolve_order_key self tuple_schema)))
    (fun row => ∀ k ∈ self.selects_.orders.filterMap (resolve_order_key self tuple_schema),
      typed_at tuple_schema row k.1)
    (fun a b _ _ h => order_less_asymm _ hkd a b h)
    (fun a b c ha hb hc h1 h2 =>
      order_less_trans _ hkd a b c (typed_rows_same_type tuple_schema _ a b ha hb)
        (typed_rows_same_type tuple_schema _ b c hb hc) h1 h2)
    tuples (fun row hrow k hk => htyped k hk row hrow)
  exact hsorted.imp (fun {a b} h => (order_less_false_iff _ hkd a b).mp h)

/-- C6 on scenario 2 of the spec, `ORDER BY a DESC` over the rows of `t`: the
rows come out as (3,"x"), (2,"y"), (1,"x"). -/
theorem C6_order_tuples_sorts_witness :
    scenario.order_by_a_desc.order_tuples scenario.schema_t scenario.rows_t =
      some (RC.SUCCESS,
        [[TupleValue.IntValue 3, TupleValue.StringValue "x"],
         [TupleValue.IntValue 2, TupleValue.StringValue "y"],
         [TupleValue.IntValue 1, TupleValue.StringValue "x"]]) ∧
    ∃ sorted,
      scenario.order_by_a_desc.order_tuples scenario.schema_t scenario.rows_t =
        some (RC.SUCCESS, sorted) ∧
      sorted.Perm scenario.rows_t ∧
      sorted.Pairwise
        (in_key_order (scenario.order_by_a_desc.selects_.orders.filterMap
          (resolve_order_key scenario.order_by_a_desc scenario.schema_t))) :=
  ⟨by decide,
   C6_order_tuples_sorts scenario.order_by_a_desc scenario.schema_t scenario.rows_t
     (by decide) (by decide) (by decide)⟩

theorem char_eq_of_toNat (a b : Char) (h : a.toNat = b.toNat) : a = b := by
  apply Char.ext
  apply UInt32.ext
  exact h

/-- The character comparison is 0 exactly on equal sequences. -/
theorem strcmp_chars_eq_zero (a b : List Char) : strcmp_chars a b = 0 ↔ a = b := by
  induction a generalizing b with
  | nil => cases b <;> simp [strcmp_chars]
  | cons x xs ih =>
    cases b with
    | nil => simp [strcmp_chars]
    | cons y ys =>
      simp only [strcmp_chars, List.cons.injEq]
      split_ifs with h1 h2
      · have hne : x ≠ y := fun e => by rw [e] at h1; omega
        simp [hne]
      · have hne : x ≠ y := fun e => by rw [e] at h2; omega
        simp [hne]
      · rw [ih ys]
        have : x = y := char_eq_of_toNat x y (by omega)
        simp [this]

/-- `strcmp` is 0 exactly on equal strings. -/
theorem strcmp_eq_zero (a b : String) : strcmp a b = 0 ↔ a = b := by
  unfold strcmp
  rw [strcmp_chars_eq_zero]
  constructor
  · exact String.ext
  · intro h; rw [h]

/-- An attribute that resolves sends the loop of `get_select_tuple_schema` on to
the next attribute. -/
theorem get_select_tuple_schema_loop_resolves (self : SelectExecutor)
    (tuple_schema : TupleSchema) (n : Nat) (attr : RelAttr)
    (hget : self.selects_.attributes.get? n = some attr)
    (hres : attr_resolves self tuple_schema attr = true) (select_tuple_schema : TupleSchema) :
    ∃ next : TupleSchema,
      get_select_tuple_schema_loop self tuple_schema (n + 1) select_tuple_schema =
        get_select_tuple_schema_loop self tuple_schema n next := by
  rw [get_select_tuple_schema_loop]
  simp only [hget]
  unfold attr_resolves at hres
  cases hname : attr.attribute_name with
  | none => simp [hname] at hres
  | some attribute_name =>
    simp only [hname] at hres ⊢
    by_cases hstar : attribute_name = "*"
    · have h0 : 0 = strcmp "*" attribute_name := by
        rw [hstar]; decide
      simp only [hstar, if_true] at hres
      rw [if_pos h0]
      cases hrel : attr.relation_name with
      | none => simp [hrel] at hres
      | some relation_name =>
        simp only [hrel] at hres ⊢
        cases htab : self.find_table relation_name with
        | none => simp [htab] at hres
        | some table =>
          refine ⟨TupleSchema.from_table table select_tuple_schema, ?_⟩
          simp [SelectExecutor.add_single_table_tuple_schema, htab]
    · have h0 : ¬ (0 = strcmp "*" attribute_name) := by
        intro h
        exact hstar ((strcmp_eq_zero "*" attribute_name).mp h.symm).symm
      simp only [hstar, if_false] at hres
      rw [if_neg h0]
      cases hrel : attr.relation_name with
      | some relation_name =>
        simp only [hrel] at hres ⊢
        cases htab : self.find_table relation_name with
        | none => simp [htab] at hres
        | some table =>
          simp only [htab] at hres
          cases hfield : table.field (some attribute_name) with
          | none => simp [hfield] at hres
          | some field_meta =>
            refine ⟨select_tuple_schema.add_if_not_exists field_meta.type table.name
              field_meta.name, ?_⟩
            simp [SelectExecutor.schema_add_field, htab, hfield]
      | none =>
        simp only [hrel] at hres ⊢
        cases huniq : self.get_unique_table_name tuple_schema attribute_name with
        | none => simp [huniq] at hres
        | some table_name =>
          simp only [huniq] at hres ⊢
          cases htab : self.find_table table_name with
          | none => simp [htab] at hres
          | some table =>
            simp only [htab] at hres
            cases hfield : table.field (some attribute_name) with
            | none => simp [hfield] at hres
            | some field_meta =>
              refine ⟨select_tuple_schema.add_if_not_exists field_meta.type table.name
                field_meta.name, ?_⟩
              simp [SelectExecutor.schema_add_field, htab, hfield]

/-- The loop of `get_select_tuple_schema`, started at or above a `*` without
relation name that is not in the first position visited, ends in SQL_SYNTAX
when the attributes above the `*` resolve. -/
theorem get_select_tuple_schema_loop_star (self : SelectExecutor) (tuple_schema : TupleSchema)
    (i : Nat) (hi : i + 1 < self.selects_.attributes.length)
    (hstar : self.selects_.attributes.get? i =
      some { relation_name := none, attribute_name := some "*" })
    (hbefore : ∀ attr ∈ self.selects_.attributes.drop (i + 1),
      attr_resolves self tuple_schema attr = true)
    (n : Nat) (hn : i + 1 ≤ n) (hlen : n ≤ self.selects_.attributes.length)
    (select_tuple_schema : TupleSchema) :
    (get_select_tuple_schema_loop self tuple_schema n select_tuple_schema).map Prod.fst =
      some RC.SQL_SYNTAX := by
  induction n, hn using Nat.le_induction generalizing select_tuple_schema with
  | base =>
    rw [get_select_tuple_schema_loop]
    have h0 : 0 = strcmp "*" "*" := by decide
    have hne : (i : Int) ≠ (self.selects_.attributes.length : Int) - 1 := by omega
    simp only [hstar]
    rw [if_pos h0, if_pos hne]
    rfl
  | succ n hn ih =>
    have hlt : n < self.selects_.attributes.length := by omega
    obtain ⟨attr, hattr⟩ : ∃ attr, self.selects_.attributes.get? n = some attr := by
      exact ⟨self.selects_.attributes.get ⟨n, hlt⟩, List.get?_eq_get hlt⟩
    have hmem : attr ∈ self.selects_.attributes.drop (i + 1) := by
      apply List.getElem?_mem (n := n - (i + 1))
      rw [List.getElem?_drop]
      have : i + 1 + (n - (i + 1)) = n := by omega
      rw [this, ← List.get?_eq_getElem?]
      exact hattr
    obtain ⟨next, hnext⟩ := get_select_tuple_schema_loop_resolves self tuple_schema n attr hattr
      (hbefore attr hmem) select_tuple_schema
    rw [hnext]
    exact ih (by omega) next

/-- C8, amended: when the select list holds a `*` without relation name at an
index `i` other than `attr_num - 1` and every attribute visited before it
(every index above `i`) resolves, `get_select_tuple_schema` returns
SQL_SYNTAX. -/
theorem C8_star_not_first_rejected (self : SelectExecutor)
    (tuple_schema select_tuple_schema : TupleSchema) (i : Nat)
    (hi : i + 1 < self.selects_.attributes.length)
    (hstar : self.selects_.attributes.get? i =
      some { relation_name := none, attribute_name := some "*" })
    (hbefore : ∀ attr ∈ self.selects_.attributes.drop (i + 1),
      attr_resolves self tuple_schema attr = true) :
    (self.get_select_tuple_schema tuple_schema select_tuple_schema).map Prod.fst =
      some RC.SQL_SYNTAX :=
  get_select_tuple_schema_loop_star self tuple_schema i hi hstar hbefore
    self.selects_.attributes.length (by omega) (le_refl _) select_tuple_schema

/-- C8, amended, on `SELECT a, * FROM t`: the `*` is at index 0 of the two
attributes, `a` is visited first and resolves, and the result is SQL_SYNTAX. -/
theorem C8_star_not_first_rejected_witness :
    (0 + 1 < scenario.star_after_attr.selects_.attributes.length) ∧
    (scenario.star_after_attr.get_select_tuple_schema scenario.schema_t []).map Prod.fst =
      some RC.SQL_SYNTAX :=
  ⟨by decide,
   C8_star_not_first_rejected scenario.star_after_attr scenario.schema_t [] 0 (by decide)
     (by decide) (by decide)⟩

/-- C8 as stated fails: with two `*` without relation name in a projection
query, the one at index 0 is not at index `attr_num - 1 = 1`, and
`get_select_tuple_schema` returns SUCCESS with the whole joined schema, because
the `*` at index 1 is visited first and returns at once. -/
theorem C8_two_stars_accepted :
    scenario.two_stars.selects_.aggregates.length = 0 ∧
    scenario.two_stars.selects_.attributes.get? 0 =
      some { relation_name := none, attribute_name := some "*" } ∧
    (0 : Int) ≠ (scenario.two_stars.selects_.attributes.length : Int) - 1 ∧
    scenario.two_stars.get_select_tuple_schema scenario.schema_t [] =
      some (RC.SUCCESS, scenario.schema_t) := by
  decide

/-- The loop of `TupleProjcet::init` fails on a field that the joined schema
lacks. -/
theorem tuple_project_init_loop_missing (tuple_schema : TupleSchema) (fields : List TupleField)
    (positions : List Int)
    (h : ∃ f ∈ fields, tuple_schema.index_of_field f.table_name f.field_name = -1) :
    (tuple_project_init_loop tuple_schema fields positions).1 = RC.SCHEMA_FIELD_MISSING := by
  induction fields generalizing positions with
  | nil => simp at h
  | cons g rest ih =>
    rw [tuple_project_init_loop]
    by_cases hg : tuple_schema.index_of_field g.table_name g.field_name = -1
    · simp [hg]
    · have hg' : ¬ (-1 = tuple_schema.index_of_field g.table_name g.field_name) :=
        fun e => hg e.symm
      simp only [hg', if_false]
      apply ih
      obtain ⟨f, hf, hfm⟩ := h
      rcases List.mem_cons.mp hf with rfl | hf'
      · exact absurd hfm hg
      · exact ⟨f, hf', hfm⟩

/-- The loop of `TupleProjcet::init` collects the index of every field when all
are in the joined schema. -/
theorem tuple_project_init_loop_found (tuple_schema : TupleSchema) (fields : List TupleField)
    (positions : List Int)
    (h : ∀ f ∈ fields, tuple_schema.index_of_field f.table_name f.field_name ≠ -1) :
    tuple_project_init_loop tuple_schema fields positions =
      (RC.SUCCESS, positions ++
        fields.map (fun f => tuple_schema.index_of_field f.table_name f.field_name)) := by
  induction fields generalizing positions with
  | nil => simp [tuple_project_init_loop]
  | cons g rest ih =>
    rw [tuple_project_init_loop]
    have hg := h g (List.mem_cons_self _ _)
    have hg' : ¬ (-1 = tuple_schema.index_of_field g.table_name g.field_name) :=
      fun e => hg e.symm
    simp only [hg', if_false]
    rw [ih _ (fun f hf => h f (List.mem_cons_of_mem _ hf))]
    simp

/-- Either every field is in the joined schema or `TupleProjcet::init` returns
SCHEMA_FIELD_MISSING. -/
theorem tuple_project_init_code (tuple_schema : TupleSchema) (fields : List TupleField) :
    (∀ f ∈ fields, tuple_schema.index_of_field f.table_name f.field_name ≠ -1) ∨
      (TupleProjcet.init tuple_schema fields).1 = RC.SCHEMA_FIELD_MISSING := by
  by_cases h : ∀ f ∈ fields, tuple_schema.index_of_field f.table_name f.field_name ≠ -1
  · exact Or.inl h
  · right
    push_neg at h
    exact tuple_project_init_loop_missing tuple_schema fields [] h

/-- C9: whenever `project` returns SUCCESS, the rows added to the result set
are, in order, the images of the rows of the joined vector, each of them the
list over the result schema of the joined row's value at
`index_of_field(joined schema, table and field of the result column)`; hence
there are as many of them as joined rows and each has the length of the result
schema.  If a field of the result schema is not in the joined schema,
`TupleProjcet::init` returns SCHEMA_FIELD_MISSING, and `project` returns it
with the result set unchanged. -/
theorem C9_project_correct :
    (∀ (self : SelectExecutor) (tuple_schema : TupleSchema) (filter_tuple_vector : List Tuple)
        (result_set projected : TupleSet),
      self.project tuple_schema filter_tuple_vector result_set = some (RC.SUCCESS, projected) →
      projected.tuples = result_set.tuples ++ filter_tuple_vector.map (fun row =>
        projected.schema.map (fun field =>
          Tuple.get row (tuple_schema.index_of_field field.table_name field.field_name))) ∧
      (projected.tuples.drop result_set.tuples.length).length = filter_tuple_vector.length ∧
      (∀ row ∈ projected.tuples.drop result_set.tuples.length,
        row.length = projected.schema.length)) ∧
    (∀ (tuple_schema select_tuple_schema : TupleSchema),
      (∃ f ∈ select_tuple_schema,
        tuple_schema.index_of_field f.table_name f.field_name = -1) →
      (TupleProjcet.init tuple_schema select_tuple_schema).1 = RC.SCHEMA_FIELD_MISSING) ∧
    (∀ (self : SelectExecutor) (tuple_schema select_tuple_schema : TupleSchema)
        (filter_tuple_vector : List Tuple) (result_set : TupleSet),
      self.get_select_tuple_schema tuple_schema [] = some (RC.SUCCESS, select_tuple_schema) →
      (∃ f ∈ select_tuple_schema,
        tuple_schema.index_of_field f.table_name f.field_name = -1) →
      self.project tuple_schema filter_tuple_vector result_set =
        some (RC.SCHEMA_FIELD_MISSING, result_set)) := by
  refine ⟨?_, ?_, ?_⟩
  · intro self tuple_schema filter_tuple_vector result_set projected h
    unfold SelectExecutor.project at h
    cases hsel : self.get_select_tuple_schema tuple_schema [] with
    | none => simp [hsel] at h
    | some r =>
      obtain ⟨rc, select_tuple_schema⟩ := r
      simp only [hsel] at h
      by_cases hrc : rc = RC.SUCCESS
      · subst hrc
        simp only [ne_eq, not_true_eq_false, if_false] at h
        rcases tuple_project_init_code tuple_schema select_tuple_schema with hall | hmiss
        · have hinit := tuple_project_init_loop_found tuple_schema select_tuple_schema [] hall
          simp only [TupleProjcet.init, hinit, ne_eq, not_true_eq_false, if_false,
            List.nil_append, Option.some.injEq, Prod.mk.injEq, true_and] at h
          subst h
          simp only [TupleProjcet.project, List.nil_append]
          refine ⟨?_, ?_, ?_⟩
          · simp [List.map_map, Function.comp]
          · simp
          · intro row hrow
            simp only [List.drop_left] at hrow
            obtain ⟨t, -, rfl⟩ := List.mem_map.mp hrow
            simp
        · simp [hmiss] at h
      · simp [hrc] at h
  · intro tuple_schema select_tuple_schema h
    exact tuple_project_init_loop_missing tuple_schema select_tuple_schema [] h
  · intro self tuple_schema select_tuple_schema filter_tuple_vector result_set hsel h
    have hmiss := tuple_project_init_loop_missing tuple_schema select_tuple_schema [] h
    unfold SelectExecutor.project
    simp only [hsel, ne_eq, not_true_eq_false, if_false, TupleProjcet.init]
    simp [hmiss]

/-- C9 on `SELECT b, a FROM t`, whose projection swaps the two columns of every
row, and on `SELECT u.c FROM t`, whose result field is not in the joined
schema. -/
theorem C9_project_correct_witness :
    scenario.order_by_a_desc.project scenario.schema_t scenario.rows_t
        { schema := [], tuples := [] } =
      some (RC.SUCCESS, { schema := scenario.schema_b_a, tuples := scenario.rows_b_a }) ∧
    scenario.rows_b_a = [] ++ scenario.rows_t.map (fun row =>
      scenario.schema_b_a.map (fun field =>
        Tuple.get row (TupleSchema.index_of_field scenario.schema_t field.table_name
          field.field_name))) ∧
    (TupleProjcet.init scenario.schema_t [scenario.field_u_c]).1 = RC.SCHEMA_FIELD_MISSING ∧
    scenario.select_u_c_from_t.project scenario.schema_t scenario.rows_t
        { schema := [], tuples := [] } =
      some (RC.SCHEMA_FIELD_MISSING, { schema := [], tuples := [] }) :=
  ⟨by decide,
   (C9_project_correct.1 scenario.order_by_a_desc scenario.schema_t scenario.rows_t
     { schema := [], tuples := [] }
     { schema := scenario.schema_b_a, tuples := scenario.rows_b_a } (by decide)).1,
   C9_project_correct.2.1 scenario.schema_t [scenario.field_u_c]
     ⟨scenario.field_u_c, by decide, by decide⟩,
   C9_project_correct.2.2 scenario.select_u_c_from_t scenario.schema_t [scenario.field_u_c]
     scenario.rows_t { schema := [], tuples := [] } (by decide)
     ⟨scenario.field_u_c, by decide, by decide⟩⟩

/-! ## Properties of the aggregation -/

theorem collect_numeric_length (pos : Int) (tuples : List Tuple) (num_vector : List Int)
    (hnum : ∀ row ∈ tuples, (Tuple.get row pos).get_type = AttrType.INTS ∨
      (Tuple.get row pos).get_type = AttrType.FLOATS ∨
      (Tuple.get row pos).get_type = AttrType.NULLS) :
    (collect_numeric pos tuples num_vector).1 = RC.SUCCESS ∧
    (collect_numeric pos tuples num_vector).2.length =
      num_vector.length + (non_null_rows tuples pos).length := by
  induction tuples generalizing num_vector with
  | nil => simp [collect_numeric, non_null_rows]
  | cons row rest ih =>
    have hrow := hnum row (List.mem_cons_self _ _)
    have ih' := fun nv => ih nv (fun r hr => hnum r (List.mem_cons_of_mem _ hr))
    rw [collect_numeric]
    unfold non_null_rows at ih' ⊢
    rw [List.filter_cons]
    cases hv : Tuple.get row pos with
    | NullValue =>
      have e : (TupleValue.NullValue).get_type = AttrType.NULLS := rfl
      simp only [e, ne_eq, not_true_eq_false, decide_False, Bool.false_eq_true, if_false]
      exact ih' num_vector
    | IntValue value =>
      have e : (TupleValue.IntValue value).get_type = AttrType.INTS := rfl
      have := ih' (num_vector ++ [value * float_unit])
      simp only [e, ne_eq, List.length_append, List.length_singleton] at this ⊢
      simp only [show ¬ (AttrType.INTS = AttrType.NULLS) by decide, not_false_eq_true,
        decide_True, if_true, List.length_cons]
      exact ⟨this.1, by omega⟩
    | FloatValue value =>
      have e : (TupleValue.FloatValue value).get_type = AttrType.FLOATS := rfl
      have := ih' (num_vector ++ [value])
      simp only [e, ne_eq, List.length_append, List.length_singleton] at this ⊢
      simp only [show ¬ (AttrType.FLOATS = AttrType.NULLS) by decide, not_false_eq_true,
        decide_True, if_true, List.length_cons]
      exact ⟨this.1, by omega⟩
    | StringValue value => simp [hv, TupleValue.get_type] at hrow
    | DateValue value => simp [hv, TupleValue.get_type] at hrow

/-- C10, amended: over a column whose values are INTS, FLOATS or NULLS,
`aggregate_numeric` with the name "count" returns SUCCESS and appends, as a
float, the number of rows whose value in that column is not NULLS. -/
theorem C10_count_of_non_null (filter_tuple_vector : List Tuple) (pos : Int)
    (aggregate_tuple : Tuple)
    (hnum : ∀ row ∈ filter_tuple_vector, (Tuple.get row pos).get_type = AttrType.INTS ∨
      (Tuple.get row pos).get_type = AttrType.FLOATS ∨
      (Tuple.get row pos).get_type = AttrType.NULLS) :
    SelectExecutor.aggregate_numeric filter_tuple_vector pos "count" aggregate_tuple =
      (RC.SUCCESS, aggregate_tuple ++
        [TupleValue.FloatValue (int_to_float (non_null_rows filter_tuple_vector pos).length)]) := by
  obtain ⟨h1, h2⟩ := collect_numeric_length pos filter_tuple_vector [] hnum
  have h0 : 0 = strcmp "count" "count" := by decide
  unfold SelectExecutor.aggregate_numeric
  simp only [h1, ne_eq, not_true_eq_false, if_false]
  rw [if_pos h0, h2]
  simp

/-- C10, amended, on a vector of three rows of which one is NULLS: the count
is 2. -/
theorem C10_count_of_non_null_witness :
    SelectExecutor.aggregate_numeric scenario.rows_with_null 0 "count" [] =
      (RC.SUCCESS, [TupleValue.FloatValue (int_to_float 2)]) :=
  C10_count_of_non_null scenario.rows_with_null 0 [] (by decide)

/-- C10 as stated fails: on a vector of three rows of which one is NULLS in
the column, "count" yields 2, which is not the length 3 of the vector. -/
theorem C10_count_skips_null :
    scenario.rows_with_null.length = 3 ∧
    SelectExecutor.aggregate_numeric scenario.rows_with_null 0 "count" [] =
      (RC.SUCCESS, [TupleValue.FloatValue (int_to_float 2)]) ∧
    int_to_float 2 ≠ int_to_float 3 := by
  decide

/-- A number below `2^b` has at most `b` binary digits. -/
theorem bit_length_aux_le (fuel n b : Nat) (h : n < 2 ^ b) : bit_length_aux fuel n ≤ b := by
  induction fuel generalizing n b with
  | zero => simp [bit_length_aux]
  | succ fuel ih =>
    rw [bit_length_aux]
    by_cases hn : n = 0
    · simp [hn]
    · rw [if_neg hn]
      cases b with
      | zero =>
        simp at h
        exact absurd h hn
      | succ b =>
        have h2 : n / 2 < 2 ^ b := by
          rw [Nat.div_lt_iff_lt_mul (by norm_num)]
          rw [pow_succ] at h
          exact h
        have := ih (n / 2) b h2
        omega

/-- Rounding leaves a number that fits the significand unchanged. -/
theorem round_significand_exact (p n : Nat)
    (h : 2 ^ (bit_length n - p) ∣ n) : round_significand p n 1 = n := by
  unfold round_significand round_half_even
  simp only [Nat.div_one, one_mul]
  obtain ⟨q, hq⟩ := h
  have hpos : 0 < 2 ^ (bit_length n - p) := by positivity
  have hmod : n % 2 ^ (bit_length n - p) = 0 := Nat.mod_eq_zero_of_dvd ⟨q, hq⟩
  have hdiv : n / 2 ^ (bit_length n - p) * 2 ^ (bit_length n - p) = n :=
    Nat.div_mul_cancel ⟨q, hq⟩
  simp only [hmod, mul_zero, hpos, if_true]
  exact hdiv

/-- The conversion of an integer of magnitude at most `2^24` to `float` is
exact. -/
theorem int_to_float_exact (m : Int) (h : m.natAbs ≤ 2 ^ 24) :
    int_to_float m = m * float_unit := by
  unfold int_to_float round_to_float
  have hn : (m * (float_unit : Int)).natAbs = m.natAbs * float_unit := by
    rw [Int.natAbs_mul]; rfl
  have hdvd : 2 ^ (bit_length (m.natAbs * float_unit) - 24) ∣ m.natAbs * float_unit := by
    rcases Nat.lt_or_eq_of_le h with hlt | heq
    · have hb : m.natAbs * float_unit < 2 ^ 173 := by
        have : float_unit = 2 ^ 149 := rfl
        rw [this]
        calc m.natAbs * 2 ^ 149 < 2 ^ 24 * 2 ^ 149 :=
              Nat.mul_lt_mul_of_pos_right hlt (by positivity)
          _ = 2 ^ 173 := by rw [← pow_add]
      have hk := bit_length_aux_le (m.natAbs * float_unit) (m.natAbs * float_unit) 173 hb
      have hk' : bit_length (m.natAbs * float_unit) - 24 ≤ 149 := by
        unfold bit_length; omega
      exact Dvd.dvd.mul_left (pow_dvd_pow 2 hk') _
    · have hb : m.natAbs * float_unit < 2 ^ 174 := by
        have : float_unit = 2 ^ 149 := rfl
        rw [this, heq, ← pow_add]
        exact Nat.pow_lt_pow_right (by norm_num) (by norm_num)
      have hk := bit_length_aux_le (m.natAbs * float_unit) (m.natAbs * float_unit) 174 hb
      have hk' : bit_length (m.natAbs * float_unit) - 24 ≤ 173 := by
        unfold bit_length; omega
      have : m.natAbs * float_unit = 2 ^ 173 := by
        have : float_unit = 2 ^ 149 := rfl
        rw [this, heq, ← pow_add]
      rw [this] at hk' ⊢
      exact pow_dvd_pow 2 hk'
  rw [hn, round_significand_exact 24 _ hdvd]
  unfold with_sign
  have hu : (0 : Int) < (float_unit : Int) := by
    have : float_unit = 2 ^ 149 := rfl
    rw [this]; positivity
  split_ifs with hneg
  · have hm : m < 0 := by
      by_contra hc
      push_neg at hc
      have := mul_nonneg hc hu.le
      omega
    rw [Int.natCast_mul, Int.natCast_natAbs, abs_of_neg hm]
    ring
  · have hm : 0 ≤ m := by
      by_contra hc
      push_neg at hc
      have := mul_neg_of_neg_of_pos hc hu
      omega
    rw [Int.natCast_mul, Int.natCast_natAbs, abs_of_nonneg hm]

/-- A fold that keeps, at each step, one of its two operands that is above
both in a preorder ends on an element above the start and every element
folded. -/
theorem foldl_pick_spec {α : Type} (le : α → α → Prop) (pick : α → α → α)
    (hrefl : ∀ a, le a a) (htrans : ∀ a b c, le a b → le b c → le a c)
    (hpick : ∀ b v, (pick b v = b ∨ pick b v = v) ∧ le b (pick b v) ∧ le v (pick b v))
    (xs : List α) (best : α) :
    (xs.foldl pick best = best ∨ xs.foldl pick best ∈ xs) ∧ le best (xs.foldl pick best) ∧
      ∀ v ∈ xs, le v (xs.foldl pick best) := by
  induction xs generalizing best with
  | nil => exact ⟨Or.inl rfl, hrefl best, fun v hv => absurd hv (List.not_mem_nil v)⟩
  | cons x rest ih =>
    obtain ⟨hmem, hle, hall⟩ := ih (pick best x)
    obtain ⟨hp, hb, hx⟩ := hpick best x
    simp only [List.foldl_cons]
    refine ⟨?_, htrans _ _ _ hb hle, ?_⟩
    · rcases hmem with h | h
      · rcases hp with h' | h'
        · left; rw [h, h']
        · right; rw [h, h']; exact List.mem_cons_self _ _
      · right; exact List.mem_cons_of_mem _ h
    · intro v hv
      rcases List.mem_cons.mp hv with rfl | hv'
      · exact htrans _ _ _ hx hle
      · exact hall v hv'

/-- The greatest element of a non-empty vector of numbers is one of them and
none exceeds it. -/
theorem max_element_spec (x : Int) (xs : List Int) :
    max_element (x :: xs) ∈ x :: xs ∧ ∀ v ∈ x :: xs, v ≤ max_element (x :: xs) := by
  have h := foldl_pick_spec (fun a b : Int => a ≤ b)
    (fun best value => if best < value then value else best)
    (fun a => le_refl a) (fun a b c => le_trans)
    (fun b v => by
      by_cases hbv : b < v
      · dsimp only; rw [if_pos hbv]; exact ⟨Or.inr rfl, by omega, le_refl v⟩
      · dsimp only; rw [if_neg hbv]; exact ⟨Or.inl rfl, le_refl b, by omega⟩) xs x
  obtain ⟨hmem, hle, hall⟩ := h
  simp only [max_element]
  refine ⟨?_, ?_⟩
  · rcases hmem with h | h
    · rw [h]; exact List.mem_cons_self _ _
    · exact List.mem_cons_of_mem _ h
  · intro v hv
    rcases List.mem_cons.mp hv with rfl | hv'
    · exact hle
    · exact hall v hv'

/-- The least element of a non-empty vector of numbers is one of them and none
is below it. -/
theorem min_element_spec (x : Int) (xs : List Int) :
    min_element (x :: xs) ∈ x :: xs ∧ ∀ v ∈ x :: xs, min_element (x :: xs) ≤ v := by
  have h := foldl_pick_spec (fun a b : Int => b ≤ a)
    (fun best value => if value < best then value else best)
    (fun a => le_refl a) (fun a b c hab hbc => le_trans hbc hab)
    (fun b v => by
      by_cases hbv : v < b
      · dsimp only; rw [if_pos hbv]; exact ⟨Or.inr rfl, by omega, le_refl v⟩
      · dsimp only; rw [if_neg hbv]; exact ⟨Or.inl rfl, le_refl b, by omega⟩) xs x
  obtain ⟨hmem, hle, hall⟩ := h
  simp only [min_element]
  refine ⟨?_, ?_⟩
  · rcases hmem with h | h
    · rw [h]; exact List.mem_cons_self _ _
    · exact List.mem_cons_of_mem _ h
  · intro v hv
    rcases List.mem_cons.mp hv with rfl | hv'
    · exact hle
    · exact hall v hv'

/-- A string compares equal to itself. -/
theorem strcmp_refl (a : String) : strcmp a a = 0 := by
  have := strcmp_chars_antisymm a.data a.data
  unfold strcmp
  omega

/-- The greatest element of a non-empty vector of strings is one of them and
none is lexicographically above it. -/
theorem max_element_string_spec (x : String) (xs : List String) :
    max_element_string (x :: xs) ∈ x :: xs ∧
      ∀ v ∈ x :: xs, strcmp v (max_element_string (x :: xs)) ≤ 0 := by
  have h := foldl_pick_spec (fun a b : String => strcmp a b ≤ 0)
    (fun best value => if string_less best value = true then value else best)
    (fun a => le_of_eq (strcmp_refl a))
    (fun a b c hab hbc => strcmp_chars_le_trans a.data b.data c.data hab hbc)
    (fun b v => by
      have hanti := strcmp_chars_antisymm b.data v.data
      by_cases hbv : string_less b v = true
      · dsimp only; rw [if_pos hbv]
        have : strcmp b v < 0 := by simpa [string_less] using hbv
        exact ⟨Or.inr rfl, le_of_lt this, le_of_eq (strcmp_refl v)⟩
      · dsimp only; rw [if_neg hbv]
        have : ¬ strcmp b v < 0 := by simpa [string_less] using hbv
        refine ⟨Or.inl rfl, le_of_eq (strcmp_refl b), ?_⟩
        unfold strcmp at this ⊢
        omega) xs x
  obtain ⟨hmem, hle, hall⟩ := h
  simp only [max_element_string]
  refine ⟨?_, ?_⟩
  · rcases hmem with h | h
    · rw [h]; exact List.mem_cons_self _ _
    · exact List.mem_cons_of_mem _ h
  · intro v hv
    rcases List.mem_cons.mp hv with rfl | hv'
    · exact hle
    · exact hall v hv'

/-- The least element of a non-empty vector of strings is one of them and none
is lexicographically below it. -/
theorem min_element_string_spec (x : String) (xs : List String) :
    min_element_string (x :: xs) ∈ x :: xs ∧
      ∀ v ∈ x :: xs, strcmp (min_element_string (x :: xs)) v ≤ 0 := by
  have h := foldl_pick_spec (fun a b : String => strcmp b a ≤ 0)
    (fun best value => if string_less value best = true then value else best)
    (fun a => le_of_eq (strcmp_refl a))
    (fun a b c hab hbc => strcmp_chars_le_trans c.data b.data a.data hbc hab)
    (fun b v => by
      have hanti := strcmp_chars_antisymm b.data v.data
      by_cases hbv : string_less v b = true
      · dsimp only; rw [if_pos hbv]
        have : strcmp v b < 0 := by simpa [string_less] using hbv
        exact ⟨Or.inr rfl, le_of_lt this, le_of_eq (strcmp_refl v)⟩
      · dsimp only; rw [if_neg hbv]
        have : ¬ strcmp v b < 0 := by simpa [string_less] using hbv
        refine ⟨Or.inl rfl, le_of_eq (strcmp_refl b), ?_⟩
        unfold strcmp at this ⊢
        omega) xs x
  obtain ⟨hmem, hle, hall⟩ := h
  simp only [min_element_string]
  refine ⟨?_, ?_⟩
  · rcases hmem with h | h
    · rw [h]; exact List.mem_cons_self _ _
    · exact List.mem_cons_of_mem _ h
  · intro v hv
    rcases List.mem_cons.mp hv with rfl | hv'
    · exact hle
    · exact hall v hv'

/-- C11: `std::accumulate` is called with the `int` initial
value 0, so every partial sum is converted to `int`; over the FLOATS values
0.5 and 0.5 the "avg" aggregate yields 0 and not 0.5, while over the INTS
values 1, 2, 3 it yields 2. -/
theorem C11_avg_truncates_partial_sums :
    SelectExecutor.aggregate_numeric scenario.rows_halves 0 "avg" [] =
      (RC.SUCCESS, [TupleValue.FloatValue 0]) ∧
    (0 : CFloat) ≠ scenario.half ∧
    2 * scenario.half = (float_unit : Int) ∧
    accumulate_int [scenario.half, scenario.half] = 0 ∧
    SelectExecutor.aggregate_numeric scenario.rows_t 0 "avg" [] =
      (RC.SUCCESS, [TupleValue.FloatValue (int_to_float 2)]) := by
  decide

/-- Over a column of CHARS, DATES and NULLS values, the first loop of
`aggregate_string` appends the non-NULLS strings of the column, in row
order. -/
theorem collect_strings_eq (pos : Int) (tuples : List Tuple) (str_vector : List String)
    (h : string_column tuples pos) :
    collect_strings pos tuples str_vector =
      (RC.SUCCESS, str_vector ++ string_values tuples pos) := by
  induction tuples generalizing str_vector with
  | nil => simp [collect_strings, string_values]
  | cons row rest ih =>
    have hrow := h row (List.mem_cons_self _ _)
    have ih' := fun sv => ih sv (fun r hr => h r (List.mem_cons_of_mem _ hr))
    rw [collect_strings]
    unfold string_values at ih' ⊢
    rw [List.filterMap_cons]
    cases hv : Tuple.get row pos with
    | NullValue => exact ih' str_vector
    | IntValue value => simp [hv, TupleValue.get_type] at hrow
    | FloatValue value => simp [hv, TupleValue.get_type] at hrow
    | StringValue value =>
      simp only []
      rw [ih' (str_vector ++ [value]), List.append_assoc]
      rfl
    | DateValue value =>
      simp only []
      rw [ih' (str_vector ++ [value]), List.append_assoc]
      rfl

/-- Over a column of INTS and NULLS values, the first loop of
`aggregate_numeric` appends the non-NULLS integers of the column, each as a
`double`, in row order. -/
theorem collect_numeric_ints (pos : Int) (tuples : List Tuple) (num_vector : List Int)
    (h : int_column tuples pos) :
    collect_numeric pos tuples num_vector =
      (RC.SUCCESS,
        num_vector ++ (int_values tuples pos).map (fun v => v * (float_unit : Int))) := by
  induction tuples generalizing num_vector with
  | nil => simp [collect_numeric, int_values]
  | cons row rest ih =>
    have hrow := h row (List.mem_cons_self _ _)
    have ih' := fun nv => ih nv (fun r hr => h r (List.mem_cons_of_mem _ hr))
    rw [collect_numeric]
    unfold int_values at ih' ⊢
    rw [List.filterMap_cons]
    cases hv : Tuple.get row pos with
    | NullValue => exact ih' num_vector
    | IntValue value =>
      simp only []
      rw [ih' (num_vector ++ [value * float_unit]), List.append_assoc]
      rfl
    | FloatValue value => simp [hv, TupleValue.get_type] at hrow
    | StringValue value => simp [hv, TupleValue.get_type] at hrow
    | DateValue value => simp [hv, TupleValue.get_type] at hrow

/-- The greatest of a non-empty vector of integers held as `double` is the
greatest of the integers. -/
theorem max_element_scaled (xs : List Int) (hne : xs ≠ []) :
    ∃ m ∈ xs, max_element (xs.map (fun v => v * (float_unit : Int))) = m * float_unit ∧
      ∀ v ∈ xs, v ≤ m := by
  have hu : (0 : Int) < (float_unit : Int) := by
    have : float_unit = 2 ^ 149 := rfl
    rw [this]
    positivity
  cases xs with
  | nil => exact absurd rfl hne
  | cons x rest =>
    obtain ⟨hmem, hall⟩ := max_element_spec (x * float_unit)
      (rest.map (fun v => v * (float_unit : Int)))
    rw [← List.map_cons (fun v => v * (float_unit : Int))] at hmem hall
    obtain ⟨m, hm, hmeq⟩ := List.mem_map.mp hmem
    refine ⟨m, hm, hmeq.symm, ?_⟩
    intro v hv
    have := hall (v * float_unit) (List.mem_map.mpr ⟨v, hv, rfl⟩)
    rw [← hmeq] at this
    exact le_of_mul_le_mul_right this hu

/-- The least of a non-empty vector of integers held as `double` is the least
of the integers. -/
theorem min_element_scaled (xs : List Int) (hne : xs ≠ []) :
    ∃ m ∈ xs, min_element (xs.map (fun v => v * (float_unit : Int))) = m * float_unit ∧
      ∀ v ∈ xs, m ≤ v := by
  have hu : (0 : Int) < (float_unit : Int) := by
    have : float_unit = 2 ^ 149 := rfl
    rw [this]
    positivity
  cases xs with
  | nil => exact absurd rfl hne
  | cons x rest =>
    obtain ⟨hmem, hall⟩ := min_element_spec (x * float_unit)
      (rest.map (fun v => v * (float_unit : Int)))
    rw [← List.map_cons (fun v => v * (float_unit : Int))] at hmem hall
    obtain ⟨m, hm, hmeq⟩ := List.mem_map.mp hmem
    refine ⟨m, hm, hmeq.symm, ?_⟩
    intro v hv
    have := hall (v * float_unit) (List.mem_map.mpr ⟨v, hv, rfl⟩)
    rw [← hmeq] at this
    exact le_of_mul_le_mul_right this hu

/-- C12, amended: over a CHARS or DATES column with at least one non-NULLS
value, `aggregate_string` with "max" / "min" emits a string that occurs among
the non-NULLS values and that no other of them exceeds / precedes
lexicographically; over an INTS column with at least one non-NULLS value,
`aggregate_numeric` with "max" / "min" emits the `float` nearest to the
greatest / least non-NULLS value, which is that value itself when its magnitude
is at most 2^24. -/
theorem C12_max_min_extrema (string_rows : List Tuple) (string_pos : Int)
    (int_rows : List Tuple) (int_pos : Int) (aggregate_tuple : Tuple)
    (hs : string_column string_rows string_pos)
    (hsne : string_values string_rows string_pos ≠ [])
    (hi : int_column int_rows int_pos)
    (hine : int_values int_rows int_pos ≠ []) :
    (∃ s ∈ string_values string_rows string_pos,
      SelectExecutor.aggregate_string string_rows string_pos "max" aggregate_tuple =
        (RC.SUCCESS, aggregate_tuple ++ [TupleValue.StringValue s]) ∧
      ∀ v ∈ string_values string_rows string_pos, strcmp v s ≤ 0) ∧
    (∃ s ∈ string_values string_rows string_pos,
      SelectExecutor.aggregate_string string_rows string_pos "min" aggregate_tuple =
        (RC.SUCCESS, aggregate_tuple ++ [TupleValue.StringValue s]) ∧
      ∀ v ∈ string_values string_rows string_pos, strcmp s v ≤ 0) ∧
    (∃ m ∈ int_values int_rows int_pos,
      SelectExecutor.aggregate_numeric int_rows int_pos "max" aggregate_tuple =
        (RC.SUCCESS, aggregate_tuple ++ [TupleValue.FloatValue (int_to_float m)]) ∧
      (∀ v ∈ int_values int_rows int_pos, v ≤ m) ∧
      (m.natAbs ≤ 2 ^ 24 → int_to_float m = m * float_unit)) ∧
    (∃ m ∈ int_values int_rows int_pos,
      SelectExecutor.aggregate_numeric int_rows int_pos "min" aggregate_tuple =
        (RC.SUCCESS, aggregate_tuple ++ [TupleValue.FloatValue (int_to_float m)]) ∧
      (∀ v ∈ int_values int_rows int_pos, m ≤ v) ∧
      (m.natAbs ≤ 2 ^ 24 → int_to_float m = m * float_unit)) := by
  have hcs := collect_strings_eq string_pos string_rows [] hs
  have hcn := collect_numeric_ints int_pos int_rows [] hi
  have e1 : ¬ (0 = strcmp "max" "count") := by decide
  have e2 : 0 = strcmp "max" "max" := by decide
  have e3 : ¬ (0 = strcmp "min" "count") := by decide
  have e4 : ¬ (0 = strcmp "min" "max") := by decide
  have e5 : 0 = strcmp "min" "min" := by decide
  have e6 : ¬ (0 = strcmp "max" "avg") := by decide
  have e7 : ¬ (0 = strcmp "min" "avg") := by decide
  have hse : (string_values string_rows string_pos).isEmpty = false := by
    cases hv : string_values string_rows string_pos with
    | nil => exact absurd hv hsne
    | cons x xs => rfl
  have hie : ((int_values int_rows int_pos).map (fun v => v * (float_unit : Int))).isEmpty =
      false := by
    cases hv : int_values int_rows int_pos with
    | nil => exact absurd hv hine
    | cons x xs => rfl
  refine ⟨?_, ?_, ?_, ?_⟩
  · cases hv : string_values string_rows string_pos with
    | nil => exact absurd hv hsne
    | cons x xs =>
      obtain ⟨hmem, hall⟩ := max_element_string_spec x xs
      refine ⟨max_element_string (x :: xs), hmem, ?_, hall⟩
      unfold SelectExecutor.aggregate_string
      simp only [hcs, ne_eq, not_true_eq_false, if_false, List.nil_append, hv]
      rw [if_neg e1, if_pos e2]
      rfl
  · cases hv : string_values string_rows string_pos with
    | nil => exact absurd hv hsne
    | cons x xs =>
      obtain ⟨hmem, hall⟩ := min_element_string_spec x xs
      refine ⟨min_element_string (x :: xs), hmem, ?_, hall⟩
      unfold SelectExecutor.aggregate_string
      simp only [hcs, ne_eq, not_true_eq_false, if_false, List.nil_append, hv]
      rw [if_neg e3, if_neg e4, if_pos e5]
      rfl
  · obtain ⟨m, hm, hmeq, hall⟩ := max_element_scaled (int_values int_rows int_pos) hine
    refine ⟨m, hm, ?_, hall, int_to_float_exact m⟩
    unfold SelectExecutor.aggregate_numeric
    simp only [hcn, ne_eq, not_true_eq_false, if_false, List.nil_append, hie]
    rw [if_neg e1, if_neg e6, if_pos e2, hmeq]
    rfl
  · obtain ⟨m, hm, hmeq, hall⟩ := min_element_scaled (int_values int_rows int_pos) hine
    refine ⟨m, hm, ?_, hall, int_to_float_exact m⟩
    unfold SelectExecutor.aggregate_numeric
    simp only [hcn, ne_eq, not_true_eq_false, if_false, List.nil_append, hie]
    rw [if_neg e3, if_neg e7, if_neg e4, if_pos e5, hmeq]
    rfl

/-- C12, amended, on the table `t`: the column `b` for the strings and the
column `a` for the integers. -/
theorem C12_max_min_extrema_witness :
    (∃ s ∈ string_values scenario.rows_t 1,
      SelectExecutor.aggregate_string scenario.rows_t 1 "max" [] =
        (RC.SUCCESS, [] ++ [TupleValue.StringValue s]) ∧
      ∀ v ∈ string_values scenario.rows_t 1, strcmp v s ≤ 0) ∧
    (∃ s ∈ string_values scenario.rows_t 1,
      SelectExecutor.aggregate_string scenario.rows_t 1 "min" [] =
        (RC.SUCCESS, [] ++ [TupleValue.StringValue s]) ∧
      ∀ v ∈ string_values scenario.rows_t 1, strcmp s v ≤ 0) ∧
    (∃ m ∈ int_values scenario.rows_t 0,
      SelectExecutor.aggregate_numeric scenario.rows_t 0 "max" [] =
        (RC.SUCCESS, [] ++ [TupleValue.FloatValue (int_to_float m)]) ∧
      (∀ v ∈ int_values scenario.rows_t 0, v ≤ m) ∧
      (m.natAbs ≤ 2 ^ 24 → int_to_float m = m * float_unit)) ∧
    (∃ m ∈ int_values scenario.rows_t 0,
      SelectExecutor.aggregate_numeric scenario.rows_t 0 "min" [] =
        (RC.SUCCESS, [] ++ [TupleValue.FloatValue (int_to_float m)]) ∧
      (∀ v ∈ int_values scenario.rows_t 0, m ≤ v) ∧
      (m.natAbs ≤ 2 ^ 24 → int_to_float m = m * float_unit)) :=
  C12_max_min_extrema scenario.rows_t 1 scenario.rows_t 0 [] (by decide) (by decide)
    (by decide) (by decide)

/-- C12 as stated fails: over an INTS column whose only value is 16777217
(2^24 + 1), "max" and "min" emit 16777216, the nearest `float`, which is not a
value of the column. -/
theorem C12_large_int_extremum_rounded :
    int_values scenario.rows_large_int 0 = [16777217] ∧
    SelectExecutor.aggregate_numeric scenario.rows_large_int 0 "max" [] =
      (RC.SUCCESS, [TupleValue.FloatValue (16777216 * float_unit)]) ∧
    SelectExecutor.aggregate_numeric scenario.rows_large_int 0 "min" [] =
      (RC.SUCCESS, [TupleValue.FloatValue (16777216 * float_unit)]) ∧
    (16777216 * float_unit : Int) ≠ 16777217 * float_unit := by
  decide

/-- Over a column of NULLS only, the first loop of `aggregate_numeric` adds
nothing to `num_vector`. -/
theorem collect_numeric_null (pos : Int) (tuples : List Tuple) (num_vector : List Int)
    (h : null_column tuples pos) :
    collect_numeric pos tuples num_vector = (RC.SUCCESS, num_vector) := by
  induction tuples with
  | nil => rfl
  | cons row rest ih =>
    have hrow := h row (List.mem_cons_self _ _)
    rw [collect_numeric]
    cases hv : Tuple.get row pos with
    | NullValue => exact ih (fun r hr => h r (List.mem_cons_of_mem _ hr))
    | IntValue value => simp [hv, TupleValue.get_type] at hrow
    | FloatValue value => simp [hv, TupleValue.get_type] at hrow
    | StringValue value => simp [hv, TupleValue.get_type] at hrow
    | DateValue value => simp [hv, TupleValue.get_type] at hrow

/-- C13: over a column without a non-NULLS value (the empty vector included),
`aggregate_numeric` with "max", "min" or "avg" returns SUCCESS and appends the
string "NULL"; with "count" it appends the number 0. -/
theorem C13_all_null_aggregation (filter_tuple_vector : List Tuple) (pos : Int)
    (aggregate_tuple : Tuple) (h : null_column filter_tuple_vector pos) :
    (∀ aggregate_name ∈ ["max", "min", "avg"],
      SelectExecutor.aggregate_numeric filter_tuple_vector pos aggregate_name aggregate_tuple =
        (RC.SUCCESS, aggregate_tuple ++ [TupleValue.StringValue "NULL"])) ∧
    SelectExecutor.aggregate_numeric filter_tuple_vector pos "count" aggregate_tuple =
      (RC.SUCCESS, aggregate_tuple ++ [TupleValue.FloatValue 0]) := by
  have hc := collect_numeric_null pos filter_tuple_vector [] h
  have hmax : ¬ (0 = strcmp "max" "count") := by decide
  have hmin : ¬ (0 = strcmp "min" "count") := by decide
  have havg : ¬ (0 = strcmp "avg" "count") := by decide
  have hcount : 0 = strcmp "count" "count" := by decide
  have hzero : int_to_float ((([] : List Int).length : Nat) : Int) = 0 := by decide
  refine ⟨?_, ?_⟩
  · intro aggregate_name hname
    unfold SelectExecutor.aggregate_numeric
    simp only [hc, ne_eq, not_true_eq_false, if_false]
    simp only [List.mem_cons, List.mem_singleton, List.not_mem_nil, or_false] at hname
    rcases hname with rfl | rfl | rfl
    · rw [if_neg hmax]; rfl
    · rw [if_neg hmin]; rfl
    · rw [if_neg havg]; rfl
  · unfold SelectExecutor.aggregate_numeric
    simp only [hc, ne_eq, not_true_eq_false, if_false]
    rw [if_pos hcount, hzero]

/-- C13 on a vector whose only row is NULLS in the column. -/
theorem C13_all_null_aggregation_witness :
    null_column scenario.rows_all_null 0 ∧
    SelectExecutor.aggregate_numeric scenario.rows_all_null 0 "max" [] =
      (RC.SUCCESS, [TupleValue.StringValue "NULL"]) ∧
    SelectExecutor.aggregate_numeric scenario.rows_all_null 0 "count" [] =
      (RC.SUCCESS, [TupleValue.FloatValue 0]) :=
  ⟨by decide,
   (C13_all_null_aggregation scenario.rows_all_null 0 [] (by decide)).1 "max" (by decide),
   (C13_all_null_aggregation scenario.rows_all_null 0 [] (by decide)).2⟩

/-- C14, amended: over a CHARS or DATES column, `aggregate_string` with the
name "avg" returns SQL_SYNTAX and adds no value when the column has at least
one non-NULLS value; when it has none (the empty vector included) it returns
SUCCESS and appends the string "NULL". -/
theorem C14_avg_of_strings (filter_tuple_vector : List Tuple) (pos : Int)
    (aggregate_tuple : Tuple) (h : string_column filter_tuple_vector pos) :
    (string_values filter_tuple_vector pos ≠ [] →
      SelectExecutor.aggregate_string filter_tuple_vector pos "avg" aggregate_tuple =
        (RC.SQL_SYNTAX, aggregate_tuple)) ∧
    (string_values filter_tuple_vector pos = [] →
      SelectExecutor.aggregate_string filter_tuple_vector pos "avg" aggregate_tuple =
        (RC.SUCCESS, aggregate_tuple ++ [TupleValue.StringValue "NULL"])) := by
  have hc := collect_strings_eq pos filter_tuple_vector [] h
  have hcount : ¬ (0 = strcmp "avg" "count") := by decide
  have hmax : ¬ (0 = strcmp "avg" "max") := by decide
  have hmin : ¬ (0 = strcmp "avg" "min") := by decide
  unfold SelectExecutor.aggregate_string
  simp only [hc, ne_eq, not_true_eq_false, if_false, List.nil_append]
  rw [if_neg hcount, if_neg hmax, if_neg hmin]
  constructor
  · intro hne
    have : (string_values filter_tuple_vector pos).isEmpty = false := by
      cases hs : string_values filter_tuple_vector pos with
      | nil => exact absurd hs hne
      | cons x xs => rfl
    simp [this]
  · intro he
    simp [he]

/-- C14, amended, on the column `b` of `t` and on a column of NULLS only. -/
theorem C14_avg_of_strings_witness :
    string_column scenario.rows_t 1 ∧
    SelectExecutor.aggregate_string scenario.rows_t 1 "avg" [] = (RC.SQL_SYNTAX, []) ∧
    SelectExecutor.aggregate_string scenario.rows_all_null 0 "avg" [] =
      (RC.SUCCESS, [TupleValue.StringValue "NULL"]) :=
  ⟨by decide,
   (C14_avg_of_strings scenario.rows_t 1 [] (by decide)).1 (by decide),
   (C14_avg_of_strings scenario.rows_all_null 0 [] (by decide)).2 (by decide)⟩

/-- C14 as stated fails: on the empty vector, and on a column whose values are
all NULLS, "avg" returns SUCCESS and adds the string "NULL" to the aggregate
tuple. -/
theorem C14_avg_of_no_strings_succeeds :
    SelectExecutor.aggregate_string [] 0 "avg" [] =
      (RC.SUCCESS, [TupleValue.StringValue "NULL"]) ∧
    SelectExecutor.aggregate_string scenario.rows_all_null 0 "avg" [] =
      (RC.SUCCESS, [TupleValue.StringValue "NULL"]) := by
  decide

/-- A name with at least one character is never numeric for
`field_name_is_numeric`: no character is both a digit and a dot. -/
theorem field_name_is_numeric_false (field_name : String) (h : field_name ≠ "") :
    field_name_is_numeric field_name = false := by
  unfold field_name_is_numeric
  cases hd : field_name.data with
  | nil =>
    exfalso
    apply h
    cases field_name
    simp only at hd
    subst hd
    rfl
  | cons c rest =>
    unfold field_name_is_numeric_loop
    by_cases hc : c = '.'
    · subst hc
      rfl
    · simp [hc]

/-- C15: `field_name_is_numeric` tests
`!isdigit(*p) || *p != '.'`, which holds for every character, so "3.14" is
not taken for a number; `SELECT max(3.14) FROM t` is then resolved as a column
name and returns SQL_SYNTAX. -/
theorem C15_literal_aggregate_rejected :
    field_name_is_numeric "3.14" = false ∧
    field_name_is_numeric "3" = false ∧
    SelectExecutor.aggregate scenario.max_of_literal scenario.schema_t scenario.rows_t
      { schema := [], tuples := [] } = some (RC.SQL_SYNTAX, { schema := [], tuples := [] }) := by
  decide

/-- The round of the loop of `aggregate` for a pair whose attribute is `*`:
with the name "count" it adds a FLOATS column and the size of the tuple vector
converted to `float`, with any other name it ends the function with
SQL_SYNTAX. -/
theorem aggregate_pair_star (self : SelectExecutor) (tuple_schema : TupleSchema)
    (filter_tuple_vector : List Tuple) (aggregate_name : String) (attr : RelAttr)
    (aggregate_schema : TupleSchema) (aggregate_tuple : Tuple)
    (hattr : attr.attribute_name = some "*") :
    aggregate_pair self tuple_schema filter_tuple_vector (some aggregate_name) attr
        aggregate_schema aggregate_tuple =
      if aggregate_name = "count" then
        some (RC.SUCCESS,
          aggregate_schema.add AttrType.FLOATS "" "*" (some aggregate_name),
          aggregate_tuple ++
            [TupleValue.FloatValue (int_to_float filter_tuple_vector.length)])
      else
        some (RC.SQL_SYNTAX,
          aggregate_schema.add AttrType.FLOATS "" "*" (some aggregate_name), aggregate_tuple) := by
  have hstar : 0 = strcmp "*" "*" := by decide
  have hnum : field_name_is_numeric "*" = false := by decide
  unfold aggregate_pair
  simp only [hattr, hnum, Bool.false_eq_true, false_or, false_and, if_false]
  rw [if_pos hstar]
  by_cases hc : aggregate_name = "count"
  · have h0 : 0 = strcmp aggregate_name "count" := ((strcmp_eq_zero _ _).mpr hc).symm
    rw [if_pos h0, if_pos hc]
  · have h0 : ¬ (0 = strcmp aggregate_name "count") := fun h =>
      hc ((strcmp_eq_zero _ _).mp h.symm)
    rw [if_neg h0, if_neg hc]

/-- The result of `aggregate` for a select list of the one pair `(f, *)`. -/
theorem aggregate_single_star (self : SelectExecutor) (tuple_schema : TupleSchema)
    (filter_tuple_vector : List Tuple) (result_set : TupleSet) (aggregate_name : String)
    (attr : RelAttr)
    (haggregates : self.selects_.aggregates = [some aggregate_name])
    (hattributes : self.selects_.attributes.get? 0 = some attr)
    (hattr : attr.attribute_name = some "*") :
    self.aggregate tuple_schema filter_tuple_vector result_set =
      if aggregate_name = "count" then
        some (RC.SUCCESS,
          { schema := [{ type := AttrType.FLOATS, table_name := "", field_name := "*",
                         aggregate_name := some "count" }]
            tuples := result_set.tuples ++
              [[TupleValue.FloatValue (int_to_float filter_tuple_vector.length)]] })
      else some (RC.SQL_SYNTAX, result_set) := by
  unfold SelectExecutor.aggregate
  rw [haggregates]
  simp only [List.length_singleton]
  unfold aggregate_loop
  rw [haggregates, hattributes]
  simp only [List.get?_cons_zero]
  rw [aggregate_pair_star self tuple_schema filter_tuple_vector aggregate_name attr [] [] hattr]
  by_cases hc : aggregate_name = "count"
  · subst hc
    simp [aggregate_loop, TupleSchema.add]
  · simp [hc]

/-- C16, amended: for a select list of the one pair ("count", "*"),
`aggregate` returns SUCCESS and emits, as a `float`, the `float` nearest to the
number of tuples of the vector (rows containing NULLS included), which is that
number itself when there are at most 2^24 tuples; for the pair (f, "*") with
any other name f it returns SQL_SYNTAX. -/
theorem C16_count_star (self : SelectExecutor) (tuple_schema : TupleSchema)
    (filter_tuple_vector : List Tuple) (result_set : TupleSet) (aggregate_name : String)
    (attr : RelAttr)
    (haggregates : self.selects_.aggregates = [some aggregate_name])
    (hattributes : self.selects_.attributes.get? 0 = some attr)
    (hattr : attr.attribute_name = some "*") :
    (aggregate_name = "count" →
      self.aggregate tuple_schema filter_tuple_vector result_set =
        some (RC.SUCCESS,
          { schema := [{ type := AttrType.FLOATS, table_name := "", field_name := "*",
                         aggregate_name := some "count" }]
            tuples := result_set.tuples ++
              [[TupleValue.FloatValue (int_to_float filter_tuple_vector.length)]] }) ∧
      (filter_tuple_vector.length ≤ 2 ^ 24 →
        int_to_float filter_tuple_vector.length =
          (filter_tuple_vector.length : Int) * float_unit)) ∧
    (aggregate_name ≠ "count" →
      self.aggregate tuple_schema filter_tuple_vector result_set =
        some (RC.SQL_SYNTAX, result_set)) := by
  have h := aggregate_single_star self tuple_schema filter_tuple_vector result_set
    aggregate_name attr haggregates hattributes hattr
  refine ⟨fun hc => ⟨?_, fun hlen => ?_⟩, fun hc => ?_⟩
  · rw [h, if_pos hc]
  · exact int_to_float_exact _ (by simpa using hlen)
  · rw [h, if_neg hc]

/-- C16, amended, on `SELECT count(*) FROM t` over the three rows of `t`. -/
theorem C16_count_star_witness :
    SelectExecutor.aggregate scenario.count_star scenario.schema_t scenario.rows_t
        { schema := [], tuples := [] } =
      some (RC.SUCCESS,
        { schema := [{ type := AttrType.FLOATS, table_name := "", field_name := "*",
                       aggregate_name := some "count" }]
          tuples := [] ++ [[TupleValue.FloatValue (int_to_float scenario.rows_t.length)]] }) ∧
    (scenario.rows_t.length ≤ 2 ^ 24 →
      int_to_float scenario.rows_t.length = (scenario.rows_t.length : Int) * float_unit) :=
  (C16_count_star scenario.count_star scenario.schema_t scenario.rows_t
    { schema := [], tuples := [] } "count" { relation_name := none, attribute_name := some "*" }
    (by decide) (by decide) (by decide)).1 (by decide)

/-- C16 as stated fails: over a vector of 16777217 (2^24 + 1) tuples,
`SELECT count(*)` emits 16777216, the nearest `float`. -/
theorem C16_count_star_rounded :
    (List.replicate 16777217 ([] : Tuple)).length = 16777217 ∧
    SelectExecutor.aggregate scenario.count_star scenario.schema_t
        (List.replicate 16777217 ([] : Tuple)) { schema := [], tuples := [] } =
      some (RC.SUCCESS,
        { schema := [{ type := AttrType.FLOATS, table_name := "", field_name := "*",
                       aggregate_name := some "count" }]
          tuples := [[TupleValue.FloatValue (16777216 * float_unit)]] }) ∧
    (16777216 * float_unit : Int) ≠ 16777217 * float_unit := by
  have h := aggregate_single_star scenario.count_star scenario.schema_t
    (List.replicate 16777217 ([] : Tuple)) { schema := [], tuples := [] } "count"
    { relation_name := none, attribute_name := some "*" } (by decide) (by decide) (by decide)
  have hround : int_to_float ((16777217 : Nat) : Int) = 16777216 * float_unit := by decide
  refine ⟨List.length_replicate _ _, ?_, by decide⟩
  rw [h, if_pos rfl, List.length_replicate, hround]
  rfl

/-- C17: the loop of `aggregate` runs over the indices
upwards, so for `SELECT avg(a), count(*) FROM t`, which the parser hands over
as the pairs (count, *), (avg, a), the row is (3, 2.0): the count comes first
and the average second. -/
theorem C17_aggregate_columns_reversed :
    SelectExecutor.aggregate scenario.avg_a_count_star scenario.schema_t scenario.rows_t
      { schema := [], tuples := [] } =
      some (RC.SUCCESS,
        { schema :=
            [{ type := AttrType.FLOATS, table_name := "", field_name := "*",
               aggregate_name := some "count" },
             { type := AttrType.FLOATS, table_name := "t", field_name := "a",
               aggregate_name := some "avg" }]
          tuples := [[TupleValue.FloatValue (int_to_float 3),
                      TupleValue.FloatValue (int_to_float 2)]] }) ∧
    int_to_float 3 ≠ int_to_float 2 := by
  decide

/-! ## Properties of the bind of a condition -/

/-- The code `init_desc` returns when both types are among CHARS .. DATES and
the operator is one of the eight below NO_OP. -/
theorem init_desc_success (self : DefaultConditionFilter) (left right : ConDesc)
    (left_type right_type : AttrType) (comp_op : CompOp)
    (hl : left_type ≠ AttrType.UNDEFINED) (hr : right_type ≠ AttrType.UNDEFINED)
    (hop : comp_op.code < CompOp.NO_OP.code) :
    self.init_desc left right left_type right_type comp_op =
      (RC.SUCCESS,
        { left_ := left, right_ := right, left_type_ := left_type, right_type_ := right_type,
          comp_op_ := comp_op }) := by
  unfold DefaultConditionFilter.init_desc
  cases left_type <;> cases right_type <;> cases comp_op <;>
    first
    | exact absurd rfl hl
    | exact absurd rfl hr
    | exact absurd hop (by decide)
    | rfl

/-- The result of `init` once both sides have a type: the type rule decides
between `init_desc` on the two descriptors and SCHEMA_FIELD_TYPE_MISMATCH. -/
theorem init_of_side_types (self : DefaultConditionFilter) (table : Table)
    (condition : Condition) (left_type right_type : AttrType)
    (hleft : side_type table condition.left_is_attr condition.left_attr condition.left_value =
      some left_type)
    (hright : side_type table condition.right_is_attr condition.right_attr
      condition.right_value = some right_type) :
    self.init table condition =
      if type_rule left_type right_type then
        self.init_desc
          (side_desc table condition.left_is_attr condition.left_attr condition.left_value)
          (side_desc table condition.right_is_attr condition.right_attr condition.right_value)
          left_type right_type condition.comp
      else (RC.SCHEMA_FIELD_TYPE_MISMATCH, self) := by
  unfold side_type at hleft hright
  unfold DefaultConditionFilter.init type_rule side_desc
  by_cases h1 : 1 = condition.left_is_attr
  · rw [if_pos h1] at hleft
    by_cases h2 : 1 = condition.right_is_attr
    · rw [if_pos h2] at hright
      cases hf : table.field condition.left_attr.attribute_name with
      | none => simp [hf] at hleft
      | some fl =>
        cases hg : table.field condition.right_attr.attribute_name with
        | none => simp [hg] at hright
        | some fr =>
          simp only [hf, hg, Option.map_some', Option.some.injEq] at hleft hright
          subst hleft hright
          simp only [if_pos h1, if_pos h2]
    · rw [if_neg h2] at hright
      cases hf : table.field condition.left_attr.attribute_name with
      | none => simp [hf] at hleft
      | some fl =>
        simp only [hf, Option.map_some', Option.some.injEq] at hleft hright
        subst hleft hright
        simp only [if_pos h1, if_neg h2]
  · rw [if_neg h1] at hleft
    by_cases h2 : 1 = condition.right_is_attr
    · rw [if_pos h2] at hright
      cases hg : table.field condition.right_attr.attribute_name with
      | none => simp [hg] at hright
      | some fr =>
        simp only [hg, Option.map_some', Option.some.injEq] at hleft hright
        subst hleft hright
        simp only [if_neg h1, if_pos h2]
    · rw [if_neg h2] at hright
      simp only [Option.some.injEq] at hleft hright
      subst hleft hright
      simp only [if_neg h1, if_neg h2]

/-- C18, amended: when both sides of the condition have a type (every attribute
side names a column of the table), neither type is UNDEFINED and the operator
is in the valid range, `init(table, condition)` returns SUCCESS if and only if
the types are equal, or one is NULLS, or both are numeric; in every other case
it returns SCHEMA_FIELD_TYPE_MISMATCH. -/
theorem C18_bind_type_rule (self : DefaultConditionFilter) (table : Table)
    (condition : Condition) (left_type right_type : AttrType)
    (hleft : side_type table condition.left_is_attr condition.left_attr condition.left_value =
      some left_type)
    (hright : side_type table condition.right_is_attr condition.right_attr
      condition.right_value = some right_type)
    (hl : left_type ≠ AttrType.UNDEFINED) (hr : right_type ≠ AttrType.UNDEFINED)
    (hop : condition.comp.code < CompOp.NO_OP.code) :
    ((self.init table condition).1 = RC.SUCCESS ↔ type_rule left_type right_type) ∧
    (¬ type_rule left_type right_type →
      (self.init table condition).1 = RC.SCHEMA_FIELD_TYPE_MISMATCH) := by
  rw [init_of_side_types self table condition left_type right_type hleft hright]
  by_cases hrule : type_rule left_type right_type
  · rw [if_pos hrule, init_desc_success self _ _ left_type right_type condition.comp hl hr hop]
    exact ⟨⟨fun _ => hrule, fun _ => rfl⟩, fun h => absurd hrule h⟩
  · rw [if_neg hrule]
    exact ⟨⟨fun h => (by cases h), fun h => absurd h hrule⟩, fun _ => rfl⟩

/-- C18, amended, on `t` and the condition `a = 1`, INTS against INTS. -/
theorem C18_bind_type_rule_witness :
    ((DefaultConditionFilter.new.init scenario.table_t scenario.a_eq_one).1 = RC.SUCCESS ↔
      type_rule AttrType.INTS AttrType.INTS) ∧
    (¬ type_rule AttrType.INTS AttrType.INTS →
      (DefaultConditionFilter.new.init scenario.table_t scenario.a_eq_one).1 =
        RC.SCHEMA_FIELD_TYPE_MISMATCH) :=
  C18_bind_type_rule DefaultConditionFilter.new scenario.table_t scenario.a_eq_one
    AttrType.INTS AttrType.INTS (by decide) (by decide) (by decide) (by decide) (by decide)

/-- C18 as stated fails: a condition between two values whose type is
UNDEFINED has equal types on both sides and a valid operator, and `init`
returns INVALID_ARGUMENT, neither SUCCESS nor SCHEMA_FIELD_TYPE_MISMATCH. -/
theorem C18_undefined_types_invalid_argument :
    side_type scenario.table_t scenario.undefined_eq_undefined.left_is_attr
      scenario.undefined_eq_undefined.left_attr scenario.undefined_eq_undefined.left_value =
      some AttrType.UNDEFINED ∧
    side_type scenario.table_t scenario.undefined_eq_undefined.right_is_attr
      scenario.undefined_eq_undefined.right_attr scenario.undefined_eq_undefined.right_value =
      some AttrType.UNDEFINED ∧
    scenario.undefined_eq_undefined.comp.code < CompOp.NO_OP.code ∧
    type_rule AttrType.UNDEFINED AttrType.UNDEFINED ∧
    DefaultConditionFilter.new.init scenario.table_t scenario.undefined_eq_undefined =
      (RC.INVALID_ARGUMENT, DefaultConditionFilter.new) := by
  decide

/-- C19, amended: when one side of the condition has type CHARS and the other
has type DATES, `init(table, condition)` returns SCHEMA_FIELD_TYPE_MISMATCH
and leaves the filter as it was. -/
theorem C19_chars_dates_mismatch (self : DefaultConditionFilter) (table : Table)
    (condition : Condition) (left_type right_type : AttrType)
    (hleft : side_type table condition.left_is_attr condition.left_attr condition.left_value =
      some left_type)
    (hright : side_type table condition.right_is_attr condition.right_attr
      condition.right_value = some right_type)
    (htypes : (left_type = AttrType.CHARS ∧ right_type = AttrType.DATES) ∨
      (left_type = AttrType.DATES ∧ right_type = AttrType.CHARS)) :
    self.init table condition = (RC.SCHEMA_FIELD_TYPE_MISMATCH, self) := by
  rw [init_of_side_types self table condition left_type right_type hleft hright]
  have hrule : ¬ type_rule left_type right_type := by
    rcases htypes with ⟨h1, h2⟩ | ⟨h1, h2⟩ <;> subst h1 h2 <;> decide
  rw [if_neg hrule]

/-- C19, amended, on the DATES column `day` compared with a CHARS literal. -/
theorem C19_chars_dates_mismatch_witness :
    DefaultConditionFilter.new.init scenario.table_d scenario.day_eq_chars =
      (RC.SCHEMA_FIELD_TYPE_MISMATCH, DefaultConditionFilter.new) :=
  C19_chars_dates_mismatch DefaultConditionFilter.new scenario.table_d scenario.day_eq_chars
    AttrType.DATES AttrType.CHARS (by decide) (by decide) (by decide)

/-- C19 as stated fails: the DATES column `day` compared by `=` with a CHARS
literal does not bind, `init` returns SCHEMA_FIELD_TYPE_MISMATCH. -/
theorem C19_date_against_chars_rejected :
    scenario.day_eq_chars.comp.code < CompOp.NO_OP.code ∧
    side_type scenario.table_d scenario.day_eq_chars.left_is_attr
      scenario.day_eq_chars.left_attr scenario.day_eq_chars.left_value = some AttrType.DATES ∧
    side_type scenario.table_d scenario.day_eq_chars.right_is_attr
      scenario.day_eq_chars.right_attr scenario.day_eq_chars.right_value = some AttrType.CHARS ∧
    (DefaultConditionFilter.new.init scenario.table_d scenario.day_eq_chars).1 =
      RC.SCHEMA_FIELD_TYPE_MISMATCH := by
  decide

/-- C20: when an attribute side of the condition names a column that the
table does not have, `init(table, condition)` returns SCHEMA_FIELD_MISSING,
whatever the other side and the operator are, and the filter is left as it
was. -/
theorem C20_missing_column (self : DefaultConditionFilter) (table : Table)
    (condition : Condition)
    (h : (1 = condition.left_is_attr ∧
        table.field condition.left_attr.attribute_name = none) ∨
      (1 = condition.right_is_attr ∧
        table.field condition.right_attr.attribute_name = none)) :
    self.init table condition = (RC.SCHEMA_FIELD_MISSING, self) := by
  unfold DefaultConditionFilter.init
  rcases h with ⟨h1, hf⟩ | ⟨h2, hg⟩
  · simp only [if_pos h1, hf]
  · simp only [if_pos h2, hg]
    by_cases h1 : 1 = condition.left_is_attr
    · simp only [if_pos h1]
      cases hf : table.field condition.left_attr.attribute_name with
      | none => rfl
      | some fl => rfl
    · simp only [if_neg h1]

/-- C20 on `t` and the condition `1 < z`: there is no column `z`. -/
theorem C20_missing_column_witness :
    DefaultConditionFilter.new.init scenario.table_t scenario.one_lt_z =
      (RC.SCHEMA_FIELD_MISSING, DefaultConditionFilter.new) :=
  C20_missing_column DefaultConditionFilter.new scenario.table_t scenario.one_lt_z
    (Or.inr ⟨by decide, by decide⟩)

/-! ## Properties of the select driver -/

/-- The loop of `get_unique_table_name` from a counter of 0 or 1: with no
relation counted yet the result is the only relation that has the field, if
there is exactly one; with one relation counted, any further one gives null. -/
theorem unique_table_name_loop_spec (tuple_schema : TupleSchema) (field_name : String)
    (relations : List String) (table_name : Option String) :
    unique_table_name_loop tuple_schema field_name relations 0 table_name =
      (match relations.filter
          (fun relation => decide (tuple_schema.index_of_field relation field_name ≠ -1)) with
        | [] => table_name
        | [relation] => some relation
        | _ => none) ∧
    unique_table_name_loop tuple_schema field_name relations 1 table_name =
      (match relations.filter
          (fun relation => decide (tuple_schema.index_of_field relation field_name ≠ -1)) with
        | [] => table_name
        | _ => none) := by
  induction relations generalizing table_name with
  | nil => exact ⟨rfl, rfl⟩
  | cons relation rest ih =>
    rw [unique_table_name_loop, unique_table_name_loop, List.filter_cons]
    by_cases h : tuple_schema.index_of_field relation field_name = -1
    · have h' : ¬ (-1 ≠ tuple_schema.index_of_field relation field_name) := fun hc => hc h.symm
      simp only [h', if_false, h, ne_eq, not_true_eq_false, decide_False, Bool.false_eq_true]
      exact ih table_name
    · have h' : -1 ≠ tuple_schema.index_of_field relation field_name := fun hc => h hc.symm
      simp only [h', if_true, h, ne_eq, not_false_eq_true, decide_True, zero_add,
        show ¬ ((1 : Nat) = 2) by decide, if_false, show (1 : Nat) + 1 = 2 by rfl]
      refine ⟨?_, trivial⟩
      rw [(ih (some relation)).2]
      cases rest.filter
        (fun relation => decide (¬ tuple_schema.index_of_field relation field_name = -1)) <;> rfl

/-- C21: `get_unique_table_name` returns the relation that has the field in
the schema when exactly one relation of the query has it, and null when none
or when two or more have it. -/
theorem C21_unique_table_rule (self : SelectExecutor) (tuple_schema : TupleSchema)
    (field_name : String) :
    self.get_unique_table_name tuple_schema field_name =
      match relations_with_field self tuple_schema field_name with
      | [relation] => some relation
      | _ => none := by
  unfold SelectExecutor.get_unique_table_name relations_with_field
  rw [(unique_table_name_loop_spec tuple_schema field_name self.selects_.relations none).1]
  cases self.selects_.relations.filter
    (fun relation => decide (tuple_schema.index_of_field relation field_name ≠ -1)) with
  | nil => rfl
  | cons a l => cases l <;> rfl

/-- C22: for a query without relations `select_all_table_tuple_sets` returns
SQL_SYNTAX, and `execute` returns SQL_SYNTAX and leaves the result set as it
was. -/
theorem C22_no_relations_rejected (self : SelectExecutor) (tuple_sets : List TupleSet)
    (result_set : TupleSet) (h : self.selects_.relations = []) :
    self.select_all_table_tuple_sets tuple_sets = some (RC.SQL_SYNTAX, tuple_sets) ∧
    self.execute result_set = some (RC.SQL_SYNTAX, result_set) := by
  have h1 : ∀ tuple_sets, self.select_all_table_tuple_sets tuple_sets =
      some (RC.SQL_SYNTAX, tuple_sets) := by
    intro tuple_sets
    unfold SelectExecutor.select_all_table_tuple_sets
    rw [h]
    rfl
  refine ⟨h1 tuple_sets, ?_⟩
  unfold SelectExecutor.execute SelectExecutor.select_filter_tuples
  rw [h1 []]
  rfl

/-- C22 on a query without relations. -/
theorem C22_no_relations_rejected_witness :
    scenario.select_from_nothing.select_all_table_tuple_sets [] = some (RC.SQL_SYNTAX, []) ∧
    scenario.select_from_nothing.execute { schema := [], tuples := [] } =
      some (RC.SQL_SYNTAX, { schema := [], tuples := [] }) :=
  C22_no_relations_rejected scenario.select_from_nothing [] { schema := [], tuples := [] } rfl

/-- A run of `execute(SessionEvent*)` whose inner `execute` returns the
code `rc` returns `rc`; in multi-operation mode it calls neither commit nor
rollback; otherwise it calls commit once and rollback not at all when `rc` is
SUCCESS, and rollback once and commit not at all when `rc` is an error; the
response is set on success only. -/
theorem transaction_end_of_defined_run (self : SelectExecutor) (session_ : Session) (trx_ : Trx)
    (session_event : SessionEvent) (rc : RC) (result_set : TupleSet)
    (hrun : self.execute { schema := [], tuples := [] } = some (rc, result_set)) :
    ∃ trx_after event_after,
      self.execute_session_event session_ trx_ session_event =
        some (rc, trx_after, event_after) ∧
      (session_.is_trx_multi_operation_mode = true → trx_after = trx_) ∧
      (session_.is_trx_multi_operation_mode = false →
        (rc = RC.SUCCESS →
          trx_after.commit_calls = trx_.commit_calls + 1 ∧
          trx_after.rollback_calls = trx_.rollback_calls) ∧
        (rc ≠ RC.SUCCESS →
          trx_after.commit_calls = trx_.commit_calls ∧
          trx_after.rollback_calls = trx_.rollback_calls + 1)) ∧
      (rc ≠ RC.SUCCESS → event_after = session_event) ∧
      (rc = RC.SUCCESS →
        event_after.response =
          some (result_set, decide (self.selects_.relations.length > 1))) := by
  unfold SelectExecutor.execute_session_event
  rw [hrun]
  by_cases hrc : rc = RC.SUCCESS
  · subst hrc
    refine ⟨SelectExecutor.end_trx_if_need session_ trx_ true, _, rfl, ?_, ?_, ?_, ?_⟩
    · intro hm
      simp [SelectExecutor.end_trx_if_need, hm]
    · intro hm
      refine ⟨fun _ => ?_, fun hc => absurd rfl hc⟩
      simp [SelectExecutor.end_trx_if_need, hm, Trx.commit]
    · intro hc
      exact absurd rfl hc
    · intro _
      rfl
  · refine ⟨SelectExecutor.end_trx_if_need session_ trx_ false, session_event, ?_, ?_, ?_, ?_, ?_⟩
    · simp [hrc]
    · intro hm
      simp [SelectExecutor.end_trx_if_need, hm]
    · intro hm
      refine ⟨fun hc => absurd hc hrc, fun _ => ?_⟩
      simp [SelectExecutor.end_trx_if_need, hm, Trx.rollback]
    · intro _
      rfl
    · intro hc
      exact absurd hc hrc

/-- The transaction end of `SELECT * FROM t` in auto-commit mode: the run
succeeds with the three rows of `t`. -/
theorem transaction_end_on_select_star :
    ∃ trx_after event_after,
      (scenario.select_star_from_t []).execute_session_event scenario.auto_commit
          scenario.fresh_trx scenario.no_response =
        some (RC.SUCCESS, trx_after, event_after) ∧
      (scenario.auto_commit.is_trx_multi_operation_mode = true →
        trx_after = scenario.fresh_trx) ∧
      (scenario.auto_commit.is_trx_multi_operation_mode = false →
        (RC.SUCCESS = RC.SUCCESS →
          trx_after.commit_calls = scenario.fresh_trx.commit_calls + 1 ∧
          trx_after.rollback_calls = scenario.fresh_trx.rollback_calls) ∧
        (RC.SUCCESS ≠ RC.SUCCESS →
          trx_after.commit_calls = scenario.fresh_trx.commit_calls ∧
          trx_after.rollback_calls = scenario.fresh_trx.rollback_calls + 1)) ∧
      (RC.SUCCESS ≠ RC.SUCCESS → event_after = scenario.no_response) ∧
      (RC.SUCCESS = RC.SUCCESS →
        event_after.response =
          some (scenario.tuple_set_t,
            decide ((scenario.select_star_from_t []).selects_.relations.length > 1))) :=
  transaction_end_of_defined_run (scenario.select_star_from_t []) scenario.auto_commit
    scenario.fresh_trx
    scenario.no_response RC.SUCCESS scenario.tuple_set_t (by decide)

/-- C23: in auto-commit mode, a run of `execute(SessionEvent*)` whose inner
`execute` runs into undefined behaviour ends without commit and without
rollback: `SELECT * FROM t WHERE a = a` builds a `std::string` from a null
relation name, `SELECT x.a FROM t` uses the null handle of the missing table
`x`; the run of `SELECT * FROM t` returns SUCCESS after one commit. -/
theorem C23_undefined_run_ends_no_transaction :
    (scenario.select_star_from_t [scenario.a_eq_a]).execute { schema := [], tuples := [] } =
      none ∧
    (scenario.select_star_from_t [scenario.a_eq_a]).execute_session_event
      scenario.auto_commit scenario.fresh_trx scenario.no_response = none ∧
    scenario.select_x_a_from_t.execute { schema := [], tuples := [] } = none ∧
    scenario.select_x_a_from_t.execute_session_event scenario.auto_commit scenario.fresh_trx
      scenario.no_response = none ∧
    (scenario.select_star_from_t []).execute_session_event scenario.auto_commit
        scenario.fresh_trx scenario.no_response =
      some (RC.SUCCESS, { commit_calls := 1, rollback_calls := 0 },
        { response := some (scenario.tuple_set_t, false) }) := by
  decide

/-! ## Properties of the comparison of integers -/

/-- C24: `value_compare` converts both INTS operands to `float` before it
compares them, so 16777216 and 16777217 compare equal: `=` is true on them,
`<>`, `<` and `>` are false; the comparison of tuple values, as the spec
describes it, tells the two integers apart. -/
theorem C24_large_ints_compare_equal :
    value_compare (scenario.int_value 16777216) (scenario.int_value 16777217)
      CompOp.EQUAL_TO = true ∧
    value_compare (scenario.int_value 16777216) (scenario.int_value 16777217)
      CompOp.LESS_THAN = false ∧
    value_compare (scenario.int_value 16777216) (scenario.int_value 16777217)
      CompOp.NOT_EQUAL = false ∧
    value_compare (scenario.int_value 16777217) (scenario.int_value 16777216)
      CompOp.GREAT_THAN = false ∧
    int_to_float 16777216 = int_to_float 16777217 ∧
    (TupleValue.IntValue 16777216).compare (TupleValue.IntValue 16777217) = -1 := by
  decide

/-! ## Properties of the tuple filter and of the scan classification -/

/-- `TupleFilter::filter` accepts a pair exactly when every binding holds on
it. -/
theorem tuple_filter_iff (bindings : List TupleCons) (left_tuple right_tuple : Tuple) :
    TupleFilter.filter bindings left_tuple right_tuple = true ↔
      ∀ tuple_cons ∈ bindings, binding_holds tuple_cons left_tuple right_tuple := by
  induction bindings with
  | nil => simp [TupleFilter.filter]
  | cons tuple_cons rest ih =>
    rw [TupleFilter.filter]
    simp only [List.mem_cons, forall_eq_or_imp]
    by_cases hb : binding_holds tuple_cons left_tuple right_tuple
    · obtain ⟨h1, h2, h3, h4⟩ := hb
      have hcond : ¬ ((Tuple.get left_tuple tuple_cons.left_value_pos).get_type ≠
          (Tuple.get right_tuple tuple_cons.right_value_pos).get_type ∨
          AttrType.NULLS = (Tuple.get left_tuple tuple_cons.left_value_pos).get_type ∨
          AttrType.NULLS = (Tuple.get right_tuple tuple_cons.right_value_pos).get_type) := by
        rintro (h | h | h)
        · exact h h3
        · exact h1 h.symm
        · exact h2 h.symm
      simp only [hcond, if_false, h4, not_true_eq_false]
      rw [ih]
      exact ⟨fun h => ⟨⟨h1, h2, h3, h4⟩, h⟩, fun h => h.2⟩
    · constructor
      · intro h
        exfalso
        apply hb
        by_cases hcond : ((Tuple.get left_tuple tuple_cons.left_value_pos).get_type ≠
            (Tuple.get right_tuple tuple_cons.right_value_pos).get_type ∨
            AttrType.NULLS = (Tuple.get left_tuple tuple_cons.left_value_pos).get_type ∨
            AttrType.NULLS = (Tuple.get right_tuple tuple_cons.right_value_pos).get_type)
        · simp only [hcond, if_true] at h
          exact absurd h (by decide)
        · simp only [hcond, if_false] at h
          by_cases hj : select_executor.judge_cmp_result tuple_cons.condition.comp
              ((Tuple.get left_tuple tuple_cons.left_value_pos).compare
                (Tuple.get right_tuple tuple_cons.right_value_pos)) = true
          · push_neg at hcond
            exact ⟨fun e => hcond.2.1 e.symm, fun e => hcond.2.2 e.symm, hcond.1, hj⟩
          · simp [hj] at h
      · intro h
        exact absurd h.1 hb

/-- C29: `TupleFilter::filter` returns true if and only if, for every binding,
the two addressed values are both not NULLS, have the same type, and the
operator judges their comparison true; with no binding it returns true, and a
NULLS value on either side of a binding makes it return false. -/
theorem C29_tuple_filter_evaluate (bindings : List TupleCons) (left_tuple right_tuple : Tuple) :
    (TupleFilter.filter bindings left_tuple right_tuple = true ↔
      ∀ tuple_cons ∈ bindings, binding_holds tuple_cons left_tuple right_tuple) ∧
    TupleFilter.filter [] left_tuple right_tuple = true ∧
    ∀ tuple_cons ∈ bindings,
      ((Tuple.get left_tuple tuple_cons.left_value_pos).get_type = AttrType.NULLS ∨
        (Tuple.get right_tuple tuple_cons.right_value_pos).get_type = AttrType.NULLS) →
      TupleFilter.filter bindings left_tuple right_tuple = false := by
  refine ⟨tuple_filter_iff bindings left_tuple right_tuple, rfl, ?_⟩
  intro tuple_cons hmem hnull
  cases hf : TupleFilter.filter bindings left_tuple right_tuple with
  | false => rfl
  | true =>
    have hb := (tuple_filter_iff bindings left_tuple right_tuple).mp hf tuple_cons hmem
    rcases hnull with h | h
    · exact absurd h hb.1
    · exact absurd h hb.2.1

/-- `match_table` is the table-name match rule of §4.6.1. -/
theorem match_table_iff (self : SelectExecutor) (relation_name : Option String)
    (table_name : String) :
    self.match_table relation_name table_name = true ↔
      relation_matches self relation_name table_name := by
  unfold SelectExecutor.match_table relation_matches
  cases relation_name with
  | none => simp
  | some name =>
    simp only [decide_eq_true_eq]
    constructor
    · intro h
      exact (strcmp_eq_zero _ _).mp h.symm
    · intro h
      exact ((strcmp_eq_zero _ _).mpr h).symm

/-- The test of `create_select_exe_node` on a condition is the classification
of §4.6.1. -/
theorem condition_is_for_table_iff (self : SelectExecutor) (condition : Condition)
    (table_name : String) :
    self.condition_is_for_table condition table_name = true ↔
      scan_includes self condition table_name := by
  unfold SelectExecutor.condition_is_for_table scan_includes
  simp only [Bool.or_eq_true, Bool.and_eq_true, decide_eq_true_eq, match_table_iff]
  tauto

/-- The loop of `create_select_exe_node` when it succeeds: the filters added
are the bound filters of the conditions that the test selects, in order. -/
theorem create_condition_filters_success (self : SelectExecutor) (table : Table)
    (table_name : String) (conditions : List Condition)
    (acc filters : List DefaultConditionFilter)
    (h : create_condition_filters self table table_name conditions acc =
      (RC.SUCCESS, filters)) :
    filters = acc ++
      (conditions.filter (fun c => self.condition_is_for_table c table_name)).map
        (fun c => (DefaultConditionFilter.new.init table c).2) ∧
    ∀ c ∈ conditions, self.condition_is_for_table c table_name = true →
      (DefaultConditionFilter.new.init table c).1 = RC.SUCCESS := by
  induction conditions generalizing acc with
  | nil =>
    simp only [create_condition_filters, Prod.mk.injEq, true_and] at h
    simp [h]
  | cons c rest ih =>
    rw [create_condition_filters] at h
    by_cases hc : self.condition_is_for_table c table_name = true
    · simp only [hc, if_true] at h
      by_cases hr : (DefaultConditionFilter.new.init table c).1 = RC.SUCCESS
      · simp only [hr, ne_eq, not_true_eq_false, if_false] at h
        obtain ⟨h1, h2⟩ := ih _ h
        refine ⟨?_, ?_⟩
        · rw [h1, List.filter_cons, if_pos hc, List.map_cons, List.append_assoc]
          rfl
        · intro c' hc' hin
          rcases List.mem_cons.mp hc' with rfl | hmem
          · exact hr
          · exact h2 c' hmem hin
      · simp only [ne_eq, hr, not_false_eq_true, if_true, Prod.mk.injEq] at h
        exact h.1.elim
    · simp only [hc, Bool.false_eq_true, if_false] at h
      obtain ⟨h1, h2⟩ := ih _ h
      refine ⟨?_, ?_⟩
      · rw [h1, List.filter_cons, if_neg hc]
      · intro c' hc' hin
        rcases List.mem_cons.mp hc' with rfl | hmem
        · exact absurd hin hc
        · exact h2 c' hmem hin

/-- The loop of `create_select_exe_node` succeeds when every condition that
the test selects binds. -/
theorem create_condition_filters_of_bound (self : SelectExecutor) (table : Table)
    (table_name : String) (conditions : List Condition) (acc : List DefaultConditionFilter)
    (h : ∀ c ∈ conditions, self.condition_is_for_table c table_name = true →
      (DefaultConditionFilter.new.init table c).1 = RC.SUCCESS) :
    create_condition_filters self table table_name conditions acc =
      (RC.SUCCESS, acc ++
        (conditions.filter (fun c => self.condition_is_for_table c table_name)).map
          (fun c => (DefaultConditionFilter.new.init table c).2)) := by
  induction conditions generalizing acc with
  | nil => simp [create_condition_filters]
  | cons c rest ih =>
    have ih' := fun acc => ih acc (fun c' hc' => h c' (List.mem_cons_of_mem _ hc'))
    rw [create_condition_filters]
    by_cases hc : self.condition_is_for_table c table_name = true
    · have hr := h c (List.mem_cons_self _ _) hc
      simp only [hc, if_true, hr, ne_eq, not_true_eq_false, if_false]
      rw [ih', List.filter_cons, if_pos hc, List.map_cons, List.append_assoc]
      rfl
    · simp only [hc, Bool.false_eq_true, if_false]
      rw [ih', List.filter_cons, if_neg hc]

/-- C30: the test of `create_select_exe_node` selects a condition for the scan
of `table_name` if and only if both sides are values, or exactly one side is an
attribute whose relation matches the table, or both sides are attributes whose
relations both match; when the node is created, its filters are the bound
filters of exactly the selected conditions, in order, and the node is created
whenever the table exists and every selected condition binds. -/
theorem C30_scan_classification (self : SelectExecutor) (table_name : String) (table : Table)
    (htable : self.find_table table_name = some table) :
    (∀ condition, self.condition_is_for_table condition table_name = true ↔
      scan_includes self condition table_name) ∧
    (∀ node, self.create_select_exe_node table_name = (RC.SUCCESS, some node) →
      node.condition_filters_ =
        (self.selects_.conditions.filter
          (fun c => decide (scan_includes self c table_name))).map
          (fun c => (DefaultConditionFilter.new.init table c).2)) ∧
    ((∀ c ∈ self.selects_.conditions, scan_includes self c table_name →
        (DefaultConditionFilter.new.init table c).1 = RC.SUCCESS) →
      ∃ node, self.create_select_exe_node table_name = (RC.SUCCESS, some node) ∧
        node.table_ = table) := by
  have hfilter : (fun c => self.condition_is_for_table c table_name) =
      (fun c => decide (scan_includes self c table_name)) := by
    funext c
    by_cases hc : scan_includes self c table_name
    · simp [hc, (condition_is_for_table_iff self c table_name).mpr hc]
    · have : ¬ self.condition_is_for_table c table_name = true := fun h =>
        hc ((condition_is_for_table_iff self c table_name).mp h)
      simp [hc, this]
  refine ⟨fun c => condition_is_for_table_iff self c table_name, ?_, ?_⟩
  · intro node hnode
    unfold SelectExecutor.create_select_exe_node at hnode
    simp only [htable] at hnode
    cases hr : create_condition_filters self table table_name self.selects_.conditions []
      with
    | mk rc filters =>
      simp only [hr] at hnode
      by_cases hrc : rc = RC.SUCCESS
      · subst hrc
        simp only [ne_eq, not_true_eq_false, if_false, Prod.mk.injEq, Option.some.injEq,
          true_and] at hnode
        obtain ⟨h1, _⟩ := create_condition_filters_success self table table_name _ [] filters hr
        rw [← hnode, ← hfilter]
        simpa using h1
      · simp only [ne_eq, hrc, not_false_eq_true, if_true, Prod.mk.injEq] at hnode
        exact hnode.1.elim
  · intro hbound
    have hb : ∀ c ∈ self.selects_.conditions, self.condition_is_for_table c table_name = true →
        (DefaultConditionFilter.new.init table c).1 = RC.SUCCESS := fun c hc hin =>
      hbound c hc ((condition_is_for_table_iff self c table_name).mp hin)
    unfold SelectExecutor.create_select_exe_node
    simp only [htable]
    rw [create_condition_filters_of_bound self table table_name _ [] hb]
    exact ⟨_, rfl, rfl⟩

/-- C30 on `SELECT * FROM t, u WHERE a = 1` and the scan of `t`: the attribute
has no relation name and the query has two relations, so the condition is not
selected, and the node of `t` has no filter. -/
theorem C30_scan_classification_witness :
    (scenario.bare_attr_two_tables.condition_is_for_table scenario.a_eq_one "t" = true ↔
      scan_includes scenario.bare_attr_two_tables scenario.a_eq_one "t") ∧
    ¬ scan_includes scenario.bare_attr_two_tables scenario.a_eq_one "t" ∧
    ∃ node, scenario.bare_attr_two_tables.create_select_exe_node "t" =
      (RC.SUCCESS, some node) ∧ node.table_ = scenario.table_t :=
  ⟨(C30_scan_classification scenario.bare_attr_two_tables "t" scenario.table_t rfl).1
      scenario.a_eq_one,
   by decide,
   (C30_scan_classification scenario.bare_attr_two_tables "t" scenario.table_t rfl).2.2
      (by decide)⟩

/-! ## Properties of the join assembly -/

/-- The innermost loop of the join keeps the right tuples that the filter
accepts, each appended to the left tuple. -/
theorem join_right_eq (bindings : List TupleCons) (left_tuple : Tuple) (tuples : List Tuple) :
    join_right bindings left_tuple tuples =
      (tuples.filter (fun rt => TupleFilter.filter bindings left_tuple rt)).map
        (fun rt => left_tuple ++ rt) := by
  induction tuples with
  | nil => rfl
  | cons rt rest ih =>
    rw [join_right, List.filter_cons]
    by_cases h : TupleFilter.filter bindings left_tuple rt = true
    · simp only [h, not_true_eq_false, if_false, if_true, List.map_cons, ih]
    · simp only [h, not_false_eq_true, if_true, if_false, ih, Bool.false_eq_true]

/-- One join step of the code is one step of the reference definition. -/
theorem join_step_eq (bindings : List TupleCons) (tuples running : List Tuple) :
    join_step bindings tuples running =
      join_reference.next (TupleFilter.filter bindings) running tuples := by
  unfold join_reference.next
  induction running with
  | nil => rfl
  | cons lt rest ih =>
    rw [join_step, ih, join_right_eq, List.map_cons, List.flatten_cons]

/-- The loop of the join returns SUCCESS with a vector exactly when the
reference iteration yields that vector. -/
theorem join_loop_iff (self : SelectExecutor) (tuple_sets : List TupleSet)
    (left_schema : TupleSchema) (running v : List Tuple) :
    join_loop self tuple_sets left_schema running = some (RC.SUCCESS, v) ↔
      join_reference.iterate self.selects_ tuple_sets left_schema running = some v := by
  induction tuple_sets generalizing left_schema running with
  | nil =>
    simp only [join_loop, join_reference.iterate, Option.some.injEq, Prod.mk.injEq, true_and]
  | cons tuple_set rest ih =>
    rw [join_loop, join_reference.iterate]
    cases hinit : TupleFilter.init left_schema tuple_set.schema self.selects_ with
    | none => simp
    | some r =>
      obtain ⟨rc, bindings⟩ := r
      by_cases hrc : rc = RC.SUCCESS
      · subst hrc
        simp only [ne_eq, not_true_eq_false, if_false]
        rw [join_step_eq, TupleSchema.append]
        exact ih _ _
      · simp only [ne_eq, hrc, not_false_eq_true, if_true, Option.some.injEq, Prod.mk.injEq]
        cases rc <;> simp at hrc ⊢

/-- The schema that `select_filter_tuples` builds is the schema given followed
by the schemas of the tuple sets. -/
theorem foldl_append_schema (tuple_sets : List TupleSet) (tuple_schema : TupleSchema) :
    tuple_sets.foldl (fun schema tuple_set => schema.append tuple_set.schema) tuple_schema =
      tuple_schema ++ joined_schema tuple_sets := by
  induction tuple_sets generalizing tuple_schema with
  | nil => simp [joined_schema]
  | cons ts rest ih =>
    rw [List.foldl_cons, ih]
    simp [joined_schema, TupleSchema.append]

/-- The result of `select_filter_tuples` once the scans have succeeded. -/
theorem select_filter_tuples_of_scans (self : SelectExecutor) (tuple_sets : List TupleSet)
    (tuple_schema : TupleSchema) (filter_tuple_vector : List Tuple)
    (hscan : self.select_all_table_tuple_sets [] = some (RC.SUCCESS, tuple_sets)) :
    self.select_filter_tuples tuple_schema filter_tuple_vector =
      match join_loop self tuple_sets [] [[]] with
      | none => none
      | some (rc, tuple_vector) =>
        if rc ≠ RC.SUCCESS then
          some (rc, tuple_schema ++ joined_schema tuple_sets, filter_tuple_vector)
        else some (rc, tuple_schema ++ joined_schema tuple_sets, tuple_vector) := by
  unfold SelectExecutor.select_filter_tuples
  rw [hscan]
  simp only [ne_eq, not_true_eq_false, if_false, foldl_append_schema]

/-- With an empty left schema the bind of the tuple filter adds no binding: it
returns SUCCESS unless it reads a null name. -/
theorem tuple_filter_init_loop_empty_left (right_schema : TupleSchema)
    (conditions : List Condition) (acc : List TupleCons) :
    tuple_filter_init_loop [] right_schema conditions acc = none ∨
      tuple_filter_init_loop [] right_schema conditions acc = some (RC.SUCCESS, acc) := by
  induction conditions with
  | nil => exact Or.inr rfl
  | cons c rest ih =>
    rw [tuple_filter_init_loop]
    split_ifs with h1
    · cases hrn : c.right_attr.relation_name with
      | none => exact Or.inl rfl
      | some rt =>
        cases hra : c.right_attr.attribute_name with
        | none => exact Or.inl rfl
        | some rf =>
          simp only []
          split_ifs with h2
          · exact ih
          · cases hln : c.left_attr.relation_name with
            | none => exact Or.inl rfl
            | some lt =>
              cases hla : c.left_attr.attribute_name with
              | none => exact Or.inl rfl
              | some lf =>
                simp only [find_tuple_field, if_true]
                exact ih
    · exact ih

/-- Without a condition between two attributes the bind of the tuple filter
returns SUCCESS and adds no binding. -/
theorem tuple_filter_init_loop_no_attr_pair (left_schema right_schema : TupleSchema)
    (conditions : List Condition) (acc : List TupleCons)
    (h : ∀ c ∈ conditions, ¬ (c.left_is_attr = 1 ∧ c.right_is_attr = 1)) :
    tuple_filter_init_loop left_schema right_schema conditions acc = some (RC.SUCCESS, acc) := by
  induction conditions with
  | nil => rfl
  | cons c rest ih =>
    rw [tuple_filter_init_loop, if_neg (h c (List.mem_cons_self _ _))]
    exact ih (fun c' hc' => h c' (List.mem_cons_of_mem _ hc'))

/-- A step of the reference definition with a filter without bindings is a
step of the cartesian product. -/
theorem next_no_bindings (running tuples : List Tuple) :
    join_reference.next (TupleFilter.filter []) running tuples =
      (running.map (fun lt => tuples.map (fun rt => lt ++ rt))).flatten := by
  unfold join_reference.next
  simp [TupleFilter.filter]

/-- Without a condition between two attributes the reference iteration is the
cartesian product, left-major. -/
theorem iterate_no_attr_pair (selects : Selects) (tuple_sets : List TupleSet)
    (left_schema : TupleSchema) (running : List Tuple)
    (h : ∀ c ∈ selects.conditions, ¬ (c.left_is_attr = 1 ∧ c.right_is_attr = 1)) :
    join_reference.iterate selects tuple_sets left_schema running =
      some (tuple_sets.foldl
        (fun running tuple_set =>
          (running.map (fun lt => tuple_set.tuples.map (fun rt => lt ++ rt))).flatten)
        running) := by
  induction tuple_sets generalizing left_schema running with
  | nil => rfl
  | cons ts rest ih =>
    rw [join_reference.iterate, TupleFilter.init,
      tuple_filter_init_loop_no_attr_pair _ _ _ [] h]
    simp only [List.foldl_cons]
    rw [next_no_bindings]
    exact ih _ _

/-- Once the scans have returned the tuple sets `TS_1 .. TS_n`,
`select_filter_tuples` returns SUCCESS with the vector `v` exactly when the
n-fold iteration of the reference step from `[empty tuple]` and the empty left
schema yields `v`, the filter of step i being the tuple filter bound on the
schemas of `TS_1 .. TS_{i-1}` and the schema of `TS_i`; with one relation the
vector is that scan's tuples, and with no condition between two attributes it
is the full cartesian product, left-major. -/
theorem join_equals_reference (self : SelectExecutor) (tuple_sets : List TupleSet)
    (tuple_schema : TupleSchema) (filter_tuple_vector : List Tuple)
    (hscan : self.select_all_table_tuple_sets [] = some (RC.SUCCESS, tuple_sets)) :
    (∀ v, self.select_filter_tuples tuple_schema filter_tuple_vector =
        some (RC.SUCCESS, tuple_schema ++ joined_schema tuple_sets, v) ↔
      join_reference.iterate self.selects_ tuple_sets [] [[]] = some v) ∧
    (∀ tuple_set, tuple_sets = [tuple_set] →
      TupleFilter.init [] tuple_set.schema self.selects_ ≠ none →
      self.select_filter_tuples tuple_schema filter_tuple_vector =
        some (RC.SUCCESS, tuple_schema ++ tuple_set.schema, tuple_set.tuples)) ∧
    ((∀ c ∈ self.selects_.conditions, ¬ (c.left_is_attr = 1 ∧ c.right_is_attr = 1)) →
      self.select_filter_tuples tuple_schema filter_tuple_vector =
        some (RC.SUCCESS, tuple_schema ++ joined_schema tuple_sets,
          pushdown_reference.product tuple_sets)) := by
  have hsel := select_filter_tuples_of_scans self tuple_sets tuple_schema filter_tuple_vector
    hscan
  have hmain : ∀ v, self.select_filter_tuples tuple_schema filter_tuple_vector =
        some (RC.SUCCESS, tuple_schema ++ joined_schema tuple_sets, v) ↔
      join_reference.iterate self.selects_ tuple_sets [] [[]] = some v := by
    intro v
    rw [← join_loop_iff, hsel]
    cases hj : join_loop self tuple_sets [] [[]] with
    | none => simp
    | some r =>
      obtain ⟨rc, tv⟩ := r
      by_cases hrc : rc = RC.SUCCESS
      · subst hrc
        simp
      · simp only [ne_eq, hrc, not_false_eq_true, if_true, Option.some.injEq, Prod.mk.injEq,
          false_and]
  refine ⟨hmain, ?_, ?_⟩
  · intro tuple_set hone hdef
    subst hone
    have hschema : joined_schema [tuple_set] = tuple_set.schema := by simp [joined_schema]
    rw [← hschema]
    apply (hmain tuple_set.tuples).mpr
    rw [join_reference.iterate]
    unfold TupleFilter.init at hdef ⊢
    rcases tuple_filter_init_loop_empty_left tuple_set.schema self.selects_.conditions []
      with h | h
    · exact absurd h hdef
    · rw [h]
      simp only [join_reference.iterate]
      rw [next_no_bindings]
      simp
  · intro hno
    apply (hmain _).mpr
    rw [iterate_no_attr_pair self.selects_ tuple_sets [] [[]] hno]
    rfl

/-- On `SELECT * FROM t, u WHERE t.a = u.c` the reference iteration over
the tuple sets of `t` and `u` yields the two matching rows, and so does
`select_filter_tuples`. -/
theorem join_equals_reference_on_t_u :
    scenario.join_earlier_first.select_filter_tuples [] [] =
      some (RC.SUCCESS, [] ++ joined_schema [scenario.tuple_set_t, scenario.tuple_set_u],
        [[TupleValue.IntValue 1, TupleValue.StringValue "x", TupleValue.IntValue 1],
         [TupleValue.IntValue 3, TupleValue.StringValue "x", TupleValue.IntValue 3]]) :=
  ((join_equals_reference scenario.join_earlier_first
      [scenario.tuple_set_t, scenario.tuple_set_u] [] [] (by decide)).1 _).mpr (by decide)

/-- C26: in `SELECT * FROM t WHERE a = a` the one scan returns the three rows
of `t`, which the claim gives as the output, but the bind of the tuple filter
of the first join step builds a `std::string` from the null relation name of
`a`, so `select_filter_tuples` has undefined behaviour and returns no vector;
with the condition written `t.a = t.a` it returns the rows of the scan. -/
theorem C26_single_relation_join_undefined :
    (scenario.select_star_from_t [scenario.a_eq_a]).select_all_table_tuple_sets [] =
      some (RC.SUCCESS, [scenario.tuple_set_t]) ∧
    scenario.tuple_set_t.tuples = scenario.rows_t ∧
    (scenario.select_star_from_t [scenario.a_eq_a]).select_filter_tuples [] [] = none ∧
    (scenario.select_star_from_t [scenario.t_a_eq_t_a]).select_filter_tuples [] [] =
      some (RC.SUCCESS, scenario.schema_t, scenario.rows_t) := by
  decide

/-- Every tuple of a join step is a left tuple followed by a right tuple. -/
theorem mem_join_step (bindings : List TupleCons) (tuples running : List Tuple) (t : Tuple)
    (h : t ∈ join_step bindings tuples running) :
    ∃ lt ∈ running, ∃ rt ∈ tuples, t = lt ++ rt := by
  induction running with
  | nil => simp [join_step] at h
  | cons lt rest ih =>
    rw [join_step, List.mem_append] at h
    rcases h with h | h
    · refine ⟨lt, List.mem_cons_self _ _, ?_⟩
      clear ih
      induction tuples with
      | nil => simp [join_right] at h
      | cons rt more ih2 =>
        rw [join_right] at h
        split_ifs at h with hf
        · rcases List.mem_cons.mp h with rfl | h'
          · exact ⟨rt, List.mem_cons_self _ _, rfl⟩
          · obtain ⟨rt', hrt', e⟩ := ih2 h'
            exact ⟨rt', List.mem_cons_of_mem _ hrt', e⟩
        · obtain ⟨rt', hrt', e⟩ := ih2 h
          exact ⟨rt', List.mem_cons_of_mem _ hrt', e⟩
    · obtain ⟨lt', hlt', r⟩ := ih h
      exact ⟨lt', List.mem_cons_of_mem _ hlt', r⟩

/-- A join step keeps the length invariant: running tuples as long as the left
schema and right tuples as long as the right schema give tuples as long as the
appended schema. -/
theorem join_step_length (bindings : List TupleCons) (left_schema : TupleSchema)
    (tuple_set : TupleSet) (running : List Tuple)
    (hrun : ∀ t ∈ running, t.length = left_schema.length)
    (haligned : schema_aligned tuple_set) :
    ∀ t ∈ join_step bindings tuple_set.tuples running,
      t.length = (left_schema.append tuple_set.schema).length := by
  intro t ht
  obtain ⟨lt, hlt, rt, hrt, e⟩ := mem_join_step bindings tuple_set.tuples running t ht
  rw [e, TupleSchema.append, List.length_append, List.length_append, hrun lt hlt,
    haligned rt hrt]

/-- The loop of the join keeps the length invariant up to its return. -/
theorem join_loop_length (self : SelectExecutor) (tuple_sets : List TupleSet)
    (left_schema : TupleSchema) (running v : List Tuple)
    (h : join_loop self tuple_sets left_schema running = some (RC.SUCCESS, v))
    (hrun : ∀ t ∈ running, t.length = left_schema.length)
    (haligned : ∀ tuple_set ∈ tuple_sets, schema_aligned tuple_set) :
    ∀ t ∈ v, t.length = (left_schema ++ joined_schema tuple_sets).length := by
  induction tuple_sets generalizing left_schema running with
  | nil =>
    simp only [join_loop, Option.some.injEq, Prod.mk.injEq, true_and] at h
    subst h
    simpa [joined_schema] using hrun
  | cons ts rest ih =>
    rw [join_loop] at h
    cases hinit : TupleFilter.init left_schema ts.schema self.selects_ with
    | none => simp [hinit] at h
    | some r =>
      obtain ⟨rc, bindings⟩ := r
      simp only [hinit] at h
      by_cases hrc : rc = RC.SUCCESS
      · subst hrc
        simp only [ne_eq, not_true_eq_false, if_false] at h
        have := ih _ _ h
          (join_step_length bindings left_schema ts running hrun
            (haligned ts (List.mem_cons_self _ _)))
          (fun ts' hts' => haligned ts' (List.mem_cons_of_mem _ hts'))
        intro t ht
        rw [this t ht]
        simp [joined_schema, TupleSchema.append]
      · simp only [ne_eq, hrc, not_false_eq_true, if_true, Option.some.injEq,
          Prod.mk.injEq] at h
        exact h.1.elim

/-- C27: when every tuple of every scanned tuple set is as long as its schema,
each join step turns running tuples as long as the left schema into tuples as
long as the left schema with the step's schema appended, and when
`select_filter_tuples` returns SUCCESS the joined schema is the concatenation
of the scan schemas in join order and every tuple of the output vector is as
long as it. -/
theorem C27_join_length_invariant (self : SelectExecutor) (tuple_sets : List TupleSet)
    (hscan : self.select_all_table_tuple_sets [] = some (RC.SUCCESS, tuple_sets))
    (haligned : ∀ tuple_set ∈ tuple_sets, schema_aligned tuple_set) :
    (∀ (bindings : List TupleCons) (left_schema : TupleSchema) (running : List Tuple),
      ∀ tuple_set ∈ tuple_sets,
      (∀ t ∈ running, t.length = left_schema.length) →
      ∀ t ∈ join_step bindings tuple_set.tuples running,
        t.length = (left_schema.append tuple_set.schema).length) ∧
    (∀ filter_tuple_vector schema v,
      self.select_filter_tuples [] filter_tuple_vector = some (RC.SUCCESS, schema, v) →
      schema = joined_schema tuple_sets ∧ ∀ t ∈ v, t.length = schema.length) := by
  refine ⟨?_, ?_⟩
  · intro bindings left_schema running tuple_set hts hrun
    exact join_step_length bindings left_schema tuple_set running hrun (haligned tuple_set hts)
  · intro filter_tuple_vector schema v hret
    rw [select_filter_tuples_of_scans self tuple_sets [] filter_tuple_vector hscan] at hret
    cases hj : join_loop self tuple_sets [] [[]] with
    | none => simp [hj] at hret
    | some r =>
      obtain ⟨rc, tv⟩ := r
      simp only [hj] at hret
      by_cases hrc : rc = RC.SUCCESS
      · subst hrc
        simp only [ne_eq, not_true_eq_false, if_false, List.nil_append, Option.some.injEq,
          Prod.mk.injEq, true_and] at hret
        obtain ⟨hs, hv⟩ := hret
        subst hs hv
        refine ⟨rfl, ?_⟩
        have := join_loop_length self tuple_sets [] [[]] tv hj
          (by intro t ht; simp at ht; subst ht; rfl) haligned
        simpa using this
      · simp only [ne_eq, hrc, not_false_eq_true, if_true, Option.some.injEq,
          Prod.mk.injEq] at hret
        exact hret.1.elim

/-- C27 on `SELECT * FROM t, u WHERE t.a = u.c`: the two rows of the result
have the three columns of the joined schema. -/
theorem C27_join_length_invariant_witness :
    scenario.join_earlier_first.select_filter_tuples [] [] =
      some (RC.SUCCESS, scenario.schema_t_u,
        [[TupleValue.IntValue 1, TupleValue.StringValue "x", TupleValue.IntValue 1],
         [TupleValue.IntValue 3, TupleValue.StringValue "x", TupleValue.IntValue 3]]) ∧
    scenario.schema_t_u = joined_schema [scenario.tuple_set_t, scenario.tuple_set_u] ∧
    ∀ t ∈ [[TupleValue.IntValue 1, TupleValue.StringValue "x", TupleValue.IntValue 1],
           [TupleValue.IntValue 3, TupleValue.StringValue "x", TupleValue.IntValue 3]],
      t.length = scenario.schema_t_u.length :=
  ⟨by decide,
   (C27_join_length_invariant scenario.join_earlier_first
      [scenario.tuple_set_t, scenario.tuple_set_u] (by decide) (by decide)).2 []
      scenario.schema_t_u _ (by decide)⟩

/-! ## Properties of the bind of the tuple filter -/

/-- On conditions whose attribute pairs all carry their names, the bind of the
tuple filter returns: SCHEMA_FIELD_TYPE_MISMATCH when some condition between
two located attributes has fields of different types, and otherwise SUCCESS
with one binding per condition between two located attributes, in condition
order. -/
theorem tuple_filter_init_loop_named (left_schema right_schema : TupleSchema)
    (conditions : List Condition) (acc : List TupleCons)
    (hnamed : ∀ c ∈ conditions, c.left_is_attr = 1 ∧ c.right_is_attr = 1 →
      named_attr_pair c) :
    ((∃ c ∈ conditions, binding_mismatch left_schema right_schema c) →
      ∃ bindings, tuple_filter_init_loop left_schema right_schema conditions acc =
        some (RC.SCHEMA_FIELD_TYPE_MISMATCH, bindings)) ∧
    ((¬ ∃ c ∈ conditions, binding_mismatch left_schema right_schema c) →
      tuple_filter_init_loop left_schema right_schema conditions acc =
        some (RC.SUCCESS,
          acc ++ conditions.filterMap (binding_of left_schema right_schema))) := by
  induction conditions generalizing acc with
  | nil =>
    refine ⟨fun ⟨c, hc, _⟩ => absurd hc (List.not_mem_nil c), fun _ => ?_⟩
    simp [tuple_filter_init_loop]
  | cons c rest ih =>
    have ih' := fun acc => ih acc (fun c' hc' => hnamed c' (List.mem_cons_of_mem _ hc'))
    have hrest : ∀ acc' : List TupleCons, ¬ binding_mismatch left_schema right_schema c →
        binding_of left_schema right_schema c = none →
        tuple_filter_init_loop left_schema right_schema (c :: rest) acc =
          tuple_filter_init_loop left_schema right_schema rest acc →
        ((∃ c' ∈ c :: rest, binding_mismatch left_schema right_schema c') →
          ∃ bindings, tuple_filter_init_loop left_schema right_schema (c :: rest) acc =
            some (RC.SCHEMA_FIELD_TYPE_MISMATCH, bindings)) ∧
        ((¬ ∃ c' ∈ c :: rest, binding_mismatch left_schema right_schema c') →
          tuple_filter_init_loop left_schema right_schema (c :: rest) acc =
            some (RC.SUCCESS,
              acc ++ (c :: rest).filterMap (binding_of left_schema right_schema))) := by
      intro _ hnm hnone hstep
      rw [hstep, List.filterMap_cons, hnone]
      refine ⟨fun ⟨c', hc', hm⟩ => ?_, fun hno => ?_⟩
      · rcases List.mem_cons.mp hc' with rfl | hmem
        · exact absurd hm hnm
        · exact (ih' acc).1 ⟨c', hmem, hm⟩
      · exact (ih' acc).2 (fun ⟨c', hc', hm⟩ => hno ⟨c', List.mem_cons_of_mem _ hc', hm⟩)
    by_cases hpair : c.left_is_attr = 1 ∧ c.right_is_attr = 1
    · obtain ⟨_, _, h1, h2, h3, h4⟩ := hnamed c (List.mem_cons_self _ _) hpair
      obtain ⟨lt, hlt⟩ := Option.isSome_iff_exists.mp h1
      obtain ⟨lf, hlf⟩ := Option.isSome_iff_exists.mp h2
      obtain ⟨rt, hrt⟩ := Option.isSome_iff_exists.mp h3
      obtain ⟨rf, hrf⟩ := Option.isSome_iff_exists.mp h4
      by_cases hr : (find_tuple_field rt rf right_schema 0).1 = -1
      · apply hrest acc
        · simp [binding_mismatch, hlt, hlf, hrt, hrf, hr]
        · simp [binding_of, hpair, hlt, hlf, hrt, hrf, hr]
        · rw [tuple_filter_init_loop, if_pos hpair]
          simp only [hrt, hrf, hr, if_true]
      · have hr' : ¬ (-1 = (find_tuple_field rt rf right_schema 0).1) := fun h => hr h.symm
        by_cases hl : (find_tuple_field lt lf left_schema 0).1 = -1
        · apply hrest acc
          · simp [binding_mismatch, hlt, hlf, hrt, hrf, hl]
          · simp [binding_of, hpair, hlt, hlf, hrt, hrf, hl]
          · rw [tuple_filter_init_loop, if_pos hpair]
            simp only [hrt, hrf, hlt, hlf, hr', hl, if_true, if_false]
        · have hl' : ¬ (-1 = (find_tuple_field lt lf left_schema 0).1) := fun h => hl h.symm
          by_cases hty : (find_tuple_field lt lf left_schema 0).2 =
              (find_tuple_field rt rf right_schema 0).2
          · have hstep : tuple_filter_init_loop left_schema right_schema (c :: rest) acc =
                tuple_filter_init_loop left_schema right_schema rest
                  (acc ++ [{ condition := c
                             type := (find_tuple_field lt lf left_schema 0).2
                             left_value_pos := (find_tuple_field lt lf left_schema 0).1
                             right_value_pos := (find_tuple_field rt rf right_schema 0).1 }]) := by
              rw [tuple_filter_init_loop, if_pos hpair]
              simp only [hrt, hrf, hlt, hlf, hr', hl', if_false, ne_eq, hty, not_true_eq_false]
            have hb : binding_of left_schema right_schema c =
                some { condition := c
                       type := (find_tuple_field lt lf left_schema 0).2
                       left_value_pos := (find_tuple_field lt lf left_schema 0).1
                       right_value_pos := (find_tuple_field rt rf right_schema 0).1 } := by
              simp [binding_of, hpair, hlt, hlf, hrt, hrf, hr, hl]
            have hnm : ¬ binding_mismatch left_schema right_schema c := by
              simp [binding_mismatch, hlt, hlf, hrt, hrf, hty]
            rw [hstep, List.filterMap_cons, hb]
            refine ⟨fun ⟨c', hc', hm⟩ => ?_, fun hno => ?_⟩
            · rcases List.mem_cons.mp hc' with rfl | hmem
              · exact absurd hm hnm
              · exact (ih' _).1 ⟨c', hmem, hm⟩
            · rw [(ih' _).2 (fun ⟨c', hc', hm⟩ => hno ⟨c', List.mem_cons_of_mem _ hc', hm⟩),
                List.append_assoc]
              rfl
          · have hm : binding_mismatch left_schema right_schema c := by
              simp [binding_mismatch, hpair, hlt, hlf, hrt, hrf, hr, hl, hty]
            refine ⟨fun _ => ⟨acc, ?_⟩, fun hno => absurd ⟨c, List.mem_cons_self _ _, hm⟩ hno⟩
            rw [tuple_filter_init_loop, if_pos hpair]
            simp only [hrt, hrf, hlt, hlf, hr', hl', if_false, ne_eq, hty, not_false_eq_true,
              if_true]
    · apply hrest acc
      · intro hm
        exact hpair ⟨hm.1, hm.2.1⟩
      · simp [binding_of, hpair]
      · rw [tuple_filter_init_loop, if_neg hpair]

/-- C28: on a condition between two attributes without relation name, such as
`a = a`, `TupleFilter::init` builds a `std::string` from the null relation
name, which is undefined behaviour; so is the join of `SELECT * FROM t WHERE
a = a`. -/
theorem C28_null_relation_name_undefined :
    TupleFilter.init [] scenario.schema_t
      (scenario.select_star_from_t [scenario.a_eq_a]).selects_ = none ∧
    (scenario.select_star_from_t [scenario.a_eq_a]).select_all_table_tuple_sets [] =
      some (RC.SUCCESS, [scenario.tuple_set_t]) ∧
    (scenario.select_star_from_t [scenario.a_eq_a]).select_filter_tuples [] [] = none := by
  decide

/-! ## Properties of a constant predicate -/

/-- The filter that a condition between two values binds to evaluates, on every
record, to `value_compare` of the two values. -/
theorem init_value_condition (self : DefaultConditionFilter) (table : Table)
    (c : Condition) (hl : c.left_is_attr = 0) (hr : c.right_is_attr = 0)
    (h : (self.init table c).1 = RC.SUCCESS) (rec : Record) :
    (self.init table c).2.filter rec =
      some (value_compare c.left_value c.right_value c.comp) := by
  have h1 : ¬ (1 = c.left_is_attr) := by omega
  have h2 : ¬ (1 = c.right_is_attr) := by omega
  unfold DefaultConditionFilter.init at h ⊢
  simp only [if_neg h1, if_neg h2] at h ⊢
  by_cases hrule : c.left_value.type = c.right_value.type ∨
      c.left_value.type = AttrType.NULLS ∨ c.right_value.type = AttrType.NULLS ∨
      ((AttrType.INTS = c.left_value.type ∨ AttrType.FLOATS = c.left_value.type) ∧
        (AttrType.INTS = c.right_value.type ∨ AttrType.FLOATS = c.right_value.type))
  · rw [if_pos hrule] at h ⊢
    unfold DefaultConditionFilter.init_desc at h ⊢
    by_cases h3 : c.left_value.type.code ≤ AttrType.UNDEFINED.code ∨
        c.left_value.type.code > AttrType.DATES.code
    · rw [if_pos h3] at h
      exact RC.noConfusion h
    · rw [if_neg h3] at h ⊢
      by_cases h4 : c.right_value.type.code ≤ AttrType.UNDEFINED.code ∨
          c.right_value.type.code > AttrType.DATES.code
      · rw [if_pos h4] at h
        exact RC.noConfusion h
      · rw [if_neg h4] at h ⊢
        by_cases h5 : c.comp.code < CompOp.EQUAL_TO.code ∨ c.comp.code ≥ CompOp.NO_OP.code
        · rw [if_pos h5] at h
          exact RC.noConfusion h
        · rw [if_neg h5]
          simp [DefaultConditionFilter.filter, side_value]
  · rw [if_neg hrule] at h
    exact RC.noConfusion h

/-- A filter of the conjunction that rejects the record keeps the conjunction
from accepting it. -/
theorem composite_filter_rejects (filters : List DefaultConditionFilter) (rec : Record)
    (f : DefaultConditionFilter) (hf : f ∈ filters) (hrej : f.filter rec = some false) :
    composite_filter filters rec ≠ some true := by
  induction filters with
  | nil => simp at hf
  | cons g rest ih =>
    rw [composite_filter]
    rcases List.mem_cons.mp hf with rfl | hmem
    · rw [hrej]
      simp
    · cases hg : g.filter rec with
      | none => simp
      | some b =>
        cases b with
        | false => simp
        | true => exact ih hmem

/-- A scan whose conjunction accepts no record yields no tuple. -/
theorem scan_records_rejected (node : SelectExeNode) (records : List Record)
    (tuples : List Tuple)
    (hrej : ∀ rec, composite_filter node.condition_filters_ rec ≠ some true)
    (h : scan_records node records = some tuples) : tuples = [] := by
  induction records generalizing tuples with
  | nil =>
    simp only [scan_records, Option.some.injEq] at h
    exact h.symm
  | cons rec rest ih =>
    rw [scan_records] at h
    cases hc : composite_filter node.condition_filters_ rec with
    | none => simp [hc] at h
    | some accepted =>
      cases accepted with
      | true => exact absurd hc (hrej rec)
      | false =>
        simp only [hc] at h
        cases hs : scan_records node rest with
        | none => simp [hs] at h
        | some more =>
          simp only [hs, Bool.false_eq_true, if_false, Option.some.injEq] at h
          rw [← h]
          exact ih more hs

/-- A scan node created for a query with a false condition between two values
accepts no record. -/
theorem create_select_exe_node_rejects (self : SelectExecutor) (table_name : String)
    (node : SelectExeNode) (c : Condition) (hc : c ∈ self.selects_.conditions)
    (hl : c.left_is_attr = 0) (hr : c.right_is_attr = 0)
    (hfalse : value_compare c.left_value c.right_value c.comp = false)
    (h : self.create_select_exe_node table_name = (RC.SUCCESS, some node)) :
    ∀ rec, composite_filter node.condition_filters_ rec ≠ some true := by
  unfold SelectExecutor.create_select_exe_node at h
  cases ht : self.find_table table_name with
  | none => simp [ht] at h
  | some table =>
    simp only [ht] at h
    cases hcf : create_condition_filters self table table_name self.selects_.conditions []
      with
    | mk rc filters =>
      simp only [hcf] at h
      by_cases hrc : rc = RC.SUCCESS
      · subst hrc
        simp only [ne_eq, not_true_eq_false, if_false, Prod.mk.injEq, Option.some.injEq,
          true_and] at h
        obtain ⟨hfilters, hbound⟩ :=
          create_condition_filters_success self table table_name _ [] filters hcf
        have hin : self.condition_is_for_table c table_name = true := by
          simp [SelectExecutor.condition_is_for_table, hl, hr]
        have hmem : (DefaultConditionFilter.new.init table c).2 ∈ filters := by
          rw [hfilters, List.nil_append]
          exact List.mem_map.mpr ⟨c, List.mem_filter.mpr ⟨hc, hin⟩, rfl⟩
        intro rec
        rw [← h]
        apply composite_filter_rejects filters rec _ hmem
        rw [init_value_condition _ table c hl hr (hbound c hc hin) rec, hfalse]
      · simp only [ne_eq, hrc, not_false_eq_true, if_true, Prod.mk.injEq] at h
        exact h.1.elim

/-- The nodes that the first loop of `select_all_table_tuple_sets` adds have
every property that `create_select_exe_node` gives its node. -/
theorem create_select_nodes_all (self : SelectExecutor) (P : SelectExeNode → Prop)
    (hP : ∀ table_name node,
      self.create_select_exe_node table_name = (RC.SUCCESS, some node) → P node)
    (relations : List String) (acc nodes : List SelectExeNode)
    (hacc : ∀ n ∈ acc, P n)
    (h : create_select_nodes self relations acc = (RC.SUCCESS, nodes)) :
    (∀ n ∈ nodes, P n) ∧ nodes.length = acc.length + relations.length := by
  induction relations generalizing acc with
  | nil =>
    simp only [create_select_nodes, Prod.mk.injEq, true_and] at h
    subst h
    exact ⟨hacc, rfl⟩
  | cons table_name rest ih =>
    rw [create_select_nodes] at h
    cases hn : self.create_select_exe_node table_name with
    | mk rc onode =>
      cases onode with
      | none =>
        simp only [hn] at h
        have hcode : rc = RC.SUCCESS := (Prod.mk.inj h).1
        subst hcode
        exfalso
        unfold SelectExecutor.create_select_exe_node at hn
        cases ht : self.find_table table_name with
        | none => simp [ht] at hn
        | some table =>
          simp only [ht] at hn
          split_ifs at hn with hcode
          · exact hcode (Prod.mk.inj hn).1
          · simp at hn
      | some node =>
        simp only [hn] at h
        by_cases hrc : rc = RC.SUCCESS
        · subst hrc
          simp only [ne_eq, not_true_eq_false, if_false] at h
          obtain ⟨h1, h2⟩ := ih (acc ++ [node])
            (by
              intro n hn'
              rcases List.mem_append.mp hn' with h' | h'
              · exact hacc n h'
              · rw [List.mem_singleton.mp h']
                exact hP table_name node hn) h
          refine ⟨h1, ?_⟩
          rw [h2]
          simp
          omega
        · simp only [ne_eq, hrc, not_false_eq_true, if_true, Prod.mk.injEq] at h
          exact h.1.elim

/-- The tuple sets of nodes that accept no record are empty. -/
theorem execute_select_nodes_rejected (nodes : List SelectExeNode) (acc tuple_sets : List TupleSet)
    (hrej : ∀ n ∈ nodes, ∀ rec, composite_filter n.condition_filters_ rec ≠ some true)
    (hacc : ∀ ts ∈ acc, ts.tuples = [])
    (h : execute_select_nodes nodes acc = some (RC.SUCCESS, tuple_sets)) :
    (∀ ts ∈ tuple_sets, ts.tuples = []) ∧ tuple_sets.length = acc.length + nodes.length := by
  induction nodes generalizing acc with
  | nil =>
    simp only [execute_select_nodes, Option.some.injEq, Prod.mk.injEq, true_and] at h
    subst h
    exact ⟨hacc, rfl⟩
  | cons node rest ih =>
    rw [execute_select_nodes] at h
    cases he : node.execute with
    | none => simp [he] at h
    | some r =>
      obtain ⟨rc, ts⟩ := r
      simp only [he] at h
      by_cases hrc : rc = RC.SUCCESS
      · subst hrc
        simp only [ne_eq, not_true_eq_false, if_false] at h
        have hts : ts.tuples = [] := by
          unfold SelectExeNode.execute at he
          cases hs : scan_records node node.table_.records with
          | none => simp [hs] at he
          | some tuples =>
            simp only [hs, Option.some.injEq, Prod.mk.injEq, true_and] at he
            rw [← he]
            exact scan_records_rejected node _ tuples (hrej node (List.mem_cons_self _ _)) hs
        obtain ⟨h1, h2⟩ := ih (acc ++ [ts])
          (fun n hn => hrej n (List.mem_cons_of_mem _ hn))
          (by
            intro ts' hts'
            rcases List.mem_append.mp hts' with h' | h'
            · exact hacc ts' h'
            · rw [List.mem_singleton.mp h']
              exact hts) h
        refine ⟨h1, ?_⟩
        rw [h2]
        simp
        omega
      · simp only [ne_eq, hrc, not_false_eq_true, if_true, Option.some.injEq,
          Prod.mk.injEq] at h
        exact h.1.elim

/-- A join step against no right tuple yields no tuple. -/
theorem join_step_no_right (bindings : List TupleCons) (running : List Tuple) :
    join_step bindings [] running = [] := by
  induction running with
  | nil => rfl
  | cons lt rest ih => rw [join_step, ih]; rfl

/-- The join of tuple sets without tuples has no tuple. -/
theorem join_loop_of_empty (self : SelectExecutor) (tuple_sets : List TupleSet)
    (left_schema : TupleSchema) (running v : List Tuple)
    (hempty : ∀ ts ∈ tuple_sets, ts.tuples = [])
    (hne : tuple_sets ≠ [] ∨ running = [])
    (h : join_loop self tuple_sets left_schema running = some (RC.SUCCESS, v)) : v = [] := by
  induction tuple_sets generalizing left_schema running with
  | nil =>
    simp only [join_loop, Option.some.injEq, Prod.mk.injEq, true_and] at h
    rcases hne with hne | hne
    · exact absurd rfl hne
    · rw [← h, hne]
  | cons ts rest ih =>
    rw [join_loop] at h
    cases hinit : TupleFilter.init left_schema ts.schema self.selects_ with
    | none => simp [hinit] at h
    | some r =>
      obtain ⟨rc, bindings⟩ := r
      simp only [hinit] at h
      by_cases hrc : rc = RC.SUCCESS
      · subst hrc
        simp only [ne_eq, not_true_eq_false, if_false] at h
        rw [hempty ts (List.mem_cons_self _ _), join_step_no_right] at h
        exact ih _ _ (fun ts' hts' => hempty ts' (List.mem_cons_of_mem _ hts')) (Or.inr rfl) h
      · simp only [ne_eq, hrc, not_false_eq_true, if_true, Option.some.injEq,
          Prod.mk.injEq] at h
        exact h.1.elim

/-- A run of `select_filter_tuples` that returns SUCCESS on a query with a
false condition between two values returns no tuple. -/
theorem select_filter_tuples_constant_false (self : SelectExecutor) (c : Condition)
    (hc : c ∈ self.selects_.conditions) (hl : c.left_is_attr = 0) (hr : c.right_is_attr = 0)
    (hfalse : value_compare c.left_value c.right_value c.comp = false)
    (tuple_schema schema : TupleSchema) (filter_tuple_vector v : List Tuple)
    (h : self.select_filter_tuples tuple_schema filter_tuple_vector =
      some (RC.SUCCESS, schema, v)) : v = [] := by
  cases hscan : self.select_all_table_tuple_sets [] with
  | none =>
    unfold SelectExecutor.select_filter_tuples at h
    simp [hscan] at h
  | some r =>
    obtain ⟨rc, tuple_sets⟩ := r
    by_cases hrc : rc = RC.SUCCESS
    · subst hrc
      rw [select_filter_tuples_of_scans self tuple_sets _ _ hscan] at h
      unfold SelectExecutor.select_all_table_tuple_sets at hscan
      cases hnodes : create_select_nodes self self.selects_.relations.reverse [] with
      | mk rcn nodes =>
        simp only [hnodes] at hscan
        by_cases hrcn : rcn = RC.SUCCESS
        · subst hrcn
          simp only [ne_eq, not_true_eq_false, if_false] at hscan
          by_cases hemp : nodes.isEmpty = true
          · simp [hemp] at hscan
          · simp only [hemp, Bool.false_eq_true, if_false] at hscan
            obtain ⟨hrej, _⟩ := create_select_nodes_all self
              (fun n => ∀ rec, composite_filter n.condition_filters_ rec ≠ some true)
              (fun table_name node hn =>
                create_select_exe_node_rejects self table_name node c hc hl hr hfalse hn)
              _ [] nodes (fun n hn => absurd hn (List.not_mem_nil n)) hnodes
            obtain ⟨hall, hlen⟩ := execute_select_nodes_rejected nodes [] tuple_sets hrej
              (fun ts hts => absurd hts (List.not_mem_nil ts)) hscan
            have hne : tuple_sets ≠ [] := by
              intro he
              rw [he] at hlen
              simp only [List.length_nil, zero_add] at hlen
              have hnil : nodes = [] := List.length_eq_zero.mp hlen.symm
              rw [hnil] at hemp
              exact hemp rfl
            cases hj : join_loop self tuple_sets [] [[]] with
            | none => simp [hj] at h
            | some r2 =>
              obtain ⟨rc2, tv⟩ := r2
              simp only [hj] at h
              by_cases hrc2 : rc2 = RC.SUCCESS
              · subst hrc2
                simp only [ne_eq, not_true_eq_false, if_false, Option.some.injEq,
                  Prod.mk.injEq, true_and] at h
                rw [← h.2]
                exact join_loop_of_empty self tuple_sets [] [[]] tv hall (Or.inl hne) hj
              · simp only [ne_eq, hrc2, not_false_eq_true, if_true, Option.some.injEq,
                  Prod.mk.injEq] at h
                exact h.1.elim
        · simp only [ne_eq, hrcn, not_false_eq_true, if_true, Option.some.injEq,
            Prod.mk.injEq] at hscan
          exact hscan.1.elim
    · unfold SelectExecutor.select_filter_tuples at h
      simp only [hscan, ne_eq, hrc, not_false_eq_true, if_true, Option.some.injEq,
        Prod.mk.injEq] at h
      exact h.1.elim

/-- A condition between two values binds when its types pass the type rule,
neither is UNDEFINED, and the operator is in the valid range. -/
theorem init_value_condition_bound (self : DefaultConditionFilter) (table : Table)
    (c : Condition) (hl : c.left_is_attr = 0) (hr : c.right_is_attr = 0)
    (hrule : type_rule c.left_value.type c.right_value.type)
    (hlt : c.left_value.type ≠ AttrType.UNDEFINED)
    (hrt : c.right_value.type ≠ AttrType.UNDEFINED)
    (hop : c.comp.code < CompOp.NO_OP.code) :
    (self.init table c).1 = RC.SUCCESS := by
  have h1 : ¬ (1 = c.left_is_attr) := by omega
  have h2 : ¬ (1 = c.right_is_attr) := by omega
  rw [init_of_side_types self table c c.left_value.type c.right_value.type
    (by unfold side_type; rw [if_neg h1]) (by unfold side_type; rw [if_neg h2]),
    if_pos hrule, init_desc_success self _ _ _ _ _ hlt hrt hop]

/-- The conjunction over two lists of filters evaluates the second list when
the first accepts the record. -/
theorem composite_filter_append (a b : List DefaultConditionFilter) (rec : Record) :
    composite_filter (a ++ b) rec =
      match composite_filter a rec with
      | some true => composite_filter b rec
      | r => r := by
  induction a with
  | nil => rfl
  | cons f rest ih =>
    rw [List.cons_append, composite_filter, composite_filter]
    cases hf : f.filter rec with
    | none => rfl
    | some v =>
      cases v with
      | false => rfl
      | true => exact ih

/-- The test of `create_select_exe_node` depends on the query through its
relations only. -/
theorem condition_is_for_table_congr (self other : SelectExecutor)
    (hrel : self.selects_.relations = other.selects_.relations) (c : Condition)
    (table_name : String) :
    self.condition_is_for_table c table_name = other.condition_is_for_table c table_name := by
  unfold SelectExecutor.condition_is_for_table SelectExecutor.match_table
  rw [hrel]

/-- The loop of `create_select_exe_node` over the same conditions, from two
lists of filters with the same conjunction, gives the same code and two lists
with the same conjunction. -/
theorem create_condition_filters_congr (self other : SelectExecutor)
    (hrel : self.selects_.relations = other.selects_.relations) (table : Table)
    (table_name : String) (conditions : List Condition)
    (acc1 acc2 : List DefaultConditionFilter)
    (hacc : ∀ rec, composite_filter acc1 rec = composite_filter acc2 rec) :
    (create_condition_filters self table table_name conditions acc1).1 =
      (create_condition_filters other table table_name conditions acc2).1 ∧
    ∀ rec,
      composite_filter (create_condition_filters self table table_name conditions acc1).2 rec =
      composite_filter (create_condition_filters other table table_name conditions acc2).2
        rec := by
  induction conditions generalizing acc1 acc2 with
  | nil => exact ⟨rfl, hacc⟩
  | cons c rest ih =>
    rw [create_condition_filters, create_condition_filters,
      ← condition_is_for_table_congr self other hrel c table_name]
    by_cases hc : self.condition_is_for_table c table_name = true
    · simp only [hc, if_true]
      by_cases hr : (DefaultConditionFilter.new.init table c).1 = RC.SUCCESS
      · simp only [hr, ne_eq, not_true_eq_false, if_false]
        apply ih
        intro rec
        rw [composite_filter_append, composite_filter_append, hacc rec]
      · simp only [ne_eq, hr, not_false_eq_true, if_true]
        exact ⟨trivial, hacc⟩
    · simp only [hc, Bool.false_eq_true, if_false]
      exact ih _ _ hacc

/-- A bound condition between two values that evaluates to true can be left
out of the loop of `create_select_exe_node`: the code is the same and the
filters have the same conjunction. -/
theorem create_condition_filters_insert (self other : SelectExecutor)
    (hrel : self.selects_.relations = other.selects_.relations) (table : Table)
    (table_name : String) (c : Condition) (hl : c.left_is_attr = 0) (hr : c.right_is_attr = 0)
    (hbound : (DefaultConditionFilter.new.init table c).1 = RC.SUCCESS)
    (htrue : value_compare c.left_value c.right_value c.comp = true)
    (pre post : List Condition) (acc1 acc2 : List DefaultConditionFilter)
    (hacc : ∀ rec, composite_filter acc1 rec = composite_filter acc2 rec) :
    (create_condition_filters self table table_name (pre ++ c :: post) acc1).1 =
      (create_condition_filters other table table_name (pre ++ post) acc2).1 ∧
    ∀ rec,
      composite_filter
          (create_condition_filters self table table_name (pre ++ c :: post) acc1).2 rec =
      composite_filter
          (create_condition_filters other table table_name (pre ++ post) acc2).2 rec := by
  induction pre generalizing acc1 acc2 with
  | nil =>
    have hin : self.condition_is_for_table c table_name = true := by
      simp [SelectExecutor.condition_is_for_table, hl, hr]
    rw [List.nil_append, List.nil_append, create_condition_filters]
    simp only [hin, if_true, hbound, ne_eq, not_true_eq_false, if_false]
    apply create_condition_filters_congr self other hrel
    intro rec
    rw [composite_filter_append, hacc rec]
    cases h2 : composite_filter acc2 rec with
    | none => rfl
    | some v =>
      cases v with
      | false => rfl
      | true =>
        simp only [composite_filter]
        rw [init_value_condition _ table c hl hr hbound rec, htrue]
  | cons p rest ih =>
    rw [List.cons_append, List.cons_append, create_condition_filters, create_condition_filters,
      ← condition_is_for_table_congr self other hrel p table_name]
    by_cases hc : self.condition_is_for_table p table_name = true
    · simp only [hc, if_true]
      by_cases hp : (DefaultConditionFilter.new.init table p).1 = RC.SUCCESS
      · simp only [hp, ne_eq, not_true_eq_false, if_false]
        apply ih
        intro rec
        rw [composite_filter_append, composite_filter_append, hacc rec]
      · simp only [ne_eq, hp, not_false_eq_true, if_true]
        exact ⟨trivial, hacc⟩
    · simp only [hc, Bool.false_eq_true, if_false]
      exact ih _ _ hacc

/-- Two scan nodes on the same table and schema whose filters have the same
conjunction. -/
theorem scan_records_congr (n1 n2 : SelectExeNode) (htable : n1.table_ = n2.table_)
    (hschema : n1.tuple_schema_ = n2.tuple_schema_)
    (hfilters : ∀ rec, composite_filter n1.condition_filters_ rec =
      composite_filter n2.condition_filters_ rec) (records : List Record) :
    scan_records n1 records = scan_records n2 records := by
  induction records with
  | nil => rfl
  | cons rec rest ih =>
    rw [scan_records, scan_records, hfilters rec, ih, htable, hschema]

/-- Two scan nodes on the same table and schema whose filters have the same
conjunction yield the same tuple set. -/
theorem execute_congr (n1 n2 : SelectExeNode) (htable : n1.table_ = n2.table_)
    (hschema : n1.tuple_schema_ = n2.tuple_schema_)
    (hfilters : ∀ rec, composite_filter n1.condition_filters_ rec =
      composite_filter n2.condition_filters_ rec) :
    n1.execute = n2.execute := by
  unfold SelectExeNode.execute
  rw [scan_records_congr n1 n2 htable hschema hfilters, htable, hschema]

/-- With a bound condition between two values that evaluates to true left out,
`create_select_exe_node` returns the same code and a node that yields the same
tuple set. -/
theorem create_select_exe_node_insert (self : SelectExecutor) (c : Condition)
    (hl : c.left_is_attr = 0) (hr : c.right_is_attr = 0)
    (hbound : ∀ table, (DefaultConditionFilter.new.init table c).1 = RC.SUCCESS)
    (htrue : value_compare c.left_value c.right_value c.comp = true)
    (pre post : List Condition) (table_name : String) :
    ((with_conditions self (pre ++ c :: post)).create_select_exe_node table_name).1 =
      ((with_conditions self (pre ++ post)).create_select_exe_node table_name).1 ∧
    ((((with_conditions self (pre ++ c :: post)).create_select_exe_node table_name).2 = none ∧
        ((with_conditions self (pre ++ post)).create_select_exe_node table_name).2 = none) ∨
      ∃ n1 n2,
        ((with_conditions self (pre ++ c :: post)).create_select_exe_node table_name).2 =
          some n1 ∧
        ((with_conditions self (pre ++ post)).create_select_exe_node table_name).2 = some n2 ∧
        n1.execute = n2.execute) := by
  unfold SelectExecutor.create_select_exe_node
  have hfind : (with_conditions self (pre ++ c :: post)).find_table table_name =
      (with_conditions self (pre ++ post)).find_table table_name := rfl
  rw [hfind]
  cases ht : (with_conditions self (pre ++ post)).find_table table_name with
  | none => exact ⟨rfl, Or.inl ⟨rfl, rfl⟩⟩
  | some table =>
    simp only []
    obtain ⟨hcode, hfilters⟩ := create_condition_filters_insert
      (with_conditions self (pre ++ c :: post)) (with_conditions self (pre ++ post)) rfl table
      table_name c hl hr (hbound table) htrue pre post [] [] (fun _ => rfl)
    have hc1 : (with_conditions self (pre ++ c :: post)).selects_.conditions =
        pre ++ c :: post := rfl
    have hc2 : (with_conditions self (pre ++ post)).selects_.conditions = pre ++ post := rfl
    rw [hc1, hc2, hcode]
    by_cases hrc : (create_condition_filters (with_conditions self (pre ++ post)) table
        table_name (pre ++ post) []).1 = RC.SUCCESS
    · simp only [hrc, ne_eq, not_true_eq_false, if_false, true_and]
      right
      exact ⟨_, _, rfl, rfl, execute_congr _ _ rfl rfl hfilters⟩
    · simp [hrc]

/-- With a bound condition between two values that evaluates to true left out,
the first loop of `select_all_table_tuple_sets` returns the same code and
nodes that yield the same tuple sets. -/
theorem create_select_nodes_insert (self : SelectExecutor) (c : Condition)
    (hl : c.left_is_attr = 0) (hr : c.right_is_attr = 0)
    (hbound : ∀ table, (DefaultConditionFilter.new.init table c).1 = RC.SUCCESS)
    (htrue : value_compare c.left_value c.right_value c.comp = true)
    (pre post : List Condition) (relations : List String) (acc1 acc2 : List SelectExeNode)
    (hacc : List.Forall₂ (fun n1 n2 => n1.execute = n2.execute) acc1 acc2) :
    (create_select_nodes (with_conditions self (pre ++ c :: post)) relations acc1).1 =
      (create_select_nodes (with_conditions self (pre ++ post)) relations acc2).1 ∧
    List.Forall₂ (fun n1 n2 => n1.execute = n2.execute)
      (create_select_nodes (with_conditions self (pre ++ c :: post)) relations acc1).2
      (create_select_nodes (with_conditions self (pre ++ post)) relations acc2).2 := by
  induction relations generalizing acc1 acc2 with
  | nil => exact ⟨rfl, hacc⟩
  | cons table_name rest ih =>
    rw [create_select_nodes, create_select_nodes]
    obtain ⟨hcode, hnode⟩ :=
      create_select_exe_node_insert self c hl hr hbound htrue pre post table_name
    cases h1 : (with_conditions self (pre ++ c :: post)).create_select_exe_node table_name with
    | mk rc1 on1 =>
      cases h2 : (with_conditions self (pre ++ post)).create_select_exe_node table_name with
      | mk rc2 on2 =>
        rw [h1, h2] at hcode hnode
        simp only at hcode hnode
        subst hcode
        rcases hnode with ⟨e1, e2⟩ | ⟨n1, n2, e1, e2, he⟩
        · subst e1 e2
          exact ⟨rfl, hacc⟩
        · subst e1 e2
          simp only []
          by_cases hrc : rc1 = RC.SUCCESS
          · simp only [hrc, ne_eq, not_true_eq_false, if_false]
            apply ih
            exact List.rel_append hacc (List.Forall₂.cons he List.Forall₂.nil)
          · simp only [ne_eq, hrc, not_false_eq_true, if_true]
            exact ⟨trivial, hacc⟩

/-- Nodes that yield the same tuple sets give the same result in the second
loop of `select_all_table_tuple_sets`. -/
theorem execute_select_nodes_congr (nodes1 nodes2 : List SelectExeNode)
    (h : List.Forall₂ (fun n1 n2 => n1.execute = n2.execute) nodes1 nodes2)
    (tuple_sets : List TupleSet) :
    execute_select_nodes nodes1 tuple_sets = execute_select_nodes nodes2 tuple_sets := by
  induction h generalizing tuple_sets with
  | nil => rfl
  | @cons n1 n2 l1 l2 he _ ih =>
    rw [execute_select_nodes, execute_select_nodes, he]
    cases n2.execute with
    | none => rfl
    | some r =>
      obtain ⟨rc, ts⟩ := r
      simp only []
      rw [ih]

/-- With a bound condition between two values that evaluates to true left out,
`select_all_table_tuple_sets` gives the same result. -/
theorem select_all_table_tuple_sets_insert (self : SelectExecutor) (c : Condition)
    (hl : c.left_is_attr = 0) (hr : c.right_is_attr = 0)
    (hbound : ∀ table, (DefaultConditionFilter.new.init table c).1 = RC.SUCCESS)
    (htrue : value_compare c.left_value c.right_value c.comp = true)
    (pre post : List Condition) (tuple_sets : List TupleSet) :
    (with_conditions self (pre ++ c :: post)).select_all_table_tuple_sets tuple_sets =
      (with_conditions self (pre ++ post)).select_all_table_tuple_sets tuple_sets := by
  unfold SelectExecutor.select_all_table_tuple_sets
  have hrel1 : (with_conditions self (pre ++ c :: post)).selects_.relations =
      self.selects_.relations := rfl
  have hrel2 : (with_conditions self (pre ++ post)).selects_.relations =
      self.selects_.relations := rfl
  rw [hrel1, hrel2]
  obtain ⟨hcode, hnodes⟩ := create_select_nodes_insert self c hl hr hbound htrue pre post
    self.selects_.relations.reverse [] [] List.Forall₂.nil
  simp only [hcode]
  have hempty : (create_select_nodes (with_conditions self (pre ++ c :: post))
      self.selects_.relations.reverse []).2.isEmpty =
      (create_select_nodes (with_conditions self (pre ++ post))
        self.selects_.relations.reverse []).2.isEmpty := by
    have := hnodes.length_eq
    cases h1 : (create_select_nodes (with_conditions self (pre ++ c :: post))
      self.selects_.relations.reverse []).2 <;>
    cases h2 : (create_select_nodes (with_conditions self (pre ++ post))
      self.selects_.relations.reverse []).2 <;> simp [h1, h2] at this ⊢
  rw [hempty, execute_select_nodes_congr _ _ hnodes]

/-- The bind of the tuple filter passes over a condition between two
values. -/
theorem tuple_filter_init_loop_insert (left_schema right_schema : TupleSchema) (c : Condition)
    (hl : c.left_is_attr = 0) (pre post : List Condition) (acc : List TupleCons) :
    tuple_filter_init_loop left_schema right_schema (pre ++ c :: post) acc =
      tuple_filter_init_loop left_schema right_schema (pre ++ post) acc := by
  induction pre generalizing acc with
  | nil =>
    have hc : ¬ (c.left_is_attr = 1 ∧ c.right_is_attr = 1) := by omega
    rw [List.nil_append, List.nil_append, tuple_filter_init_loop, if_neg hc]
  | cons p rest ih =>
    rw [List.cons_append, List.cons_append, tuple_filter_init_loop, tuple_filter_init_loop]
    simp only [ih]

/-- With a condition between two values left out, the loop of the join gives
the same result. -/
theorem join_loop_insert (self : SelectExecutor) (c : Condition) (hl : c.left_is_attr = 0)
    (pre post : List Condition) (tuple_sets : List TupleSet) (left_schema : TupleSchema)
    (running : List Tuple) :
    join_loop (with_conditions self (pre ++ c :: post)) tuple_sets left_schema running =
      join_loop (with_conditions self (pre ++ post)) tuple_sets left_schema running := by
  induction tuple_sets generalizing left_schema running with
  | nil => rfl
  | cons ts rest ih =>
    rw [join_loop, join_loop]
    have hinit : TupleFilter.init left_schema ts.schema
        (with_conditions self (pre ++ c :: post)).selects_ =
        TupleFilter.init left_schema ts.schema (with_conditions self (pre ++ post)).selects_ :=
      tuple_filter_init_loop_insert left_schema ts.schema c hl pre post []
    rw [hinit]
    cases TupleFilter.init left_schema ts.schema (with_conditions self (pre ++ post)).selects_
      with
    | none => rfl
    | some r =>
      obtain ⟨rc, bindings⟩ := r
      simp only [ih]

/-- With a bound condition between two values that evaluates to true left out,
`select_filter_tuples` gives the same result. -/
theorem select_filter_tuples_insert (self : SelectExecutor) (c : Condition)
    (hl : c.left_is_attr = 0) (hr : c.right_is_attr = 0)
    (hbound : ∀ table, (DefaultConditionFilter.new.init table c).1 = RC.SUCCESS)
    (htrue : value_compare c.left_value c.right_value c.comp = true)
    (pre post : List Condition) (tuple_schema : TupleSchema) (filter_tuple_vector : List Tuple) :
    (with_conditions self (pre ++ c :: post)).select_filter_tuples tuple_schema
        filter_tuple_vector =
      (with_conditions self (pre ++ post)).select_filter_tuples tuple_schema
        filter_tuple_vector := by
  unfold SelectExecutor.select_filter_tuples
  rw [select_all_table_tuple_sets_insert self c hl hr hbound htrue pre post []]
  cases (with_conditions self (pre ++ post)).select_all_table_tuple_sets [] with
  | none => rfl
  | some r =>
    obtain ⟨rc, tuple_sets⟩ := r
    simp only [join_loop_insert self c hl pre post]

/-- The code SUCCESS of `init_desc` means that neither type is UNDEFINED and
that the operator is below NO_OP. -/
theorem init_desc_success_inv (self : DefaultConditionFilter) (left right : ConDesc)
    (left_type right_type : AttrType) (comp_op : CompOp)
    (h : (self.init_desc left right left_type right_type comp_op).1 = RC.SUCCESS) :
    left_type ≠ AttrType.UNDEFINED ∧ right_type ≠ AttrType.UNDEFINED ∧
      comp_op.code < CompOp.NO_OP.code := by
  unfold DefaultConditionFilter.init_desc at h
  by_cases h3 : left_type.code ≤ AttrType.UNDEFINED.code ∨
      left_type.code > AttrType.DATES.code
  · rw [if_pos h3] at h
    exact RC.noConfusion h
  · rw [if_neg h3] at h
    by_cases h4 : right_type.code ≤ AttrType.UNDEFINED.code ∨
        right_type.code > AttrType.DATES.code
    · rw [if_pos h4] at h
      exact RC.noConfusion h
    · rw [if_neg h4] at h
      by_cases h5 : comp_op.code < CompOp.EQUAL_TO.code ∨ comp_op.code ≥ CompOp.NO_OP.code
      · rw [if_pos h5] at h
        exact RC.noConfusion h
      · refine ⟨fun e => h3 (Or.inl ?_), fun e => h4 (Or.inl ?_), ?_⟩
        · subst e
          exact Nat.le_refl _
        · subst e
          exact Nat.le_refl _
        · have h6 := not_or.mp h5
          omega

/-- A condition between two values does not bind when its types fail the type
rule, a type is UNDEFINED, or the operator is out of range. -/
theorem init_value_condition_unbound (self : DefaultConditionFilter) (table : Table)
    (c : Condition) (hl : c.left_is_attr = 0) (hr : c.right_is_attr = 0)
    (hno : ¬ (type_rule c.left_value.type c.right_value.type ∧
      c.left_value.type ≠ AttrType.UNDEFINED ∧ c.right_value.type ≠ AttrType.UNDEFINED ∧
      c.comp.code < CompOp.NO_OP.code)) :
    (self.init table c).1 ≠ RC.SUCCESS := by
  have h1 : ¬ (1 = c.left_is_attr) := by omega
  have h2 : ¬ (1 = c.right_is_attr) := by omega
  rw [init_of_side_types self table c c.left_value.type c.right_value.type
    (by unfold side_type; rw [if_neg h1]) (by unfold side_type; rw [if_neg h2])]
  by_cases hrule : type_rule c.left_value.type c.right_value.type
  · rw [if_pos hrule]
    intro h
    exact hno ⟨hrule, init_desc_success_inv _ _ _ _ _ _ h⟩
  · rw [if_neg hrule]
    intro h
    exact RC.noConfusion h

/-- A scan node created for a query with a condition between two values has the
filter of that condition in its filter list. -/
theorem create_select_exe_node_includes (self : SelectExecutor) (table_name : String)
    (node : SelectExeNode) (c : Condition) (hc : c ∈ self.selects_.conditions)
    (hl : c.left_is_attr = 0) (hr : c.right_is_attr = 0)
    (h : self.create_select_exe_node table_name = (RC.SUCCESS, some node)) :
    (DefaultConditionFilter.new.init node.table_ c).1 = RC.SUCCESS ∧
    (DefaultConditionFilter.new.init node.table_ c).2 ∈ node.condition_filters_ := by
  unfold SelectExecutor.create_select_exe_node at h
  cases ht : self.find_table table_name with
  | none => simp [ht] at h
  | some table =>
    simp only [ht] at h
    cases hcf : create_condition_filters self table table_name self.selects_.conditions []
      with
    | mk rc filters =>
      simp only [hcf] at h
      by_cases hrc : rc = RC.SUCCESS
      · subst hrc
        simp only [ne_eq, not_true_eq_false, if_false, Prod.mk.injEq, Option.some.injEq,
          true_and] at h
        obtain ⟨hfilters, hbound⟩ :=
          create_condition_filters_success self table table_name _ [] filters hcf
        have hin : self.condition_is_for_table c table_name = true := by
          simp [SelectExecutor.condition_is_for_table, hl, hr]
        rw [← h]
        refine ⟨hbound c hc hin, ?_⟩
        show (DefaultConditionFilter.new.init table c).2 ∈ filters
        rw [hfilters, List.nil_append]
        exact List.mem_map.mpr ⟨c, List.mem_filter.mpr ⟨hc, hin⟩, rfl⟩
      · simp only [ne_eq, hrc, not_false_eq_true, if_true, Prod.mk.injEq] at h
        exact h.1.elim

/-- The scans of a query with a false condition between two values that all
return SUCCESS yield no tuple. -/
theorem select_all_table_tuple_sets_constant_false (self : SelectExecutor) (c : Condition)
    (hc : c ∈ self.selects_.conditions) (hl : c.left_is_attr = 0) (hr : c.right_is_attr = 0)
    (hfalse : value_compare c.left_value c.right_value c.comp = false)
    (tuple_sets : List TupleSet)
    (h : self.select_all_table_tuple_sets [] = some (RC.SUCCESS, tuple_sets)) :
    ∀ ts ∈ tuple_sets, ts.tuples = [] := by
  unfold SelectExecutor.select_all_table_tuple_sets at h
  cases hnodes : create_select_nodes self self.selects_.relations.reverse [] with
  | mk rcn nodes =>
    simp only [hnodes] at h
    by_cases hrcn : rcn = RC.SUCCESS
    · subst hrcn
      simp only [ne_eq, not_true_eq_false, if_false] at h
      by_cases hemp : nodes.isEmpty = true
      · simp [hemp] at h
      · simp only [hemp, Bool.false_eq_true, if_false] at h
        obtain ⟨hrej, _⟩ := create_select_nodes_all self
          (fun n => ∀ rec, composite_filter n.condition_filters_ rec ≠ some true)
          (fun table_name node hn =>
            create_select_exe_node_rejects self table_name node c hc hl hr hfalse hn)
          _ [] nodes (fun n hn => absurd hn (List.not_mem_nil n)) hnodes
        exact (execute_select_nodes_rejected nodes [] tuple_sets hrej
          (fun ts hts => absurd hts (List.not_mem_nil ts)) h).1
    · simp only [ne_eq, hrcn, not_false_eq_true, if_true, Option.some.injEq,
        Prod.mk.injEq] at h
      exact h.1.elim

/-- A query with a condition between two values that does not bind creates no
scan node: `select_filter_tuples` returns an error code and leaves the schema
and the vector of the caller as they were. -/
theorem select_filter_tuples_unbound (self : SelectExecutor) (c : Condition)
    (hc : c ∈ self.selects_.conditions) (hl : c.left_is_attr = 0) (hr : c.right_is_attr = 0)
    (hno : ¬ (type_rule c.left_value.type c.right_value.type ∧
      c.left_value.type ≠ AttrType.UNDEFINED ∧ c.right_value.type ≠ AttrType.UNDEFINED ∧
      c.comp.code < CompOp.NO_OP.code))
    (tuple_schema : TupleSchema) (filter_tuple_vector : List Tuple) :
    ∃ rc, rc ≠ RC.SUCCESS ∧
      self.select_filter_tuples tuple_schema filter_tuple_vector =
        some (rc, tuple_schema, filter_tuple_vector) := by
  have hnone : ∀ table_name node,
      self.create_select_exe_node table_name = (RC.SUCCESS, some node) → False := by
    intro table_name node hn
    exact init_value_condition_unbound _ node.table_ c hl hr hno
      (create_select_exe_node_includes self table_name node c hc hl hr hn).1
  unfold SelectExecutor.select_filter_tuples SelectExecutor.select_all_table_tuple_sets
  cases hnodes : create_select_nodes self self.selects_.relations.reverse [] with
  | mk rcn nodes =>
    by_cases hrcn : rcn = RC.SUCCESS
    · subst hrcn
      obtain ⟨hall, _⟩ := create_select_nodes_all self (fun _ => False) hnone
        _ [] nodes (fun n hn => absurd hn (List.not_mem_nil n)) hnodes
      have hnil : nodes = [] := by
        cases nodes with
        | nil => rfl
        | cons n rest => exact (hall n (List.mem_cons_self _ _)).elim
      subst hnil
      exact ⟨RC.SQL_SYNTAX, by decide, by simp⟩
    · exact ⟨rcn, hrcn, by simp [hrcn]⟩

/-- C25, amended: in a query with a condition between two values, (1) if the
condition evaluates to false under `value_compare`, every scan node that is
created has the filter of the condition in its filter list, accepts no record
and yields no tuple when it runs, scans that all return SUCCESS yield tuple
sets without tuples, and every run of `select_filter_tuples` that returns
SUCCESS returns the empty tuple vector; (2) if the condition does not pass the
bind (its types fail the type rule, a type is UNDEFINED, or the operator is
out of range), `select_filter_tuples` returns an error code and leaves the
schema and the vector of the caller unchanged; (3) if the condition passes the
bind and evaluates to true, the result is the same as without the
condition. -/
theorem C25_constant_predicate (self : SelectExecutor) (pre post : List Condition)
    (c : Condition) (tuple_schema : TupleSchema) (filter_tuple_vector : List Tuple)
    (hl : c.left_is_attr = 0) (hr : c.right_is_attr = 0) :
    (value_compare c.left_value c.right_value c.comp = false →
      (∀ table_name node,
        (with_conditions self (pre ++ c :: post)).create_select_exe_node table_name =
            (RC.SUCCESS, some node) →
          (DefaultConditionFilter.new.init node.table_ c).2 ∈ node.condition_filters_ ∧
          (∀ rec, composite_filter node.condition_filters_ rec ≠ some true) ∧
          ∀ rc tuple_set, node.execute = some (rc, tuple_set) → tuple_set.tuples = []) ∧
      (∀ tuple_sets,
        (with_conditions self (pre ++ c :: post)).select_all_table_tuple_sets [] =
            some (RC.SUCCESS, tuple_sets) →
          ∀ tuple_set ∈ tuple_sets, tuple_set.tuples = []) ∧
      ∀ schema v,
        (with_conditions self (pre ++ c :: post)).select_filter_tuples tuple_schema
            filter_tuple_vector = some (RC.SUCCESS, schema, v) →
        v = []) ∧
    (¬ (type_rule c.left_value.type c.right_value.type ∧
        c.left_value.type ≠ AttrType.UNDEFINED ∧ c.right_value.type ≠ AttrType.UNDEFINED ∧
        c.comp.code < CompOp.NO_OP.code) →
      ∃ rc, rc ≠ RC.SUCCESS ∧
        (with_conditions self (pre ++ c :: post)).select_filter_tuples tuple_schema
            filter_tuple_vector = some (rc, tuple_schema, filter_tuple_vector)) ∧
    (value_compare c.left_value c.right_value c.comp = true →
      type_rule c.left_value.type c.right_value.type →
      c.left_value.type ≠ AttrType.UNDEFINED →
      c.right_value.type ≠ AttrType.UNDEFINED →
      c.comp.code < CompOp.NO_OP.code →
      (with_conditions self (pre ++ c :: post)).select_filter_tuples tuple_schema
          filter_tuple_vector =
        (with_conditions self (pre ++ post)).select_filter_tuples tuple_schema
          filter_tuple_vector) := by
  have hc : c ∈ (with_conditions self (pre ++ c :: post)).selects_.conditions :=
    List.mem_append_right pre (List.mem_cons_self c post)
  refine ⟨?_, ?_, ?_⟩
  · intro hfalse
    refine ⟨?_, ?_, ?_⟩
    · intro table_name node hn
      have hrej := create_select_exe_node_rejects _ table_name node c hc hl hr hfalse hn
      refine ⟨(create_select_exe_node_includes _ table_name node c hc hl hr hn).2, hrej, ?_⟩
      intro rc tuple_set he
      unfold SelectExeNode.execute at he
      cases hs : scan_records node node.table_.records with
      | none => simp [hs] at he
      | some tuples =>
        simp only [hs, Option.some.injEq, Prod.mk.injEq] at he
        rw [← he.2]
        exact scan_records_rejected node _ tuples hrej hs
    · intro tuple_sets hscan
      exact select_all_table_tuple_sets_constant_false _ c hc hl hr hfalse tuple_sets hscan
    · intro schema v hrun
      exact select_filter_tuples_constant_false _ c hc hl hr hfalse tuple_schema schema
        filter_tuple_vector v hrun
  · intro hno
    exact select_filter_tuples_unbound _ c hc hl hr hno tuple_schema filter_tuple_vector
  · intro htrue hrule hlt hrt hop
    exact select_filter_tuples_insert self c hl hr
      (fun table => init_value_condition_bound _ table c hl hr hrule hlt hrt hop) htrue pre post
      tuple_schema filter_tuple_vector

/-- C25, amended, on `SELECT * FROM t, u`: with `WHERE 1 = 2` the run succeeds
with no tuple, with `WHERE 1 = 'a'` it returns an error code and leaves the
outputs, and `WHERE 1 = 1` gives the result of the query without condition. -/
theorem C25_constant_predicate_witness :
    ((with_conditions (scenario.select_star_from_t_u [])
        [scenario.value_condition (scenario.int_value 1) CompOp.EQUAL_TO
          (scenario.int_value 2)]).select_filter_tuples [] [] =
      some (RC.SUCCESS, scenario.schema_t_u, []) ∧
     ([] : List Tuple) = []) ∧
    (∃ rc, rc ≠ RC.SUCCESS ∧
      (with_conditions (scenario.select_star_from_t_u [])
        [scenario.value_condition (scenario.int_value 1) CompOp.EQUAL_TO
          (scenario.chars_value "a")]).select_filter_tuples [] [] = some (rc, [], [])) ∧
    (with_conditions (scenario.select_star_from_t_u [])
        [scenario.value_condition (scenario.int_value 1) CompOp.EQUAL_TO
          (scenario.int_value 1)]).select_filter_tuples [] [] =
      (with_conditions (scenario.select_star_from_t_u []) []).select_filter_tuples [] [] :=
  ⟨⟨by decide,
    ((C25_constant_predicate (scenario.select_star_from_t_u []) [] []
      (scenario.value_condition (scenario.int_value 1) CompOp.EQUAL_TO (scenario.int_value 2))
      [] [] (by decide) (by decide)).1 (by decide)).2.2 scenario.schema_t_u [] (by decide)⟩,
   (C25_constant_predicate (scenario.select_star_from_t_u []) [] []
      (scenario.value_condition (scenario.int_value 1) CompOp.EQUAL_TO
        (scenario.chars_value "a"))
      [] [] (by decide) (by decide)).2.1 (by decide),
   (C25_constant_predicate (scenario.select_star_from_t_u []) [] []
      (scenario.value_condition (scenario.int_value 1) CompOp.EQUAL_TO (scenario.int_value 1))
      [] [] (by decide) (by decide)).2.2 (by decide) (by decide) (by decide) (by decide)
      (by decide)⟩

/-- C25 as stated fails: in `SELECT * FROM t WHERE 1 = 'a'` the condition
between the INTS value 1 and the CHARS value "a" evaluates to false under
`value_compare`, but it does not pass the bind: no scan node is created and
`select_filter_tuples` returns SCHEMA_FIELD_TYPE_MISMATCH. -/
theorem C25_mismatched_constant_rejected :
    value_compare (scenario.int_value 1) (scenario.chars_value "a") CompOp.EQUAL_TO = false ∧
    ((scenario.select_star_from_t
        [scenario.value_condition (scenario.int_value 1) CompOp.EQUAL_TO
          (scenario.chars_value "a")]).create_select_exe_node "t").1 =
      RC.SCHEMA_FIELD_TYPE_MISMATCH ∧
    ((scenario.select_star_from_t
        [scenario.value_condition (scenario.int_value 1) CompOp.EQUAL_TO
          (scenario.chars_value "a")]).create_select_exe_node "t").2.isNone = true ∧
    (scenario.select_star_from_t
        [scenario.value_condition (scenario.int_value 1) CompOp.EQUAL_TO
          (scenario.chars_value "a")]).select_filter_tuples [] [] =
      some (RC.SCHEMA_FIELD_TYPE_MISMATCH, [], []) := by
  decide

/-! ## Properties of the operator mapping and of the projection schema -/

/-- C31: for every integer `cmp`, `judge_cmp_result` maps EQUAL_TO to
`cmp = 0`, NOT_EQUAL to `cmp ≠ 0`, LESS_THAN to `cmp < 0`, LESS_EQUAL to
`cmp ≤ 0`, GREAT_THAN to `cmp > 0` and GREAT_EQUAL to `cmp ≥ 0`, and the copy
of select_executor.cpp and the copy of condition_filter.cpp agree on every
operator and every `cmp`. -/
theorem C31_judge_mapping (cmp : Int) :
    (select_executor.judge_cmp_result CompOp.EQUAL_TO cmp = true ↔ cmp = 0) ∧
    (select_executor.judge_cmp_result CompOp.NOT_EQUAL cmp = true ↔ cmp ≠ 0) ∧
    (select_executor.judge_cmp_result CompOp.LESS_THAN cmp = true ↔ cmp < 0) ∧
    (select_executor.judge_cmp_result CompOp.LESS_EQUAL cmp = true ↔ cmp ≤ 0) ∧
    (select_executor.judge_cmp_result CompOp.GREAT_THAN cmp = true ↔ cmp > 0) ∧
    (select_executor.judge_cmp_result CompOp.GREAT_EQUAL cmp = true ↔ cmp ≥ 0) ∧
    ∀ comp_op, select_executor.judge_cmp_result comp_op cmp =
      condition_filter.judge_cmp_result comp_op cmp := by
  refine ⟨?_, ?_, ?_, ?_, ?_, ?_, ?_⟩
  · simp only [select_executor.judge_cmp_result, decide_eq_true_eq]
    exact eq_comm
  · simp only [select_executor.judge_cmp_result, decide_eq_true_eq]
  · simp only [select_executor.judge_cmp_result, decide_eq_true_eq]
  · simp only [select_executor.judge_cmp_result, decide_eq_true_eq]
  · simp only [select_executor.judge_cmp_result, decide_eq_true_eq]
  · simp only [select_executor.judge_cmp_result, decide_eq_true_eq]
  · intro comp_op
    cases comp_op <;> rfl

/-- With a relation name that names no table of the database,
`schema_add_field` dereferences the null table handle, whatever the field and
the schema are. -/
theorem schema_add_field_missing_table (self : SelectExecutor) (table_name : String)
    (field_name : Option String) (schema : TupleSchema)
    (h : self.find_table table_name = none) :
    self.schema_add_field table_name field_name schema = none := by
  unfold SelectExecutor.schema_add_field
  rw [h]

/-- C32: in `SELECT x.a FROM t`, where the database has no table `x`,
`schema_add_field` uses the null table handle that `find_table` returns, so
`get_select_tuple_schema`, `project` and `execute` have undefined behaviour
and return no code; for `SELECT x.* FROM t` `add_single_table_tuple_schema`
tests the handle and `get_select_tuple_schema` returns
SCHEMA_TABLE_NOT_EXIST. -/
theorem C32_missing_table_dereferenced :
    scenario.select_x_a_from_t.find_table "x" = none ∧
    scenario.select_x_a_from_t.schema_add_field "x" (some "a") [] = none ∧
    scenario.select_x_a_from_t.get_select_tuple_schema scenario.schema_t [] = none ∧
    scenario.select_x_a_from_t.select_filter_tuples [] [] =
      some (RC.SUCCESS, scenario.schema_t, scenario.rows_t) ∧
    scenario.select_x_a_from_t.project scenario.schema_t scenario.rows_t
      { schema := [], tuples := [] } = none ∧
    scenario.select_x_a_from_t.execute { schema := [], tuples := [] } = none ∧
    scenario.select_x_star_from_t.add_single_table_tuple_schema "x" [] =
      (RC.SCHEMA_TABLE_NOT_EXIST, []) ∧
    scenario.select_x_star_from_t.get_select_tuple_schema scenario.schema_t [] =
      some (RC.SCHEMA_TABLE_NOT_EXIST, []) := by
  refine ⟨rfl, ?_, ?_, ?_, ?_, ?_, ?_, ?_⟩ <;> decide

end Miniob
